import Mathlib

/-!
Specular shading of `lyss1010/rendering`

A shallow embedding of the three specular materials of the ray tracer

* `Specular::shade`           (`trunk/Source/Specular.cpp`),
* `SpecularReflector::shade`  (`Source/SpecularReflector.cpp`),
* `SpecularRefractor::shade`  (`Source/SpecularRefractor.cpp`),

and theorems about them.

Conventions of the embedding.

* `float` is an arbitrary linearly ordered field `K` (exact arithmetic); the
  library functions `sqrt` and `pow` are parameters (`Env.sqrt`, `Env.pow`).
* The two function-local `static int numRecursiveCalls` are fields of an
  explicit `State` that is threaded through every call.  They are unbounded
  integers: on the states the program can reach they stay between `0` and the
  cap, so the machine `int` never overflows.
* `scene.trace` is an oracle `Ray → tMin → tMax → Option HitInfo`
  (`none` is the C++ `false`).
* The recursion `shade → trace → material->shade → ...` is modelled with
  fuel: `Material.shade fuel` allows `fuel` nested `shade` frames and is `none`
  when they do not suffice.
* The `shade` of every other material kind is a total function
  (`Env.otherShade`) that does not call back into the three functions and
  cannot touch their function-local counters.
* `State.log` is ghost data.  It records, newest first, every `scene.trace`
  call made by the three embedded functions and every `numRecursiveCalls++` /
  `numRecursiveCalls--` together with the counter values right after it.  No
  embedded function reads it.
-/

namespace Rendering

/-! ## Data model -/

/-- Modelled from the spec: the class `Vector3` (the header `Vector3.h` is not
among the sources; the spec calls it "3-vector math").  Three floats with the
usual component-wise operations. -/
structure Vector3 (K : Type) where
  x : K
  y : K
  z : K
deriving DecidableEq, Repr

namespace Vector3

variable {K : Type} [LinearOrderedField K]

instance : Zero (Vector3 K) := ⟨⟨0, 0, 0⟩⟩

/-- Component-wise `operator+`. -/
instance : Add (Vector3 K) := ⟨fun a b => ⟨a.x + b.x, a.y + b.y, a.z + b.z⟩⟩

/-- Component-wise `operator-`. -/
instance : Sub (Vector3 K) := ⟨fun a b => ⟨a.x - b.x, a.y - b.y, a.z - b.z⟩⟩

/-- Unary minus. -/
instance : Neg (Vector3 K) := ⟨fun a => ⟨-a.x, -a.y, -a.z⟩⟩

/-- Component-wise `Vector3 * Vector3` (colour modulation, `m_kd * ...`). -/
instance : Mul (Vector3 K) := ⟨fun a b => ⟨a.x * b.x, a.y * b.y, a.z * b.z⟩⟩

/-- Scaling `float * Vector3`. -/
instance : HMul K (Vector3 K) (Vector3 K) := ⟨fun s a => ⟨s * a.x, s * a.y, s * a.z⟩⟩

/-- The constructor `Vector3(s)` with one argument: all components `s`. -/
def splat (s : K) : Vector3 K := ⟨s, s, s⟩

/-- The inner product `dot(a, b)`. -/
def dot (a b : Vector3 K) : K := a.x * b.x + a.y * b.y + a.z * b.z

/-- Modelled from the spec: `Vector3::normalize` (the header `Vector3.h` is
absent).  The spec says "normalized" and "unit direction": the vector is
divided by its Euclidean length, computed with the given square root. -/
def normalize (sqrt : K → K) (v : Vector3 K) : Vector3 K :=
  let len := sqrt (dot v v)
  ⟨v.x / len, v.y / len, v.z / len⟩

end Vector3

/-- Modelled from the spec: the class `Ray` (`Ray.h` is not among the
sources).  Origin `o`, direction `d` and the refractive index of the medium the
ray travels in; these are the three members the sources read and write. -/
structure Ray (K : Type) where
  o : Vector3 K
  d : Vector3 K
  refractiveIndex : K
deriving DecidableEq, Repr

/-- Modelled from the spec: the values of `Material::m_type` (`Material.h` is
not among the sources).  The three specular kinds are the ones the sources
set; `OTHER k` stands for every remaining kind (diffuse, ...), whose `shade` is
not part of the sources. -/
inductive MaterialType where
  | SPECULAR
  | SPECULAR_REFLECTOR
  | SPECULAR_REFRACTOR
  | OTHER (k : Nat)
deriving DecidableEq, Repr

/-- Modelled from the spec: a material object (`Material.h`, `Lambert.h` and
the class headers are not among the sources).  `m_type` is set by the
constructor of each class, so it identifies the override of the virtual
`shade`.  `m_kd`, `m_ka` and `m_phong_exp` are the members the bodies read;
`m_refractive_index` is what `getRefractiveIndex()` returns for this
object. -/
structure Material (K : Type) where
  m_type : MaterialType
  m_kd : Vector3 K
  m_ka : Vector3 K
  m_phong_exp : K
  m_refractive_index : K
deriving DecidableEq, Repr

/-- The accessor `Material::getType`. -/
def Material.getType {K : Type} (m : Material K) : MaterialType := m.m_type

/-- The accessor `Material::getRefractiveIndex`. -/
def Material.getRefractiveIndex {K : Type} (m : Material K) : K := m.m_refractive_index

/-- Modelled from the spec: the hit record `HitInfo` (declared outside the
sources): point `P`, normal `N` and the material struck. -/
structure HitInfo (K : Type) where
  P : Vector3 K
  N : Vector3 K
  material : Material K
deriving DecidableEq, Repr

/-- Modelled from the spec: the class `PointLight` (declared outside the
sources), with the two accessors the light loop uses. -/
structure PointLight (K : Type) where
  position : Vector3 K
  color : Vector3 K
deriving DecidableEq, Repr

/-- Modelled from the spec: the part of `Scene` the shading code uses
(`Scene.h` is not among the sources).  `trace` is the intersection oracle
(`none` for `false`), `environmentMap` the texture pointer (`none` for the null
pointer). -/
structure Scene (K : Type) where
  trace : Ray K → K → K → Option (HitInfo K)
  lights : List (PointLight K)
  environmentMap : Option Nat
  mapWidth : Int
  mapHeight : Int

/-- Constants, library functions and collaborators that the three files use
but do not define. -/
structure Env (K : Type) where
  /-- The constant `Material::SPECULAR_RECURSION_DEPTH`. -/
  SPECULAR_RECURSION_DEPTH : Int
  /-- The switch `USE_ENVIRONMENT_MAP`. -/
  USE_ENVIRONMENT_MAP : Bool
  /-- The constant `epsilon` (lower trace bound). -/
  epsilon : K
  /-- The constant `MIRO_TMAX` (upper trace bound). -/
  MIRO_TMAX : K
  /-- The library function `sqrt`. -/
  sqrt : K → K
  /-- The library function `pow`. -/
  pow : K → K → K
  /-- The function `EnvironmentMap::lookUp (direction, map, width, height)`. -/
  lookUp : Vector3 K → Nat → Int → Int → Vector3 K
  /-- The `shade` of the materials outside the three files: a total function
  of the material object, the ray, the hit and the scene. -/
  otherShade : Material K → Ray K → HitInfo K → Scene K → Vector3 K

/-- Ghost events recorded in `State.log`. -/
inductive Event (K : Type) where
  /-- A call `scene.trace (_, r, epsilon, MIRO_TMAX)`. -/
  | trace (r : Ray K)
  /-- The statement `numRecursiveCalls++` in the `shade` of kind `t`, with the
  values of both counters right after it. -/
  | push (t : MaterialType) (reflectorCalls refractorCalls : Int)
  /-- The statement `numRecursiveCalls--` in the `shade` of kind `t`, with the
  values of both counters right after it. -/
  | pop (t : MaterialType) (reflectorCalls refractorCalls : Int)
deriving DecidableEq, Repr

/-- The mutable program state. -/
structure State (K : Type) where
  /-- The `static int numRecursiveCalls` of `SpecularReflector::shade`. -/
  reflectorCalls : Int
  /-- The `static int numRecursiveCalls` of `SpecularRefractor::shade`. -/
  refractorCalls : Int
  /-- Ghost log, newest event first. -/
  log : List (Event K)
deriving DecidableEq, Repr

namespace State

variable {K : Type}

/-- Ghost: record a `scene.trace` call. -/
def traced (st : State K) (r : Ray K) : State K :=
  { st with log := Event.trace r :: st.log }

/-- The statement `numRecursiveCalls++` of `SpecularReflector::shade`. -/
def incReflector (st : State K) : State K :=
  { reflectorCalls := st.reflectorCalls + 1
    refractorCalls := st.refractorCalls
    log := Event.push .SPECULAR_REFLECTOR (st.reflectorCalls + 1) st.refractorCalls :: st.log }

/-- The statement `numRecursiveCalls--` of `SpecularReflector::shade`. -/
def decReflector (st : State K) : State K :=
  { reflectorCalls := st.reflectorCalls - 1
    refractorCalls := st.refractorCalls
    log := Event.pop .SPECULAR_REFLECTOR (st.reflectorCalls - 1) st.refractorCalls :: st.log }

/-- The statement `numRecursiveCalls++` of `SpecularRefractor::shade`. -/
def incRefractor (st : State K) : State K :=
  { reflectorCalls := st.reflectorCalls
    refractorCalls := st.refractorCalls + 1
    log := Event.push .SPECULAR_REFRACTOR st.reflectorCalls (st.refractorCalls + 1) :: st.log }

/-- The statement `numRecursiveCalls--` of `SpecularRefractor::shade`. -/
def decRefractor (st : State K) : State K :=
  { reflectorCalls := st.reflectorCalls
    refractorCalls := st.refractorCalls - 1
    log := Event.pop .SPECULAR_REFRACTOR st.reflectorCalls (st.refractorCalls - 1) :: st.log }

/-- Ghost: the rays traced so far according to the log, newest first. -/
def traces (st : State K) : List (Ray K) :=
  st.log.filterMap fun e => match e with
    | Event.trace r => some r
    | _ => none

end State

/-! ## The shading code -/

section Code

variable {K : Type} [LinearOrderedField K]

/-- The type of `material->shade (ray, hit, scene)` as seen by a caller: the
colour and the new state, or `none` when the callee does not finish. -/
abbrev ShadeFn (K : Type) :=
  Material K → Ray K → HitInfo K → State K → Option (Vector3 K × State K)

/-- The expression `-2 * dot(d, N) * N + d` followed by `normalize()`
(`SpecularReflector.cpp` 32-33, `SpecularRefractor.cpp` 102-103,
`Specular.cpp` 30-31). -/
def reflectDir (env : Env K) (d N : Vector3 K) : Vector3 K :=
  Vector3.normalize env.sqrt ((-2 * Vector3.dot d N) * N + d)

/-- One iteration of the light loop (`SpecularReflector.cpp` 65-74,
`SpecularRefractor.cpp` 174-182): the new value of `L`. -/
def phongStep (env : Env K) (self : Material K) (ray : Ray K) (hit : HitInfo K)
    (L : Vector3 K) (pLight : PointLight K) : Vector3 K :=
  let l := Vector3.normalize env.sqrt (pLight.position - hit.P)
  let viewDir := -ray.d
  let lightReflectDir := (2 * Vector3.dot l hit.N) * hit.N - l
  let viewDirDotReflectDir := Vector3.dot viewDir lightReflectDir
  if viewDirDotReflectDir > 0 then
    L + (max 0 (env.pow viewDirDotReflectDir self.m_phong_exp)) * pLight.color
  else L

/-- The block "add in the phong highlights (if necessary)"
(`SpecularReflector.cpp` 56-76, `SpecularRefractor.cpp` 165-184). -/
def phongHighlights (env : Env K) (scene : Scene K) (self : Material K) (ray : Ray K)
    (hit : HitInfo K) (L : Vector3 K) : Vector3 K :=
  if self.m_phong_exp ≠ 0 then
    scene.lights.foldl (phongStep env self ray hit) L
  else L

/-- The miss branch of `SpecularReflector::shade` (lines 45-54). -/
def SpecularReflector.missColor (env : Env K) (scene : Scene K) (self : Material K)
    (reflectedRay : Ray K) : Vector3 K :=
  match env.USE_ENVIRONMENT_MAP, scene.environmentMap with
  | true, some map => env.lookUp reflectedRay.d map scene.mapWidth scene.mapHeight
  | _, _ => self.m_kd

/-- Lines 40-54 of `SpecularReflector::shade`: trace the reflected ray; on a
hit `L = m_kd * material->shade (...)`, on a miss the miss colour. -/
def SpecularReflector.traceRay (env : Env K) (scene : Scene K) (shade : ShadeFn K)
    (self : Material K) (reflectedRay : Ray K) (st : State K) :
    Option (Vector3 K × State K) :=
  match scene.trace reflectedRay env.epsilon env.MIRO_TMAX with
  | some recursiveHit =>
    match shade recursiveHit.material reflectedRay recursiveHit (st.traced reflectedRay) with
    | none => none
    | some (c, st2) => some (self.m_kd * c, st2)
  | none => some (SpecularReflector.missColor env scene self reflectedRay, st.traced reflectedRay)

/-- The function `SpecularReflector::shade`; the argument `shade` is the
virtual call `recursiveHit.material->shade`. -/
def SpecularReflector.shade (env : Env K) (scene : Scene K) (shade : ShadeFn K)
    (self : Material K) (ray : Ray K) (hit : HitInfo K) (st : State K) :
    Option (Vector3 K × State K) :=
  if st.reflectorCalls = env.SPECULAR_RECURSION_DEPTH then
    some (⟨0, 0, 0⟩, st)
  else
    let st0 := st.incReflector
    let reflectedRay : Ray K :=
      { o := hit.P, d := reflectDir env ray.d hit.N, refractiveIndex := ray.refractiveIndex }
    match SpecularReflector.traceRay env scene shade self reflectedRay st0 with
    | none => none
    | some (L, st2) =>
      some (phongHighlights env scene self ray hit L + self.m_ka, st2.decReflector)

/-- The values fixed by the entering / exiting test of
`SpecularRefractor::shade` (lines 69-96). -/
structure Snell (K : Type) where
  n1 : K
  n2 : K
  normal : Vector3 K
  refractedRayIndex : K
  nDotViewDir : K
  flipped : Bool
deriving DecidableEq, Repr

/-- Lines 69-96 of `SpecularRefractor::shade`. -/
def SpecularRefractor.snell (ray : Ray K) (hit : HitInfo K) : Snell K :=
  let viewDir := -ray.d
  let nDotViewDir := Vector3.dot viewDir hit.N
  if nDotViewDir > 0 then
    { n1 := ray.refractiveIndex
      n2 := hit.material.getRefractiveIndex
      normal := hit.N
      refractedRayIndex := hit.material.getRefractiveIndex
      nDotViewDir := nDotViewDir
      flipped := false }
  else
    { n1 := hit.material.getRefractiveIndex
      n2 := 1
      normal := -hit.N
      refractedRayIndex := 1
      nDotViewDir := nDotViewDir * -1
      flipped := true }

/-- Line 98: `refractiveIndexRatio = n1 / n2`. -/
def Snell.indexRatio (s : Snell K) : K := s.n1 / s.n2

/-- Line 99: the radicand of Snell's law. -/
def Snell.radicand (s : Snell K) : K :=
  1 - (s.indexRatio * s.indexRatio) * (1 - (s.nDotViewDir * s.nDotViewDir))

/-- Lines 140-141: the refracted direction. -/
def SpecularRefractor.refractDir (env : Env K) (ray : Ray K) (s : Snell K) : Vector3 K :=
  let viewDir := -ray.d
  Vector3.normalize env.sqrt
    ((-s.indexRatio) * (viewDir - s.nDotViewDir * s.normal) - env.sqrt s.radicand * s.normal)

/-- The miss branches of `SpecularRefractor::shade` (lines 126-135 and
152-161), `r` being the ray that was traced. -/
def SpecularRefractor.missColor (env : Env K) (scene : Scene K) (self : Material K)
    (r : Ray K) : Vector3 K :=
  match env.USE_ENVIRONMENT_MAP, scene.environmentMap with
  | true, some map => env.lookUp r.d map scene.mapWidth scene.mapHeight
  | _, _ => self.m_kd * Vector3.splat (1 / 2)

/-- Lines 122-135 and 147-161 of `SpecularRefractor::shade` (the same
statements for the reflected and for the refracted ray `r`): trace `r`; on a
hit `L = m_kd * material->shade (...)`, on a miss the miss colour. -/
def SpecularRefractor.traceRay (env : Env K) (scene : Scene K) (shade : ShadeFn K)
    (self : Material K) (r : Ray K) (st : State K) : Option (Vector3 K × State K) :=
  match scene.trace r env.epsilon env.MIRO_TMAX with
  | some recursiveHit =>
    match shade recursiveHit.material r recursiveHit (st.traced r) with
    | none => none
    | some (c, st2) => some (self.m_kd * c, st2)
  | none => some (SpecularRefractor.missColor env scene self r, st.traced r)

/-- Lines 165-189 of `SpecularRefractor::shade`: highlights, ambient term,
`numRecursiveCalls--`, applied to the outcome of the recursive part. -/
def SpecularRefractor.finish (env : Env K) (scene : Scene K) (self : Material K)
    (ray : Ray K) (hit : HitInfo K) :
    Option (Vector3 K × State K) → Option (Vector3 K × State K)
  | none => none
  | some (L, st2) =>
    some (phongHighlights env scene self ray hit L + self.m_ka, st2.decRefractor)

/-- The function `SpecularRefractor::shade`; the argument `shade` is the
virtual call `recursiveHit.material->shade`. -/
def SpecularRefractor.shade (env : Env K) (scene : Scene K) (shade : ShadeFn K)
    (self : Material K) (ray : Ray K) (hit : HitInfo K) (st : State K) :
    Option (Vector3 K × State K) :=
  if st.refractorCalls = env.SPECULAR_RECURSION_DEPTH then
    some (⟨0, 0, 0⟩, st)
  else
    let st0 := st.incRefractor
    let s := SpecularRefractor.snell ray hit
    if s.radicand < 0 then
      if s.flipped = true then
        some (⟨0, 0, 0⟩, st0.decRefractor)
      else
        let reflectedRay : Ray K :=
          { o := hit.P, d := reflectDir env ray.d hit.N, refractiveIndex := ray.refractiveIndex }
        SpecularRefractor.finish env scene self ray hit
          (SpecularRefractor.traceRay env scene shade self reflectedRay st0)
    else
      let refractedRay : Ray K :=
        { o := hit.P, d := SpecularRefractor.refractDir env ray s,
          refractiveIndex := s.refractedRayIndex }
      SpecularRefractor.finish env scene self ray hit
        (SpecularRefractor.traceRay env scene shade self refractedRay st0)

/-- The constant `Specular::RECURSION_DEPTH`. -/
def Specular.RECURSION_DEPTH : Int := 20

/-- The variables of `Specular::shade` when its `do ... while` loop is left:
`hit` is `none` when `hitSomething` is false and the last `recursiveHit`
otherwise. -/
structure Bounce (K : Type) where
  hit : Option (HitInfo K)
  reflectedRay : Ray K
  numRecursiveCalls : Int
  st : State K

/-- The `do ... while` loop of `Specular::shade` (lines 27-39), entered with
the current `recursiveHit`, `reflectedRay` and `numRecursiveCalls`. -/
def Specular.loop (env : Env K) (scene : Scene K) (recursiveHit : HitInfo K)
    (reflectedRay : Ray K) (numRecursiveCalls : Int) (st : State K) : Bounce K :=
  let reflectedRay1 : Ray K :=
    { reflectedRay with o := recursiveHit.P, d := reflectDir env reflectedRay.d recursiveHit.N }
  let st1 := st.traced reflectedRay1
  match scene.trace reflectedRay1 env.epsilon env.MIRO_TMAX with
  | some h =>
    if h.material.getType = MaterialType.SPECULAR ∧
        numRecursiveCalls + 1 < Specular.RECURSION_DEPTH then
      Specular.loop env scene h reflectedRay1 (numRecursiveCalls + 1) st1
    else
      { hit := some h, reflectedRay := reflectedRay1,
        numRecursiveCalls := numRecursiveCalls + 1, st := st1 }
  | none =>
    { hit := none, reflectedRay := reflectedRay1,
      numRecursiveCalls := numRecursiveCalls + 1, st := st1 }
termination_by (Specular.RECURSION_DEPTH - numRecursiveCalls).toNat
decreasing_by
  simp_wf
  omega

/-- The function `Specular::shade`; the argument `shade` is the virtual call
`recursiveHit.material->shade`. -/
def Specular.shade (env : Env K) (scene : Scene K) (shade : ShadeFn K)
    (self : Material K) (ray : Ray K) (hit : HitInfo K) (st : State K) :
    Option (Vector3 K × State K) :=
  let b := Specular.loop env scene hit ray 0 st
  match b.hit with
  | none => some (self.m_kd, b.st)
  | some recursiveHit =>
    if recursiveHit.material.getType = MaterialType.SPECULAR then
      some (self.m_kd, b.st)
    else
      match shade recursiveHit.material b.reflectedRay recursiveHit b.st with
      | none => none
      | some (c, st2) => some (self.m_kd * c, st2)

/-- The virtual call `self->shade (ray, hit, scene)`, dispatched on the kind
of `self`.  `fuel` bounds the number of nested `shade` frames; with no fuel
left the call does not return (`none`). -/
def Material.shade (env : Env K) (scene : Scene K) :
    Nat → Material K → Ray K → HitInfo K → State K → Option (Vector3 K × State K)
  | 0, _, _, _, _ => none
  | fuel + 1, self, ray, hit, st =>
    match self.m_type with
    | .SPECULAR =>
      Specular.shade env scene (Material.shade env scene fuel) self ray hit st
    | .SPECULAR_REFLECTOR =>
      SpecularReflector.shade env scene (Material.shade env scene fuel) self ray hit st
    | .SPECULAR_REFRACTOR =>
      SpecularRefractor.shade env scene (Material.shade env scene fuel) self ray hit st
    | .OTHER _ => some (env.otherShade self ray hit scene, st)

end Code

end Rendering

namespace Rendering

/-! ## Definitions that follow the wording of the specification -/

section SpecSide

variable {K : Type} [LinearOrderedField K]

/-- The sum of a list of colours. -/
def Vector3.sum (cs : List (Vector3 K)) : Vector3 K := cs.foldr (fun c acc => c + acc) 0

/-- The contribution of one point light as the specification words it: with
`l` the unit direction from `hit.P` to the light and
`c = dot (-ray.d, 2 dot (l, N) N - l)`, the light contributes
`max (0, c ^ exponent) * lightColor` if the Phong exponent is nonzero and
`c > 0`, and zero otherwise. -/
def phongContribution (env : Env K) (self : Material K) (ray : Ray K) (hit : HitInfo K)
    (light : PointLight K) : Vector3 K :=
  let l := Vector3.normalize env.sqrt (light.position - hit.P)
  let c := Vector3.dot (-ray.d) ((2 * Vector3.dot l hit.N) * hit.N - l)
  if self.m_phong_exp ≠ 0 ∧ c > 0 then
    (max 0 (env.pow c self.m_phong_exp)) * light.color
  else 0

/-- The reflected ray that `SpecularReflector::shade` builds (lines 35-38; the
same ray is built in lines 117-120 of `SpecularRefractor::shade`). -/
def reflectedRayOf (env : Env K) (ray : Ray K) (hit : HitInfo K) : Ray K :=
  { o := hit.P, d := reflectDir env ray.d hit.N, refractiveIndex := ray.refractiveIndex }

/-- The refracted ray that `SpecularRefractor::shade` builds (lines 139-145). -/
def refractedRayOf (env : Env K) (ray : Ray K) (hit : HitInfo K) : Ray K :=
  { o := hit.P, d := SpecularRefractor.refractDir env ray (SpecularRefractor.snell ray hit),
    refractiveIndex := (SpecularRefractor.snell ray hit).refractedRayIndex }

/-- The ray that `SpecularRefractor::shade` traces on its non-terminal paths:
the reflected ray when the radicand is negative, the refracted ray
otherwise. -/
def SpecularRefractor.tracedRay (env : Env K) (ray : Ray K) (hit : HitInfo K) : Ray K :=
  if (SpecularRefractor.snell ray hit).radicand < 0 then reflectedRayOf env ray hit
  else refractedRayOf env ray hit

/-- Both recursion counters lie between `0` and `SPECULAR_RECURSION_DEPTH`. -/
def State.InRange (env : Env K) (st : State K) : Prop :=
  (0 ≤ st.reflectorCalls ∧ st.reflectorCalls ≤ env.SPECULAR_RECURSION_DEPTH) ∧
  (0 ≤ st.refractorCalls ∧ st.refractorCalls ≤ env.SPECULAR_RECURSION_DEPTH)

instance (env : Env K) (st : State K) : Decidable (st.InRange env) := by
  unfold State.InRange; infer_instance

/-- How many more non-terminal frames the two counters allow together. -/
def State.slack (env : Env K) (st : State K) : Nat :=
  (env.SPECULAR_RECURSION_DEPTH - st.reflectorCalls).toNat +
  (env.SPECULAR_RECURSION_DEPTH - st.refractorCalls).toNat

/-- A number of nested `shade` frames that always suffices when both counters
start in range: `4 * SPECULAR_RECURSION_DEPTH + 2`. -/
def fuelBound (env : Env K) : Nat := 4 * env.SPECULAR_RECURSION_DEPTH.toNat + 2

/-- The counter values recorded by an event lie between `0` and `cap` (a
`trace` event records none). -/
def Event.countersInRange (cap : Int) : Event K → Prop
  | Event.trace _ => True
  | Event.push _ r f => (0 ≤ r ∧ r ≤ cap) ∧ (0 ≤ f ∧ f ≤ cap)
  | Event.pop _ r f => (0 ≤ r ∧ r ≤ cap) ∧ (0 ≤ f ∧ f ≤ cap)

/-- The effect of one event on the number of active non-terminal frames of
kind `t`: `+1` for its `numRecursiveCalls++`, `-1` for its
`numRecursiveCalls--`. -/
def Event.delta (t : MaterialType) : Event K → Int
  | Event.trace _ => 0
  | Event.push u _ _ => if u = t then 1 else 0
  | Event.pop u _ _ => if u = t then -1 else 0

/-- The number of `shade` frames of kind `t` that have passed their depth
guard and not yet returned, after the events of `log` (newest first). -/
def activeFrames (t : MaterialType) : List (Event K) → Int
  | [] => 0
  | e :: s => Event.delta t e + activeFrames t s

/-- The counter values recorded by an event are `r` and `f` (a `trace` event
records none). -/
def Event.records (r f : Int) : Event K → Prop
  | Event.trace _ => True
  | Event.push _ r1 f1 => r1 = r ∧ f1 = f
  | Event.pop _ r1 f1 => r1 = r ∧ f1 = f

/-- The events `new` (newest first) of a computation started with counter
values `r0` and `f0`: at every point the numbers `a`, `b` of active reflector
and refractor frames are not negative, `r0 + a` and `f0 + b` do not exceed the
cap, these are the counter values the event records, and no frame of another
kind is counted. -/
def LogOK (cap r0 f0 : Int) : List (Event K) → Prop
  | [] => True
  | e :: s =>
    LogOK cap r0 f0 s ∧
    0 ≤ activeFrames MaterialType.SPECULAR_REFLECTOR (e :: s) ∧
    r0 + activeFrames MaterialType.SPECULAR_REFLECTOR (e :: s) ≤ cap ∧
    0 ≤ activeFrames MaterialType.SPECULAR_REFRACTOR (e :: s) ∧
    f0 + activeFrames MaterialType.SPECULAR_REFRACTOR (e :: s) ≤ cap ∧
    Event.records (r0 + activeFrames MaterialType.SPECULAR_REFLECTOR (e :: s))
      (f0 + activeFrames MaterialType.SPECULAR_REFRACTOR (e :: s)) e ∧
    ∀ t, t ≠ MaterialType.SPECULAR_REFLECTOR → t ≠ MaterialType.SPECULAR_REFRACTOR →
      activeFrames t (e :: s) = 0

/-- A `shade` function whose events, whenever it is started with both
counters in range and returns, satisfy `LogOK` and leave no frame active. -/
def LogBounded (env : Env K) (f : ShadeFn K) : Prop :=
  ∀ m r h (st : State K) c st2, st.InRange env → f m r h st = some (c, st2) →
    ∃ new, st2.log = new ++ st.log ∧
      LogOK env.SPECULAR_RECURSION_DEPTH st.reflectorCalls st.refractorCalls new ∧
      activeFrames MaterialType.SPECULAR_REFLECTOR new = 0 ∧
      activeFrames MaterialType.SPECULAR_REFRACTOR new = 0

/-- A `shade` function that, whenever it returns, has restored both
counters. -/
def CountersKept (f : ShadeFn K) : Prop :=
  ∀ m r h st c st2, f m r h st = some (c, st2) →
    st2.reflectorCalls = st.reflectorCalls ∧ st2.refractorCalls = st.refractorCalls

/-- Replace the tint `m_kd` of a `SPECULAR` material by `g m`; leave every
other material as it is. -/
def Material.recolor (g : Material K → Vector3 K) (m : Material K) : Material K :=
  if m.m_type = MaterialType.SPECULAR then { m with m_kd := g m } else m

/-- A hit record with its material recoloured. -/
def HitInfo.recolor (g : Material K → Vector3 K) (h : HitInfo K) : HitInfo K :=
  { h with material := h.material.recolor g }

/-- The same scene with the tint of every `SPECULAR` mirror replaced: the
trace oracle returns the same hits with recoloured materials. -/
def Scene.recolor (g : Material K → Vector3 K) (scene : Scene K) : Scene K :=
  { scene with trace := fun r tMin tMax => (scene.trace r tMin tMax).map (HitInfo.recolor g) }

/-- The nested `shade` made unable to run on a `SPECULAR` material: there it
never returns. -/
def ShadeFn.withoutMirrors (f : ShadeFn K) : ShadeFn K :=
  fun m r h st => if m.getType = MaterialType.SPECULAR then none else f m r h st

/-- All three components of a colour are non-negative. -/
def Vector3.NonNeg (v : Vector3 K) : Prop := 0 ≤ v.x ∧ 0 ≤ v.y ∧ 0 ≤ v.z

/-- The scene has non-negative radiance data: every material the trace oracle
can return has non-negative `kd` and `ka`, every light colour and every
environment-map sample is non-negative, and the out-of-scope `shade` returns a
non-negative colour for every material with non-negative `kd` and `ka`. -/
def Scene.NonNegative (env : Env K) (scene : Scene K) : Prop :=
  (∀ r tMin tMax h, scene.trace r tMin tMax = some h →
    h.material.m_kd.NonNeg ∧ h.material.m_ka.NonNeg) ∧
  (∀ l ∈ scene.lights, l.color.NonNeg) ∧
  (∀ d map w h, (env.lookUp d map w h).NonNeg) ∧
  (∀ (m : Material K) r h, m.m_kd.NonNeg → m.m_ka.NonNeg →
    (env.otherShade m r h scene).NonNeg)

/-- A `shade` function that returns only non-negative colours for materials
with non-negative `kd` and `ka`. -/
def NonNegShade (f : ShadeFn K) : Prop :=
  ∀ (m : Material K) r h st c st2, m.m_kd.NonNeg → m.m_ka.NonNeg →
    f m r h st = some (c, st2) → c.NonNeg

/-- The function `sqrt` is exact at `x`: its value is the non-negative square
root of `x`. -/
def ExactSqrtAt (sqrt : K → K) (x : K) : Prop := 0 ≤ sqrt x ∧ sqrt x * sqrt x = x

/-- Line 140 of `SpecularRefractor::shade`: the refracted direction before
`normalize ()`. -/
def SpecularRefractor.refractVec (env : Env K) (ray : Ray K) (s : Snell K) : Vector3 K :=
  (-s.indexRatio) * (-ray.d - s.nDotViewDir * s.normal) - env.sqrt s.radicand * s.normal

end SpecSide

/-! ## Concrete objects used to instantiate the theorems -/

section Examples

/-- A configuration over the rationals: cap `2`, environment maps enabled,
`sqrt` the rational square root (exact on squares), `pow` the integer power
(exact on integral exponents), an environment map that is blue everywhere and
out-of-scope materials that return their `m_kd` once per light. -/
def exEnv : Env ℚ where
  SPECULAR_RECURSION_DEPTH := 2
  USE_ENVIRONMENT_MAP := true
  epsilon := 1 / 1000
  MIRO_TMAX := 1000000
  sqrt := Rat.sqrt
  pow := fun b e => b ^ ⌊e⌋
  lookUp := fun _ _ _ _ => ⟨0, 0, 1⟩
  otherShade := fun m _ _ scene => (scene.lights.length : ℚ) * m.m_kd

/-- An empty scene: nothing to hit, no light, no environment map. -/
def exEmptyScene : Scene ℚ where
  trace := fun _ _ _ => none
  lights := []
  environmentMap := none
  mapWidth := 0
  mapHeight := 0

/-- A white mirror without highlight and with ambient colour `(1, 1, 1)`. -/
def exMirror : Material ℚ where
  m_type := .SPECULAR_REFLECTOR
  m_kd := ⟨1, 1, 1⟩
  m_ka := ⟨1, 1, 1⟩
  m_phong_exp := 0
  m_refractive_index := 1

/-- A white dielectric of index `3 / 2` with ambient colour `(1, 1, 1)`. -/
def exGlass : Material ℚ where
  m_type := .SPECULAR_REFRACTOR
  m_kd := ⟨1, 1, 1⟩
  m_ka := ⟨1, 1, 1⟩
  m_phong_exp := 0
  m_refractive_index := 3 / 2

/-- A red mirror of the `Specular` class. -/
def exChain : Material ℚ where
  m_type := .SPECULAR
  m_kd := ⟨1, 0, 0⟩
  m_ka := ⟨0, 0, 0⟩
  m_phong_exp := 0
  m_refractive_index := 1

/-- A ray travelling down the z axis in air. -/
def exRay : Ray ℚ where
  o := ⟨0, 0, 1⟩
  d := ⟨0, 0, -1⟩
  refractiveIndex := 1

/-- A hit of `exRay` at the origin on a surface facing up. -/
def exHit (m : Material ℚ) : HitInfo ℚ where
  P := ⟨0, 0, 0⟩
  N := ⟨0, 0, 1⟩
  material := m

/-- A ray inside the glass travelling up towards the surface at a shallow
angle (cosine `3 / 5` with the normal of `exHit`). -/
def exRayInside : Ray ℚ where
  o := ⟨-4, 0, -3⟩
  d := ⟨4 / 5, 0, 3 / 5⟩
  refractiveIndex := 3 / 2

/-- A white material of index `1` (a thin medium) with ambient colour
`(1, 1, 1)`, shaded by `SpecularRefractor::shade`. -/
def exThin : Material ℚ where
  m_type := .SPECULAR_REFRACTOR
  m_kd := ⟨1, 1, 1⟩
  m_ka := ⟨1, 1, 1⟩
  m_phong_exp := 0
  m_refractive_index := 1

/-- A ray travelling in a medium of index `2` that meets the surface of
`exHit` from above at cosine `3 / 5`. -/
def exRayDense : Ray ℚ where
  o := ⟨4, 0, 3⟩
  d := ⟨-4 / 5, 0, -3 / 5⟩
  refractiveIndex := 2

/-- A white mirror with Phong exponent `1` and no ambient colour. -/
def exShiny : Material ℚ where
  m_type := .SPECULAR_REFLECTOR
  m_kd := ⟨1, 1, 1⟩
  m_ka := ⟨0, 0, 0⟩
  m_phong_exp := 1
  m_refractive_index := 1

/-- The mirror image of `exRay`: from the origin up the z axis. -/
def exRayUp : Ray ℚ where
  o := ⟨0, 0, 0⟩
  d := ⟨0, 0, 1⟩
  refractiveIndex := 1

/-- A hit of `exRayUp` on `exShiny` at `(0, 0, 5)`, on a surface facing down. -/
def exHitTop : HitInfo ℚ where
  P := ⟨0, 0, 5⟩
  N := ⟨0, 0, -1⟩
  material := exShiny

/-- Two mirrors facing each other: every ray that starts at the origin hits
`exShiny` at `(0, 0, 5)` (the record `exHitTop`); every other ray misses.
The light list is a parameter. -/
def exFacingScene (lights : List (PointLight ℚ)) : Scene ℚ where
  trace := fun r _ _ => if r.o = ⟨0, 0, 0⟩ then some exHitTop else none
  lights := lights
  environmentMap := none
  mapWidth := 0
  mapHeight := 0

/-- A hall of mirrors: two parallel mirrors `exMirror` at `z = 0` and `z = 5`;
a ray leaving one always hits the other, for ever. -/
def exHallScene : Scene ℚ where
  trace := fun r _ _ =>
    if r.o.z = 0 then some ⟨⟨0, 0, 5⟩, ⟨0, 0, -1⟩, exMirror⟩
    else some ⟨⟨0, 0, 0⟩, ⟨0, 0, 1⟩, exMirror⟩
  lights := [⟨⟨0, 0, 4⟩, ⟨1, 1, 1⟩⟩]
  environmentMap := none
  mapWidth := 0
  mapHeight := 0

/-- A hall of `Specular` mirrors: every ray hits the mirror `exChain` one unit
above its origin. -/
def exChainHall : Scene ℚ where
  trace := fun r _ _ => some ⟨r.o + ⟨0, 0, 1⟩, ⟨0, 0, -1⟩, exChain⟩
  lights := []
  environmentMap := none
  mapWidth := 0
  mapHeight := 0

/-- A white point light on the z axis between the two mirrors. -/
def exLight : PointLight ℚ where
  position := ⟨0, 0, 4⟩
  color := ⟨1, 1, 1⟩

/-- The initial program state: both counters `0`, empty log. -/
def exState0 : State ℚ := ⟨0, 0, []⟩

/-- A state in which both counters have reached the cap of `exEnv`. -/
def exStateCap : State ℚ := ⟨2, 2, []⟩

/-- A blue mirror of the `Specular` class. -/
def exChainBlue : Material ℚ where
  m_type := .SPECULAR
  m_kd := ⟨0, 0, 1⟩
  m_ka := ⟨0, 0, 0⟩
  m_phong_exp := 0
  m_refractive_index := 1

/-- A yellow material of a kind outside the three files. -/
def exDiffuse : Material ℚ where
  m_type := .OTHER 0
  m_kd := ⟨1, 1, 0⟩
  m_ka := ⟨0, 0, 0⟩
  m_phong_exp := 0
  m_refractive_index := 1

/-- The hit on the blue mirror `exChainBlue` at `(0, 0, 5)`. -/
def exHitBlue : HitInfo ℚ where
  P := ⟨0, 0, 5⟩
  N := ⟨0, 0, -1⟩
  material := exChainBlue

/-- The hit on the yellow material `exDiffuse` at `(1, 0, 0)`. -/
def exHitDiffuse : HitInfo ℚ where
  P := ⟨1, 0, 0⟩
  N := ⟨0, 0, 1⟩
  material := exDiffuse

/-- A scene with two bounces: a ray that starts at the origin hits the blue
mirror (`exHitBlue`), a ray that starts at `(0, 0, 5)` hits the yellow material
(`exHitDiffuse`), every other ray misses.  One white light. -/
def exTwoBounce : Scene ℚ where
  trace := fun r _ _ =>
    if r.o = ⟨0, 0, 0⟩ then some exHitBlue
    else if r.o = ⟨0, 0, 5⟩ then some exHitDiffuse
    else none
  lights := [⟨⟨0, 0, 4⟩, ⟨1, 1, 1⟩⟩]
  environmentMap := none
  mapWidth := 0
  mapHeight := 0

/-- The configuration `exEnv` built with the switch `USE_ENVIRONMENT_MAP`
off. -/
def exEnvNoMap : Env ℚ := { exEnv with USE_ENVIRONMENT_MAP := false }

/-- An empty scene on which an environment map (handle `0`) is configured. -/
def exSkyScene : Scene ℚ where
  trace := fun _ _ _ => none
  lights := []
  environmentMap := some 0
  mapWidth := 64
  mapHeight := 32

/-- A ray in air that meets the surface of `exHit` from above at cosine
`4 / 5`. -/
def exRaySlant : Ray ℚ where
  o := ⟨-3, 0, 4⟩
  d := ⟨3 / 5, 0, -4 / 5⟩
  refractiveIndex := 1

/-- A white dielectric of index `39 / 25 = 1.56`, for which the radicand of
`exRaySlant` is the square `(12 / 13) ^ 2`. -/
def exCrystal : Material ℚ where
  m_type := .SPECULAR_REFRACTOR
  m_kd := ⟨1, 1, 1⟩
  m_ka := ⟨0, 0, 0⟩
  m_phong_exp := 0
  m_refractive_index := 39 / 25

/-- The exit of the slab of `exCrystal`: a hit whose outward normal points
down. -/
def exHitExit : HitInfo ℚ where
  P := ⟨5, 0, -12⟩
  N := ⟨0, 0, -1⟩
  material := exCrystal

/-- A white mirror of the `Specular` class. -/
def exChainWhite : Material ℚ where
  m_type := .SPECULAR
  m_kd := ⟨1, 1, 1⟩
  m_ka := ⟨0, 0, 0⟩
  m_phong_exp := 0
  m_refractive_index := 1

/-- A mirror `M` of the `Specular` class whose tint `kd` is a parameter. -/
def exMirrorM (kd : Vector3 ℚ) : Material ℚ where
  m_type := .SPECULAR
  m_kd := kd
  m_ka := ⟨0, 0, 0⟩
  m_phong_exp := 0
  m_refractive_index := 1

/-- A white `SpecularReflector` without highlight and without ambient
colour. -/
def exPlain : Material ℚ where
  m_type := .SPECULAR_REFLECTOR
  m_kd := ⟨1, 1, 1⟩
  m_ka := ⟨0, 0, 0⟩
  m_phong_exp := 0
  m_refractive_index := 1

/-- The hit on the reflector `exPlain` at `(1, 0, 0)`. -/
def exHitPlain : HitInfo ℚ where
  P := ⟨1, 0, 0⟩
  N := ⟨0, 0, 1⟩
  material := exPlain

/-- A scene in which the light path comes back to a mirror of the chain: a ray
that starts at the origin hits the mirror `M` at `(0, 0, 5)`; a ray that starts
there hits the reflector `exPlain` at `(1, 0, 0)`; a ray that starts there
hits `M` again, at `(0, 0, 7)`; a ray that starts there misses.  No light, no
environment map.  The tint `kd` of `M` is the only parameter. -/
def exLoopBack (kd : Vector3 ℚ) : Scene ℚ where
  trace := fun r _ _ =>
    if r.o = ⟨0, 0, 0⟩ then some ⟨⟨0, 0, 5⟩, ⟨0, 0, -1⟩, exMirrorM kd⟩
    else if r.o = ⟨0, 0, 5⟩ then some exHitPlain
    else if r.o = ⟨1, 0, 0⟩ then some ⟨⟨0, 0, 7⟩, ⟨0, 0, -1⟩, exMirrorM kd⟩
    else none
  lights := []
  environmentMap := none
  mapWidth := 0
  mapHeight := 0

end Examples

/-! ## Basic facts -/

section Basic

variable {K : Type} [LinearOrderedField K]

omit [LinearOrderedField K] in
theorem Vector3.ext_iff3 (a b : Vector3 K) : a = b ↔ a.x = b.x ∧ a.y = b.y ∧ a.z = b.z := by
  cases a; cases b; simp

@[simp] theorem Vector3.add_x (a b : Vector3 K) : (a + b).x = a.x + b.x := rfl
@[simp] theorem Vector3.add_y (a b : Vector3 K) : (a + b).y = a.y + b.y := rfl
@[simp] theorem Vector3.add_z (a b : Vector3 K) : (a + b).z = a.z + b.z := rfl
@[simp] theorem Vector3.mul_x (a b : Vector3 K) : (a * b).x = a.x * b.x := rfl
@[simp] theorem Vector3.mul_y (a b : Vector3 K) : (a * b).y = a.y * b.y := rfl
@[simp] theorem Vector3.mul_z (a b : Vector3 K) : (a * b).z = a.z * b.z := rfl
@[simp] theorem Vector3.smul_x (s : K) (b : Vector3 K) : (s * b).x = s * b.x := rfl
@[simp] theorem Vector3.smul_y (s : K) (b : Vector3 K) : (s * b).y = s * b.y := rfl
@[simp] theorem Vector3.smul_z (s : K) (b : Vector3 K) : (s * b).z = s * b.z := rfl
@[simp] theorem Vector3.sub_x (a b : Vector3 K) : (a - b).x = a.x - b.x := rfl
@[simp] theorem Vector3.sub_y (a b : Vector3 K) : (a - b).y = a.y - b.y := rfl
@[simp] theorem Vector3.sub_z (a b : Vector3 K) : (a - b).z = a.z - b.z := rfl
@[simp] theorem Vector3.neg_x (a : Vector3 K) : (-a).x = -a.x := rfl
@[simp] theorem Vector3.neg_y (a : Vector3 K) : (-a).y = -a.y := rfl
@[simp] theorem Vector3.neg_z (a : Vector3 K) : (-a).z = -a.z := rfl
@[simp] theorem Vector3.zero_x : (0 : Vector3 K).x = 0 := rfl
@[simp] theorem Vector3.zero_y : (0 : Vector3 K).y = 0 := rfl
@[simp] theorem Vector3.zero_z : (0 : Vector3 K).z = 0 := rfl

theorem Vector3.add_zero_right (a : Vector3 K) : a + 0 = a := by
  rw [Vector3.ext_iff3]; simp

theorem Vector3.add_assoc3 (a b c : Vector3 K) : a + b + c = a + (b + c) := by
  rw [Vector3.ext_iff3]; simp [add_assoc]

end Basic

section BasicState

variable {K : Type}

@[simp] theorem State.traces_traced (st : State K) (r : Ray K) :
    (st.traced r).traces = r :: st.traces := rfl

@[simp] theorem State.traces_incReflector (st : State K) :
    st.incReflector.traces = st.traces := rfl

@[simp] theorem State.traces_decReflector (st : State K) :
    st.decReflector.traces = st.traces := rfl

@[simp] theorem State.traces_incRefractor (st : State K) :
    st.incRefractor.traces = st.traces := rfl

@[simp] theorem State.traces_decRefractor (st : State K) :
    st.decRefractor.traces = st.traces := rfl

end BasicState

/-! ## Theorems -/

section Theorems

variable {K : Type} [LinearOrderedField K]

/-- C1: when the recursion counter of the material kind equals
`SPECULAR_RECURSION_DEPTH` on entry, `SpecularReflector::shade` (and
`SpecularRefractor::shade` with its own counter) returns exactly `(0, 0, 0)`
and leaves the whole state as it was, ghost log included: `scene.trace` is not
called.  This holds for every scene, ray, hit, material (whatever `kd`, `ka`,
lights, environment map) and whatever the nested `shade` would do. -/
theorem C1_depth_cap_returns_black (env : Env K) (scene : Scene K) (shade : ShadeFn K)
    (self : Material K) (ray : Ray K) (hit : HitInfo K) (st : State K) :
    (st.reflectorCalls = env.SPECULAR_RECURSION_DEPTH →
      SpecularReflector.shade env scene shade self ray hit st = some (⟨0, 0, 0⟩, st)) ∧
    (st.refractorCalls = env.SPECULAR_RECURSION_DEPTH →
      SpecularRefractor.shade env scene shade self ray hit st = some (⟨0, 0, 0⟩, st)) := by
  constructor
  · intro h
    simp [SpecularReflector.shade, h]
  · intro h
    simp [SpecularRefractor.shade, h]

/-- C1 at the cap state of `exEnv`, for a mirror and a glass with non-zero
`kd` and `ka`. -/
theorem C1_depth_cap_returns_black_witness :
    SpecularReflector.shade exEnv exEmptyScene (Material.shade exEnv exEmptyScene 5)
        exMirror exRay (exHit exMirror) exStateCap = some (⟨0, 0, 0⟩, exStateCap) ∧
    SpecularRefractor.shade exEnv exEmptyScene (Material.shade exEnv exEmptyScene 5)
        exGlass exRay (exHit exGlass) exStateCap = some (⟨0, 0, 0⟩, exStateCap) :=
  ⟨(C1_depth_cap_returns_black exEnv exEmptyScene _ exMirror exRay (exHit exMirror)
      exStateCap).1 rfl,
   (C1_depth_cap_returns_black exEnv exEmptyScene _ exGlass exRay (exHit exGlass)
      exStateCap).2 rfl⟩

/-- C5: in `SpecularRefractor::shade`, when the ray is exiting
(`dot (-ray.d, hit.N) <= 0`, so `flipped` is set) and the Snell radicand is
negative, the call returns exactly `(0, 0, 0)`, whatever `kd`, `ka`, the Phong
exponent, the lights, the environment map, the scene and the nested `shade`
are; `scene.trace` is not called (the traced rays of the ghost log are
unchanged) and both counters are as on entry. -/
theorem C5_flipped_tir_returns_black (env : Env K) (scene : Scene K) (shade : ShadeFn K)
    (self : Material K) (ray : Ray K) (hit : HitInfo K) (st : State K)
    (hexit : Vector3.dot (-ray.d) hit.N ≤ 0)
    (hrad : (SpecularRefractor.snell ray hit).radicand < 0) :
    ∃ st2, SpecularRefractor.shade env scene shade self ray hit st = some (⟨0, 0, 0⟩, st2) ∧
      st2.traces = st.traces ∧ st2.reflectorCalls = st.reflectorCalls ∧
      st2.refractorCalls = st.refractorCalls := by
  have hflip : (SpecularRefractor.snell ray hit).flipped = true := by
    simp [SpecularRefractor.snell, not_lt.mpr hexit]
  by_cases hcap : st.refractorCalls = env.SPECULAR_RECURSION_DEPTH
  · exact ⟨st, by simp [SpecularRefractor.shade, hcap], rfl, rfl, rfl⟩
  · refine ⟨st.incRefractor.decRefractor, ?_, by simp, rfl, ?_⟩
    · simp [SpecularRefractor.shade, hcap, hrad, hflip]
    · simp [State.incRefractor, State.decRefractor]

/-- C5 for a ray leaving glass of index `3 / 2` at cosine `3 / 5`: the
radicand is `1 - (9 / 4) (16 / 25) < 0`. -/
theorem C5_flipped_tir_returns_black_witness :
    Vector3.dot (-exRayInside.d) (exHit exGlass).N ≤ 0 ∧
    (SpecularRefractor.snell exRayInside (exHit exGlass)).radicand < 0 ∧
    ∃ st2, SpecularRefractor.shade exEnv exEmptyScene (Material.shade exEnv exEmptyScene 5)
        exGlass exRayInside (exHit exGlass) exState0 = some (⟨0, 0, 0⟩, st2) ∧
      st2.traces = exState0.traces ∧ st2.reflectorCalls = exState0.reflectorCalls ∧
      st2.refractorCalls = exState0.refractorCalls :=
  have h1 : Vector3.dot (-exRayInside.d) (exHit exGlass).N ≤ 0 := by
    norm_num [Vector3.dot, exRayInside, exHit]
  have h2 : (SpecularRefractor.snell exRayInside (exHit exGlass)).radicand < 0 := by
    norm_num [SpecularRefractor.snell, Snell.radicand, Snell.indexRatio, Vector3.dot,
      exRayInside, exHit, exGlass, Material.getRefractiveIndex]
  ⟨h1, h2, C5_flipped_tir_returns_black exEnv exEmptyScene _ exGlass exRayInside
    (exHit exGlass) exState0 h1 h2⟩

/-- With a zero Phong exponent the highlight block leaves `L` as it is. -/
theorem phongHighlights_exp_zero (env : Env K) (scene : Scene K) (self : Material K)
    (ray : Ray K) (hit : HitInfo K) (L : Vector3 K) (hexp : self.m_phong_exp = 0) :
    phongHighlights env scene self ray hit L = L := by
  simp [phongHighlights, hexp]

omit [LinearOrderedField K] in
/-- Without a usable environment map the miss colour of the reflector is `m_kd`. -/
theorem reflector_missColor_noMap (env : Env K) (scene : Scene K) (self : Material K)
    (r : Ray K) (hmap : env.USE_ENVIRONMENT_MAP = false ∨ scene.environmentMap = none) :
    SpecularReflector.missColor env scene self r = self.m_kd := by
  unfold SpecularReflector.missColor
  rcases hmap with h | h
  · rw [h]
  · rw [h]; cases env.USE_ENVIRONMENT_MAP <;> rfl

/-- Without a usable environment map the miss colour of the refractor is
`m_kd * Vector3(0.5f)`. -/
theorem refractor_missColor_noMap (env : Env K) (scene : Scene K) (self : Material K)
    (r : Ray K) (hmap : env.USE_ENVIRONMENT_MAP = false ∨ scene.environmentMap = none) :
    SpecularRefractor.missColor env scene self r = self.m_kd * Vector3.splat (1 / 2) := by
  unfold SpecularRefractor.missColor
  rcases hmap with h | h
  · rw [h]
  · rw [h]; cases env.USE_ENVIRONMENT_MAP <;> rfl

/-- C9: a call of `SpecularReflector::shade` whose counter is not at the cap
(in particular: below it), with Phong exponent `0`, whose reflected ray
(origin `hit.P`, the normalised mirror direction, the incoming index) hits
nothing, and with no environment map in use, returns exactly `kd + ka`, for
every incoming direction, normal and light list; the counters are as on
entry. -/
theorem C9_mirror_miss_returns_kd_plus_ka (env : Env K) (scene : Scene K) (shade : ShadeFn K)
    (self : Material K) (ray : Ray K) (hit : HitInfo K) (st : State K)
    (hcap : st.reflectorCalls ≠ env.SPECULAR_RECURSION_DEPTH)
    (hexp : self.m_phong_exp = 0)
    (hmiss : scene.trace ⟨hit.P, reflectDir env ray.d hit.N, ray.refractiveIndex⟩
      env.epsilon env.MIRO_TMAX = none)
    (hmap : env.USE_ENVIRONMENT_MAP = false ∨ scene.environmentMap = none) :
    ∃ st2, SpecularReflector.shade env scene shade self ray hit st
        = some (self.m_kd + self.m_ka, st2) ∧
      st2.reflectorCalls = st.reflectorCalls ∧ st2.refractorCalls = st.refractorCalls := by
  refine ⟨((st.incReflector).traced
    ⟨hit.P, reflectDir env ray.d hit.N, ray.refractiveIndex⟩).decReflector, ?_, ?_, rfl⟩
  · simp [SpecularReflector.shade, hcap, SpecularReflector.traceRay, hmiss,
      phongHighlights_exp_zero _ _ _ _ _ _ hexp, reflector_missColor_noMap _ _ _ _ hmap]
  · simp [State.incReflector, State.decReflector, State.traced]

/-- C9 for the white mirror `exMirror` (`ka = (1, 1, 1)`) in the empty scene:
the colour is `(2, 2, 2)`. -/
theorem C9_mirror_miss_returns_kd_plus_ka_witness :
    ∃ st2, SpecularReflector.shade exEnv exEmptyScene (Material.shade exEnv exEmptyScene 5)
        exMirror exRay (exHit exMirror) exState0 = some (exMirror.m_kd + exMirror.m_ka, st2) ∧
      st2.reflectorCalls = exState0.reflectorCalls ∧
      st2.refractorCalls = exState0.refractorCalls :=
  C9_mirror_miss_returns_kd_plus_ka exEnv exEmptyScene _ exMirror exRay (exHit exMirror)
    exState0 (by decide) rfl rfl (Or.inr rfl)

/-- The loop of `Specular::shade` entered with `numRecursiveCalls < 20` is
left with `numRecursiveCalls <= 20`, and when it is left on a hit of a
`SPECULAR` material then `numRecursiveCalls = 20`. -/
theorem Specular.loop_count (env : Env K) (scene : Scene K) (k : Nat) :
    ∀ (recursiveHit : HitInfo K) (reflectedRay : Ray K) (n : Int) (st : State K),
    (Specular.RECURSION_DEPTH - n).toNat ≤ k → n < Specular.RECURSION_DEPTH →
    (Specular.loop env scene recursiveHit reflectedRay n st).numRecursiveCalls
        ≤ Specular.RECURSION_DEPTH ∧
    n < (Specular.loop env scene recursiveHit reflectedRay n st).numRecursiveCalls ∧
    ∀ h, (Specular.loop env scene recursiveHit reflectedRay n st).hit = some h →
      h.material.getType = MaterialType.SPECULAR →
      (Specular.loop env scene recursiveHit reflectedRay n st).numRecursiveCalls
        = Specular.RECURSION_DEPTH := by
  induction k with
  | zero => intro _ _ n _ hk hn; omega
  | succ k ih =>
    intro recursiveHit reflectedRay n st hk hn
    rw [Specular.loop]
    split
    · rename_i h htr
      split
      · rename_i hc
        obtain ⟨h1, h2, h3⟩ := ih h
          { o := recursiveHit.P, d := reflectDir env reflectedRay.d recursiveHit.N,
            refractiveIndex := reflectedRay.refractiveIndex }
          (n + 1)
          (st.traced
            { o := recursiveHit.P, d := reflectDir env reflectedRay.d recursiveHit.N,
              refractiveIndex := reflectedRay.refractiveIndex })
          (by omega) hc.2
        exact ⟨h1, by omega, h3⟩
      · rename_i hc
        refine ⟨show n + 1 ≤ Specular.RECURSION_DEPTH by omega, show n < n + 1 by omega, ?_⟩
        intro h2 heq hty
        simp only [Option.some.injEq] at heq
        subst heq
        have : ¬ (n + 1 < Specular.RECURSION_DEPTH) := fun hlt => hc ⟨hty, hlt⟩
        show n + 1 = Specular.RECURSION_DEPTH
        omega
    · refine ⟨show n + 1 ≤ Specular.RECURSION_DEPTH by omega, show n < n + 1 by omega, ?_⟩
      intro h2 heq
      simp at heq

/-- C10: when the bounce loop of `Specular::shade` is left because a trace
hit nothing, or with the last hit still on a `SPECULAR` material (which
happens only when the bounce counter has reached the cap `20`), the call
returns exactly this material's `kd`, for every nested `shade`: no other
material is asked to shade. -/
theorem C10_chain_gives_up_with_kd (env : Env K) (scene : Scene K) (shade : ShadeFn K)
    (self : Material K) (ray : Ray K) (hit : HitInfo K) (st : State K)
    (hend : (Specular.loop env scene hit ray 0 st).hit = none ∨
      ∃ h, (Specular.loop env scene hit ray 0 st).hit = some h ∧
        h.material.getType = MaterialType.SPECULAR) :
    Specular.shade env scene shade self ray hit st
        = some (self.m_kd, (Specular.loop env scene hit ray 0 st).st) ∧
    ((Specular.loop env scene hit ray 0 st).hit ≠ none →
      (Specular.loop env scene hit ray 0 st).numRecursiveCalls = Specular.RECURSION_DEPTH) := by
  constructor
  · rcases hend with h | ⟨h, hh, hty⟩
    · simp [Specular.shade, h]
    · simp [Specular.shade, hh, hty]
  · intro hne
    rcases hend with h | ⟨h, hh, hty⟩
    · exact absurd h hne
    · exact (Specular.loop_count env scene 20 hit ray 0 st (by decide) (by decide)).2.2 h hh hty

/-- The total-internal-reflection path of `SpecularRefractor::shade` for an
entering ray whose reflected ray misses, without environment map: the value
returned and the final state. -/
theorem SpecularRefractor.shade_tir_miss (env : Env K) (scene : Scene K) (shade : ShadeFn K)
    (self : Material K) (ray : Ray K) (hit : HitInfo K) (st : State K)
    (hcap : st.refractorCalls ≠ env.SPECULAR_RECURSION_DEPTH)
    (henter : 0 < Vector3.dot (-ray.d) hit.N)
    (hrad : (SpecularRefractor.snell ray hit).radicand < 0)
    (hmiss : scene.trace ⟨hit.P, reflectDir env ray.d hit.N, ray.refractiveIndex⟩
      env.epsilon env.MIRO_TMAX = none)
    (hmap : env.USE_ENVIRONMENT_MAP = false ∨ scene.environmentMap = none) :
    SpecularRefractor.shade env scene shade self ray hit st
      = some (phongHighlights env scene self ray hit (self.m_kd * Vector3.splat (1 / 2))
                + self.m_ka,
              ((st.incRefractor).traced
                ⟨hit.P, reflectDir env ray.d hit.N, ray.refractiveIndex⟩).decRefractor) := by
  have hflip : (SpecularRefractor.snell ray hit).flipped = false := by
    simp [SpecularRefractor.snell, henter]
  simp [SpecularRefractor.shade, hcap, hrad, hflip, SpecularRefractor.traceRay, hmiss,
    SpecularRefractor.finish, refractor_missColor_noMap _ _ _ _ hmap]

/-- C6 as stated fails: `exThin` (`kd = ka = (1, 1, 1)`, exponent `0`) is hit
below the cap by an entering ray (cosine `3 / 5`) coming from a medium of
index `2`, so the radicand `1 - 4 (16 / 25)` is negative; the reflected ray
misses and there is no environment map.  The returned colour is
`(3/2, 3/2, 3/2)`, not `kd` scaled by `0.5`. -/
theorem C6_tir_miss_counterexample :
    exState0.refractorCalls < exEnv.SPECULAR_RECURSION_DEPTH ∧
    0 < Vector3.dot (-exRayDense.d) (exHit exThin).N ∧
    (SpecularRefractor.snell exRayDense (exHit exThin)).radicand < 0 ∧
    exEmptyScene.trace ⟨(exHit exThin).P, reflectDir exEnv exRayDense.d (exHit exThin).N,
      exRayDense.refractiveIndex⟩ exEnv.epsilon exEnv.MIRO_TMAX = none ∧
    exEmptyScene.environmentMap = none ∧
    (SpecularRefractor.shade exEnv exEmptyScene (Material.shade exEnv exEmptyScene 5)
        exThin exRayDense (exHit exThin) exState0).map Prod.fst = some ⟨3 / 2, 3 / 2, 3 / 2⟩ ∧
    exThin.m_kd * Vector3.splat (1 / 2) = (⟨1 / 2, 1 / 2, 1 / 2⟩ : Vector3 ℚ) := by
  have h1 : 0 < Vector3.dot (-exRayDense.d) (exHit exThin).N := by
    norm_num [Vector3.dot, exRayDense, exHit]
  have h2 : (SpecularRefractor.snell exRayDense (exHit exThin)).radicand < 0 := by
    norm_num [SpecularRefractor.snell, Snell.radicand, Snell.indexRatio, Vector3.dot,
      exRayDense, exHit, exThin, Material.getRefractiveIndex]
  refine ⟨by decide, h1, h2, rfl, rfl, ?_, ?_⟩
  · rw [SpecularRefractor.shade_tir_miss exEnv exEmptyScene _ exThin exRayDense (exHit exThin)
      exState0 (by decide) h1 h2 rfl (Or.inr rfl)]
    rw [phongHighlights_exp_zero _ _ _ _ _ _ rfl]
    simp only [Option.map_some', Option.some.injEq]
    rw [Vector3.ext_iff3]
    norm_num [exThin, Vector3.splat]
  · rw [Vector3.ext_iff3]
    norm_num [exThin, Vector3.splat]

/-- C6 (amended): in a call of `SpecularRefractor::shade` whose counter is not
at the cap (in particular: below it), for an entering ray (`flipped = false`)
with negative radicand whose reflected ray misses the scene, without
environment map in use, the miss term `L` is `kd` scaled by exactly `0.5`, and
the returned colour is that term plus the Phong highlights plus `ka`.  It is
`kd` scaled by `0.5` itself when the Phong exponent is `0` and `ka` is
black. -/
theorem C6_tir_miss_half_kd (env : Env K) (scene : Scene K) (shade : ShadeFn K)
    (self : Material K) (ray : Ray K) (hit : HitInfo K) (st : State K)
    (hcap : st.refractorCalls ≠ env.SPECULAR_RECURSION_DEPTH)
    (henter : 0 < Vector3.dot (-ray.d) hit.N)
    (hrad : (SpecularRefractor.snell ray hit).radicand < 0)
    (hmiss : scene.trace ⟨hit.P, reflectDir env ray.d hit.N, ray.refractiveIndex⟩
      env.epsilon env.MIRO_TMAX = none)
    (hmap : env.USE_ENVIRONMENT_MAP = false ∨ scene.environmentMap = none) :
    ∃ st2,
      SpecularRefractor.shade env scene shade self ray hit st
        = some (phongHighlights env scene self ray hit (self.m_kd * Vector3.splat (1 / 2))
                  + self.m_ka, st2) ∧
      (self.m_phong_exp = 0 → self.m_ka = 0 →
        SpecularRefractor.shade env scene shade self ray hit st
          = some (self.m_kd * Vector3.splat (1 / 2), st2)) := by
  refine ⟨_, SpecularRefractor.shade_tir_miss env scene shade self ray hit st hcap henter hrad
    hmiss hmap, ?_⟩
  intro hexp hka
  rw [SpecularRefractor.shade_tir_miss env scene shade self ray hit st hcap henter hrad
    hmiss hmap, phongHighlights_exp_zero _ _ _ _ _ _ hexp, hka, Vector3.add_zero_right]

/-- C6 (amended) for `exThin` and the ray `exRayDense` in the empty scene. -/
theorem C6_tir_miss_half_kd_witness :
    ∃ st2,
      SpecularRefractor.shade exEnv exEmptyScene (Material.shade exEnv exEmptyScene 5)
          exThin exRayDense (exHit exThin) exState0
        = some (phongHighlights exEnv exEmptyScene exThin exRayDense (exHit exThin)
                  (exThin.m_kd * Vector3.splat (1 / 2)) + exThin.m_ka, st2) ∧
      (exThin.m_phong_exp = 0 → exThin.m_ka = 0 →
        SpecularRefractor.shade exEnv exEmptyScene (Material.shade exEnv exEmptyScene 5)
            exThin exRayDense (exHit exThin) exState0
          = some (exThin.m_kd * Vector3.splat (1 / 2), st2)) :=
  C6_tir_miss_half_kd exEnv exEmptyScene _ exThin exRayDense (exHit exThin) exState0
    (by decide)
    (by norm_num [Vector3.dot, exRayDense, exHit])
    (by norm_num [SpecularRefractor.snell, Snell.radicand, Snell.indexRatio, Vector3.dot,
      exRayDense, exHit, exThin, Material.getRefractiveIndex])
    rfl (Or.inr rfl)

/-- The reflector's traced ray misses and no environment map is in use: the
term `L` is `m_kd`. -/
theorem SpecularReflector.traceRay_miss (env : Env K) (scene : Scene K) (shade : ShadeFn K)
    (self : Material K) (r : Ray K) (st : State K)
    (hmiss : scene.trace r env.epsilon env.MIRO_TMAX = none)
    (hmap : env.USE_ENVIRONMENT_MAP = false ∨ scene.environmentMap = none) :
    SpecularReflector.traceRay env scene shade self r st = some (self.m_kd, st.traced r) := by
  simp [SpecularReflector.traceRay, hmiss, reflector_missColor_noMap _ _ _ _ hmap]

/-- C7 as stated fails on the depth-cap path: with its counter at the cap the
mirror `exMirror` (`ka = (1, 1, 1)`) returns `(0, 0, 0)`, although the
reflected ray would give the miss term `L = kd = (1, 1, 1)`, no highlight is
added, and `L + ka = (2, 2, 2)`: the ambient colour is not added. -/
theorem C7_ambient_counterexample :
    SpecularReflector.shade exEnv exEmptyScene (Material.shade exEnv exEmptyScene 5)
        exMirror exRay (exHit exMirror) exStateCap = some (⟨0, 0, 0⟩, exStateCap) ∧
    ¬ ∃ L st1, SpecularReflector.traceRay exEnv exEmptyScene (Material.shade exEnv exEmptyScene 5)
          exMirror (reflectedRayOf exEnv exRay (exHit exMirror)) exStateCap = some (L, st1) ∧
        (⟨0, 0, 0⟩ : Vector3 ℚ)
          = phongHighlights exEnv exEmptyScene exMirror exRay (exHit exMirror) L
              + exMirror.m_ka := by
  constructor
  · rfl
  · rintro ⟨L, st1, h1, h2⟩
    rw [SpecularReflector.traceRay_miss _ _ _ _ _ _ rfl (Or.inr rfl)] at h1
    simp only [Option.some.injEq, Prod.mk.injEq] at h1
    rw [← h1.1, phongHighlights_exp_zero _ _ _ _ _ _ rfl, Vector3.ext_iff3] at h2
    norm_num [exMirror] at h2

/-- The non-terminal path of `SpecularReflector::shade`. -/
theorem reflector_shade_below_cap (env : Env K) (scene : Scene K) (shade : ShadeFn K)
    (self : Material K) (ray : Ray K) (hit : HitInfo K) (st : State K)
    (hcap : st.reflectorCalls ≠ env.SPECULAR_RECURSION_DEPTH) :
    SpecularReflector.shade env scene shade self ray hit st
      = match SpecularReflector.traceRay env scene shade self (reflectedRayOf env ray hit)
            st.incReflector with
        | none => none
        | some (L, st2) =>
          some (phongHighlights env scene self ray hit L + self.m_ka, st2.decReflector) := by
  simp [SpecularReflector.shade, hcap, reflectedRayOf]

/-- The non-terminal paths of `SpecularRefractor::shade`. -/
theorem refractor_shade_below_cap (env : Env K) (scene : Scene K) (shade : ShadeFn K)
    (self : Material K) (ray : Ray K) (hit : HitInfo K) (st : State K)
    (hcap : st.refractorCalls ≠ env.SPECULAR_RECURSION_DEPTH)
    (hpath : ¬ ((SpecularRefractor.snell ray hit).radicand < 0 ∧
      (SpecularRefractor.snell ray hit).flipped = true)) :
    SpecularRefractor.shade env scene shade self ray hit st
      = match SpecularRefractor.traceRay env scene shade self
            (SpecularRefractor.tracedRay env ray hit) st.incRefractor with
        | none => none
        | some (L, st2) =>
          some (phongHighlights env scene self ray hit L + self.m_ka, st2.decRefractor) := by
  by_cases hrad : (SpecularRefractor.snell ray hit).radicand < 0
  · have hflip : ¬ (SpecularRefractor.snell ray hit).flipped = true := fun h => hpath ⟨hrad, h⟩
    simp only [SpecularRefractor.shade, if_neg hcap, if_pos hrad, if_neg hflip,
      SpecularRefractor.tracedRay, reflectedRayOf]
    cases SpecularRefractor.traceRay env scene shade self
      { o := hit.P, d := reflectDir env ray.d hit.N, refractiveIndex := ray.refractiveIndex }
      st.incRefractor <;> rfl
  · simp only [SpecularRefractor.shade, if_neg hcap, if_neg hrad,
      SpecularRefractor.tracedRay, refractedRayOf]
    cases SpecularRefractor.traceRay env scene shade self
      { o := hit.P,
        d := SpecularRefractor.refractDir env ray (SpecularRefractor.snell ray hit),
        refractiveIndex := (SpecularRefractor.snell ray hit).refractedRayIndex }
      st.incRefractor <;> rfl

/-- C7 (amended): on every non-terminal path of `SpecularReflector::shade`
(counter not at the cap) and of `SpecularRefractor::shade` (counter not at the
cap and not the flipped total-internal-reflection return) the returned colour
is `X + ka`, where `X` is the recursive or miss term `L` of the traced ray
followed by the light loop: `ka` is added exactly once, last.  On the
terminal paths (counter at the cap; flipped ray with negative radicand) the
result is `(0, 0, 0)` and `ka` is not added. -/
theorem C7_ambient_added_once (env : Env K) (scene : Scene K) (shade : ShadeFn K)
    (self : Material K) (ray : Ray K) (hit : HitInfo K) (st : State K) :
    (st.reflectorCalls ≠ env.SPECULAR_RECURSION_DEPTH →
      ∀ c st2, SpecularReflector.shade env scene shade self ray hit st = some (c, st2) →
        ∃ L st1, SpecularReflector.traceRay env scene shade self (reflectedRayOf env ray hit)
            st.incReflector = some (L, st1) ∧
          c = phongHighlights env scene self ray hit L + self.m_ka) ∧
    (st.refractorCalls ≠ env.SPECULAR_RECURSION_DEPTH →
      ¬ ((SpecularRefractor.snell ray hit).radicand < 0 ∧
          (SpecularRefractor.snell ray hit).flipped = true) →
      ∀ c st2, SpecularRefractor.shade env scene shade self ray hit st = some (c, st2) →
        ∃ L st1, SpecularRefractor.traceRay env scene shade self
            (SpecularRefractor.tracedRay env ray hit) st.incRefractor = some (L, st1) ∧
          c = phongHighlights env scene self ray hit L + self.m_ka) ∧
    (st.reflectorCalls = env.SPECULAR_RECURSION_DEPTH →
      SpecularReflector.shade env scene shade self ray hit st = some (⟨0, 0, 0⟩, st)) ∧
    (st.refractorCalls = env.SPECULAR_RECURSION_DEPTH →
      SpecularRefractor.shade env scene shade self ray hit st = some (⟨0, 0, 0⟩, st)) ∧
    (st.refractorCalls ≠ env.SPECULAR_RECURSION_DEPTH →
      (SpecularRefractor.snell ray hit).radicand < 0 →
      (SpecularRefractor.snell ray hit).flipped = true →
      SpecularRefractor.shade env scene shade self ray hit st
        = some (⟨0, 0, 0⟩, st.incRefractor.decRefractor)) := by
  refine ⟨?_, ?_, ?_, ?_, ?_⟩
  · intro hcap c st2 h
    rw [reflector_shade_below_cap env scene shade self ray hit st hcap] at h
    cases hr : SpecularReflector.traceRay env scene shade self (reflectedRayOf env ray hit)
      st.incReflector with
    | none => rw [hr] at h; simp at h
    | some p =>
      obtain ⟨L, st1⟩ := p
      rw [hr] at h
      simp only [Option.some.injEq, Prod.mk.injEq] at h
      exact ⟨L, st1, rfl, h.1.symm⟩
  · intro hcap hpath c st2 h
    rw [refractor_shade_below_cap env scene shade self ray hit st hcap hpath] at h
    cases hr : SpecularRefractor.traceRay env scene shade self
      (SpecularRefractor.tracedRay env ray hit) st.incRefractor with
    | none => rw [hr] at h; simp at h
    | some p =>
      obtain ⟨L, st1⟩ := p
      rw [hr] at h
      simp only [Option.some.injEq, Prod.mk.injEq] at h
      exact ⟨L, st1, rfl, h.1.symm⟩
  · intro h
    simp [SpecularReflector.shade, h]
  · intro h
    simp [SpecularRefractor.shade, h]
  · intro hcap hrad hflip
    simp [SpecularRefractor.shade, hcap, hrad, hflip]

/-- C7 (amended) for `exMirror` below the cap in the empty scene: the call
returns `(2, 2, 2)`, which is the miss term `kd = (1, 1, 1)` plus
`ka = (1, 1, 1)`. -/
theorem C7_ambient_added_once_witness :
    SpecularReflector.shade exEnv exEmptyScene (Material.shade exEnv exEmptyScene 5)
        exMirror exRay (exHit exMirror) exState0
      = some (⟨2, 2, 2⟩, ((exState0.incReflector).traced
          (reflectedRayOf exEnv exRay (exHit exMirror))).decReflector) ∧
    ∃ L st1, SpecularReflector.traceRay exEnv exEmptyScene (Material.shade exEnv exEmptyScene 5)
        exMirror (reflectedRayOf exEnv exRay (exHit exMirror)) exState0.incReflector
          = some (L, st1) ∧
      (⟨2, 2, 2⟩ : Vector3 ℚ)
        = phongHighlights exEnv exEmptyScene exMirror exRay (exHit exMirror) L
            + exMirror.m_ka :=
  have h : SpecularReflector.shade exEnv exEmptyScene (Material.shade exEnv exEmptyScene 5)
        exMirror exRay (exHit exMirror) exState0
      = some (⟨2, 2, 2⟩, ((exState0.incReflector).traced
          (reflectedRayOf exEnv exRay (exHit exMirror))).decReflector) := by
    rw [reflector_shade_below_cap _ _ _ _ _ _ _ (by decide),
      SpecularReflector.traceRay_miss _ _ _ _ _ _ rfl (Or.inr rfl)]
    simp only
    rw [phongHighlights_exp_zero _ _ _ _ _ _ rfl]
    simp only [Option.some.injEq, Prod.mk.injEq, and_true]
    rw [Vector3.ext_iff3]
    norm_num [exMirror]
  ⟨h, (C7_ambient_added_once exEnv exEmptyScene (Material.shade exEnv exEmptyScene 5)
    exMirror exRay (exHit exMirror) exState0).1 (by decide) _ _ h⟩

/-- Unfolding of one unit of fuel. -/
theorem Material.shade_succ (env : Env K) (scene : Scene K) (fuel : Nat) (self : Material K)
    (ray : Ray K) (hit : HitInfo K) (st : State K) :
    Material.shade env scene (fuel + 1) self ray hit st =
      match self.m_type with
      | .SPECULAR =>
        Specular.shade env scene (Material.shade env scene fuel) self ray hit st
      | .SPECULAR_REFLECTOR =>
        SpecularReflector.shade env scene (Material.shade env scene fuel) self ray hit st
      | .SPECULAR_REFRACTOR =>
        SpecularRefractor.shade env scene (Material.shade env scene fuel) self ray hit st
      | .OTHER _ => some (env.otherShade self ray hit scene, st) := rfl

/-- One step of the light loop adds the contribution of that light, when the
exponent is not zero. -/
theorem phongStep_eq (env : Env K) (self : Material K) (ray : Ray K) (hit : HitInfo K)
    (L : Vector3 K) (light : PointLight K) (hexp : self.m_phong_exp ≠ 0) :
    phongStep env self ray hit L light = L + phongContribution env self ray hit light := by
  unfold phongStep phongContribution
  by_cases hc : Vector3.dot (-ray.d)
      ((2 * Vector3.dot (Vector3.normalize env.sqrt (light.position - hit.P)) hit.N) * hit.N
        - Vector3.normalize env.sqrt (light.position - hit.P)) > 0
  · simp only [hc, if_true, hexp, ne_eq, not_false_eq_true, and_self]
  · simp only [hc, if_false, and_false]
    exact (Vector3.add_zero_right L).symm

/-- The light loop adds the sum of the contributions, when the exponent is not
zero. -/
theorem foldl_phongStep (env : Env K) (self : Material K) (ray : Ray K) (hit : HitInfo K)
    (hexp : self.m_phong_exp ≠ 0) (lights : List (PointLight K)) :
    ∀ L : Vector3 K, lights.foldl (phongStep env self ray hit) L
      = L + Vector3.sum (lights.map (phongContribution env self ray hit)) := by
  induction lights with
  | nil => intro L; exact (Vector3.add_zero_right L).symm
  | cons a t ih =>
    intro L
    rw [List.foldl_cons, ih, phongStep_eq env self ray hit L a hexp, Vector3.add_assoc3]
    rfl

/-- With exponent zero every contribution is zero. -/
theorem sum_phongContribution_exp_zero (env : Env K) (self : Material K) (ray : Ray K)
    (hit : HitInfo K) (hexp : self.m_phong_exp = 0) (lights : List (PointLight K)) :
    Vector3.sum (lights.map (phongContribution env self ray hit)) = 0 := by
  induction lights with
  | nil => rfl
  | cons a t ih =>
    have ha : phongContribution env self ray hit a = 0 := by
      simp [phongContribution, hexp]
    show phongContribution env self ray hit a
      + Vector3.sum (t.map (phongContribution env self ray hit)) = 0
    rw [ih, ha, Vector3.add_zero_right]

/-- The highlight block adds to `L` the sum over the lights of the
contributions worded in the specification. -/
theorem phongHighlights_eq_sum (env : Env K) (scene : Scene K) (self : Material K)
    (ray : Ray K) (hit : HitInfo K) (L : Vector3 K) :
    phongHighlights env scene self ray hit L
      = L + Vector3.sum (scene.lights.map (phongContribution env self ray hit)) := by
  by_cases hexp : self.m_phong_exp = 0
  · rw [phongHighlights_exp_zero _ _ _ _ _ _ hexp,
      sum_phongContribution_exp_zero env self ray hit hexp, Vector3.add_zero_right]
  · simp only [phongHighlights, ne_eq, hexp, not_false_eq_true, if_true]
    exact foldl_phongStep env self ray hit hexp scene.lights L

/-- The rational square root of `1`. -/
theorem Rat.sqrt_one_eq : Rat.sqrt 1 = 1 := by
  have h := Rat.sqrt_eq 1
  rwa [mul_one, abs_one] at h

/-- The mirror image of `exRay` at the hit `exHit m` is `exRayUp`. -/
theorem exReflected_eq (m : Material ℚ) : reflectedRayOf exEnv exRay (exHit m) = exRayUp := by
  simp [reflectedRayOf, reflectDir, Vector3.normalize, Vector3.dot, exRay, exHit, exEnv,
    exRayUp, Rat.sqrt_one_eq, Vector3.ext_iff3]
  norm_num [Rat.sqrt_one_eq]

/-- The contribution of `exLight` to the mirror `exShiny` hit by `exRayUp` at
`exHitTop` is `(1, 1, 1)`: the cosine is `1` and `1 ^ 1 = 1`. -/
theorem exContribution_eq :
    phongContribution exEnv exShiny exRayUp exHitTop exLight = ⟨1, 1, 1⟩ := by
  have hl : Vector3.normalize exEnv.sqrt (exLight.position - exHitTop.P) = ⟨0, 0, -1⟩ := by
    rw [Vector3.ext_iff3]
    norm_num [Vector3.normalize, Vector3.dot, exLight, exHitTop, exEnv, Rat.sqrt_one_eq]
  unfold phongContribution
  simp only [hl]
  rw [Vector3.ext_iff3]
  norm_num [Vector3.dot, exRayUp, exHitTop, exShiny, exEnv, exLight]

/-- The colour that `exShiny` returns for `exRayUp` at `exHitTop` in the scene
of the two facing mirrors: `kd` plus one `(1, 1, 1)` for each copy of
`exLight`. -/
theorem exShiny_shade (lights : List (PointLight ℚ)) (fuel : Nat) (st : State ℚ)
    (hst : st.reflectorCalls ≠ 2) :
    (Material.shade exEnv (exFacingScene lights) (fuel + 1) exShiny exRayUp exHitTop st).map
        Prod.fst
      = some (⟨1, 1, 1⟩
          + Vector3.sum (lights.map (phongContribution exEnv exShiny exRayUp exHitTop))) := by
  have hr : reflectedRayOf exEnv exRayUp exHitTop = ⟨⟨0, 0, 5⟩, ⟨0, 0, -1⟩, 1⟩ := by
    simp [reflectedRayOf, reflectDir, Vector3.normalize, Vector3.dot, exRayUp, exHitTop, exEnv,
      Rat.sqrt_one_eq, Vector3.ext_iff3]
    norm_num [Rat.sqrt_one_eq]
  rw [Material.shade_succ]
  show (SpecularReflector.shade exEnv (exFacingScene lights) _ exShiny exRayUp exHitTop st).map
    Prod.fst = _
  rw [reflector_shade_below_cap _ _ _ _ _ _ _ hst, hr,
    SpecularReflector.traceRay_miss _ _ _ _ _ _ (by simp [exFacingScene]) (Or.inr rfl)]
  simp only [Option.map_some', phongHighlights_eq_sum, Option.some.injEq]
  rw [Vector3.ext_iff3]
  simp [exShiny, exFacingScene]

/-- C8 as stated fails in its last part.  The mirror `exMirror` has Phong
exponent `0` and is shaded below the cap; its reflected ray hits the mirror
`exShiny` (exponent `1`).  With an empty light list the call returns
`(2, 2, 2)`; with the light list `[exLight]` and everything else unchanged it
returns `(3, 3, 3)`: the returned colour is not the same for every light
list, because the nested `shade` depends on the lights. -/
theorem C8_light_list_counterexample :
    exMirror.m_phong_exp = 0 ∧
    exState0.reflectorCalls < exEnv.SPECULAR_RECURSION_DEPTH ∧
    (SpecularReflector.shade exEnv (exFacingScene [])
        (Material.shade exEnv (exFacingScene []) 5) exMirror exRay (exHit exMirror)
        exState0).map Prod.fst = some ⟨2, 2, 2⟩ ∧
    (SpecularReflector.shade exEnv (exFacingScene [exLight])
        (Material.shade exEnv (exFacingScene [exLight]) 5) exMirror exRay (exHit exMirror)
        exState0).map Prod.fst = some ⟨3, 3, 3⟩ := by
  have key : ∀ lights : List (PointLight ℚ),
      (SpecularReflector.shade exEnv (exFacingScene lights)
        (Material.shade exEnv (exFacingScene lights) 5) exMirror exRay (exHit exMirror)
        exState0).map Prod.fst
      = some (exMirror.m_kd * (⟨1, 1, 1⟩
          + Vector3.sum (lights.map (phongContribution exEnv exShiny exRayUp exHitTop)))
          + exMirror.m_ka) := by
    intro lights
    have hnested := exShiny_shade lights 4 ((exState0.incReflector).traced exRayUp) (by decide)
    rw [reflector_shade_below_cap _ _ _ _ _ _ _ (by decide), exReflected_eq]
    have ht : (exFacingScene lights).trace exRayUp exEnv.epsilon exEnv.MIRO_TMAX
        = some exHitTop := by
      simp [exFacingScene, exRayUp]
    simp only [SpecularReflector.traceRay, ht]
    cases hn : Material.shade exEnv (exFacingScene lights) 5 exHitTop.material exRayUp exHitTop
        ((exState0.incReflector).traced exRayUp) with
    | none =>
      have : Material.shade exEnv (exFacingScene lights) (4 + 1) exShiny exRayUp exHitTop
        ((exState0.incReflector).traced exRayUp) = none := hn
      rw [this] at hnested
      simp at hnested
    | some p =>
      obtain ⟨c, st2⟩ := p
      have : Material.shade exEnv (exFacingScene lights) (4 + 1) exShiny exRayUp exHitTop
        ((exState0.incReflector).traced exRayUp) = some (c, st2) := hn
      rw [this] at hnested
      simp only [Option.map_some', Option.some.injEq] at hnested
      simp only [Option.map_some', Option.some.injEq]
      rw [phongHighlights_exp_zero _ _ _ _ _ _ rfl, hnested]
  refine ⟨rfl, by decide, ?_, ?_⟩
  · rw [key, Option.some.injEq, Vector3.ext_iff3]
    norm_num [exMirror, Vector3.sum]
  · rw [key]
    simp only [List.map, exContribution_eq, Option.some.injEq]
    rw [Vector3.ext_iff3]
    norm_num [exMirror, Vector3.sum]

/-- C8 (amended): direct lighting on the non-terminal paths of
`SpecularReflector::shade` and `SpecularRefractor::shade`.  With `l` the unit
direction from `hit.P` to the light and `c = dot (-ray.d, 2 dot (l, N) N - l)`,
each point light contributes `max (0, c ^ exponent) * lightColor` if the Phong
exponent is nonzero and `c > 0`, and zero otherwise (`phongContribution`): the
returned colour is `L + sum of the contributions + ka`, `L` being the
recursive or miss term.  With exponent exactly `0` the call adds no highlight
for any light list: with the same nested `shade`, the call returns the same
result for every light list, so the returned colour can depend on the lights
only through the colour returned by the nested `shade`. -/
theorem C8_phong_highlights (env : Env K) (scene : Scene K) (shade : ShadeFn K)
    (self : Material K) (ray : Ray K) (hit : HitInfo K) (st : State K) :
    (∀ L, phongHighlights env scene self ray hit L
      = L + Vector3.sum (scene.lights.map (phongContribution env self ray hit))) ∧
    (st.reflectorCalls ≠ env.SPECULAR_RECURSION_DEPTH →
      ∀ c st2, SpecularReflector.shade env scene shade self ray hit st = some (c, st2) →
        ∃ L st1, SpecularReflector.traceRay env scene shade self (reflectedRayOf env ray hit)
            st.incReflector = some (L, st1) ∧
          c = L + Vector3.sum (scene.lights.map (phongContribution env self ray hit))
                + self.m_ka) ∧
    (st.refractorCalls ≠ env.SPECULAR_RECURSION_DEPTH →
      ¬ ((SpecularRefractor.snell ray hit).radicand < 0 ∧
          (SpecularRefractor.snell ray hit).flipped = true) →
      ∀ c st2, SpecularRefractor.shade env scene shade self ray hit st = some (c, st2) →
        ∃ L st1, SpecularRefractor.traceRay env scene shade self
            (SpecularRefractor.tracedRay env ray hit) st.incRefractor = some (L, st1) ∧
          c = L + Vector3.sum (scene.lights.map (phongContribution env self ray hit))
                + self.m_ka) ∧
    (self.m_phong_exp = 0 → ∀ lights : List (PointLight K),
      SpecularReflector.shade env { scene with lights := lights } shade self ray hit st
        = SpecularReflector.shade env scene shade self ray hit st ∧
      SpecularRefractor.shade env { scene with lights := lights } shade self ray hit st
        = SpecularRefractor.shade env scene shade self ray hit st) := by
  refine ⟨fun L => phongHighlights_eq_sum env scene self ray hit L, ?_, ?_, ?_⟩
  · intro hcap c st2 h
    rw [reflector_shade_below_cap env scene shade self ray hit st hcap] at h
    cases hr : SpecularReflector.traceRay env scene shade self (reflectedRayOf env ray hit)
      st.incReflector with
    | none => rw [hr] at h; simp at h
    | some p =>
      obtain ⟨L, st1⟩ := p
      rw [hr] at h
      simp only [Option.some.injEq, Prod.mk.injEq] at h
      exact ⟨L, st1, rfl, by rw [← h.1, phongHighlights_eq_sum]⟩
  · intro hcap hpath c st2 h
    rw [refractor_shade_below_cap env scene shade self ray hit st hcap hpath] at h
    cases hr : SpecularRefractor.traceRay env scene shade self
      (SpecularRefractor.tracedRay env ray hit) st.incRefractor with
    | none => rw [hr] at h; simp at h
    | some p =>
      obtain ⟨L, st1⟩ := p
      rw [hr] at h
      simp only [Option.some.injEq, Prod.mk.injEq] at h
      exact ⟨L, st1, rfl, by rw [← h.1, phongHighlights_eq_sum]⟩
  · intro hexp lights
    constructor
    · simp only [SpecularReflector.shade, SpecularReflector.traceRay,
        SpecularReflector.missColor, phongHighlights, hexp, ne_eq, not_true_eq_false, if_false]
    · simp only [SpecularRefractor.shade, SpecularRefractor.traceRay, SpecularRefractor.finish,
        SpecularRefractor.missColor, phongHighlights, hexp, ne_eq, not_true_eq_false, if_false]

/-- C8 (amended) on concrete inputs: the highlight block of `exShiny` lit by
`exLight` turns `(1, 1, 1)` into `(2, 2, 2)`, and the exponent-`0` mirror
`exMirror` in the empty scene returns the same result for every light
list. -/
theorem C8_phong_highlights_witness :
    phongHighlights exEnv (exFacingScene [exLight]) exShiny exRayUp exHitTop ⟨1, 1, 1⟩
      = ⟨2, 2, 2⟩ ∧
    ∀ lights : List (PointLight ℚ),
      SpecularReflector.shade exEnv { exEmptyScene with lights := lights }
          (Material.shade exEnv exEmptyScene 5) exMirror exRay (exHit exMirror) exState0
        = SpecularReflector.shade exEnv exEmptyScene
          (Material.shade exEnv exEmptyScene 5) exMirror exRay (exHit exMirror) exState0 := by
  constructor
  · rw [(C8_phong_highlights exEnv (exFacingScene [exLight]) (Material.shade exEnv exEmptyScene 5)
      exShiny exRayUp exHitTop exState0).1]
    show (⟨1, 1, 1⟩ : Vector3 ℚ)
      + Vector3.sum [phongContribution exEnv exShiny exRayUp exHitTop exLight] = _
    rw [exContribution_eq, Vector3.ext_iff3]
    norm_num [Vector3.sum]
  · intro lights
    exact ((C8_phong_highlights exEnv exEmptyScene (Material.shade exEnv exEmptyScene 5)
      exMirror exRay (exHit exMirror) exState0).2.2.2 rfl lights).1

/-- When every traced ray hits a `SPECULAR` material, the loop of
`Specular::shade` is left on such a hit. -/
theorem Specular.loop_all_mirrors (env : Env K) (scene : Scene K)
    (hall : ∀ r, ∃ h, scene.trace r env.epsilon env.MIRO_TMAX = some h ∧
      h.material.getType = MaterialType.SPECULAR) (k : Nat) :
    ∀ (recursiveHit : HitInfo K) (reflectedRay : Ray K) (n : Int) (st : State K),
    (Specular.RECURSION_DEPTH - n).toNat ≤ k →
    ∃ h, (Specular.loop env scene recursiveHit reflectedRay n st).hit = some h ∧
      h.material.getType = MaterialType.SPECULAR := by
  induction k with
  | zero =>
    intro recursiveHit reflectedRay n st hk
    obtain ⟨h, h1, h2⟩ := hall
      { o := recursiveHit.P, d := reflectDir env reflectedRay.d recursiveHit.N,
        refractiveIndex := reflectedRay.refractiveIndex }
    rw [Specular.loop]
    simp only [h1]
    rw [if_neg (by intro hc; have := hc.2; omega)]
    exact ⟨h, rfl, h2⟩
  | succ k ih =>
    intro recursiveHit reflectedRay n st hk
    obtain ⟨h, h1, h2⟩ := hall
      { o := recursiveHit.P, d := reflectDir env reflectedRay.d recursiveHit.N,
        refractiveIndex := reflectedRay.refractiveIndex }
    rw [Specular.loop]
    simp only [h1]
    by_cases hc : h.material.getType = MaterialType.SPECULAR ∧
        n + 1 < Specular.RECURSION_DEPTH
    · rw [if_pos hc]
      exact ih h _ (n + 1) _ (by have := hc.2; omega)
    · rw [if_neg hc]
      exact ⟨h, rfl, h2⟩

/-- C10 on both ways out of the loop.  In the empty scene the first trace of
the red `Specular` mirror `exChain` hits nothing; in the hall `exChainHall`
every trace hits a `Specular` mirror again, so the loop is left at the cap.
Both calls return `kd` of `exChain`. -/
theorem C10_chain_gives_up_with_kd_witness :
    (Specular.shade exEnv exEmptyScene (Material.shade exEnv exEmptyScene 5)
        exChain exRay (exHit exChain) exState0
      = some (exChain.m_kd,
          (Specular.loop exEnv exEmptyScene (exHit exChain) exRay 0 exState0).st) ∧
    ((Specular.loop exEnv exEmptyScene (exHit exChain) exRay 0 exState0).hit ≠ none →
      (Specular.loop exEnv exEmptyScene (exHit exChain) exRay 0 exState0).numRecursiveCalls
        = Specular.RECURSION_DEPTH)) ∧
    (Specular.shade exEnv exChainHall (Material.shade exEnv exChainHall 5)
        exChain exRay (exHit exChain) exState0
      = some (exChain.m_kd,
          (Specular.loop exEnv exChainHall (exHit exChain) exRay 0 exState0).st) ∧
    ((Specular.loop exEnv exChainHall (exHit exChain) exRay 0 exState0).hit ≠ none →
      (Specular.loop exEnv exChainHall (exHit exChain) exRay 0 exState0).numRecursiveCalls
        = Specular.RECURSION_DEPTH)) :=
  ⟨C10_chain_gives_up_with_kd exEnv exEmptyScene _ exChain exRay (exHit exChain) exState0
    (Or.inl (by rw [Specular.loop]; rfl)),
   C10_chain_gives_up_with_kd exEnv exChainHall _ exChain exRay (exHit exChain) exState0
    (Or.inr (Specular.loop_all_mirrors exEnv exChainHall (fun r => ⟨_, rfl, rfl⟩) 20
      (exHit exChain) exRay 0 exState0 (by decide)))⟩

/-- The loop of `Specular::shade` leaves both counters alone and adds only
`trace` events to the log. -/
theorem Specular.loop_state (env : Env K) (scene : Scene K) (k : Nat) :
    ∀ (recursiveHit : HitInfo K) (reflectedRay : Ray K) (n : Int) (st : State K),
    (Specular.RECURSION_DEPTH - n).toNat ≤ k →
    ∃ new, (Specular.loop env scene recursiveHit reflectedRay n st).st
        = ⟨st.reflectorCalls, st.refractorCalls, new ++ st.log⟩ ∧
      ∀ e ∈ new, ∃ r, e = Event.trace r := by
  induction k with
  | zero =>
    intro recursiveHit reflectedRay n st hk
    rw [Specular.loop]
    split
    · split
      · rename_i hc
        have := hc.2
        omega
      · exact ⟨[Event.trace _], rfl, by simp⟩
    · exact ⟨[Event.trace _], rfl, by simp⟩
  | succ k ih =>
    intro recursiveHit reflectedRay n st hk
    rw [Specular.loop]
    split
    · rename_i h htr
      split
      · rename_i hc
        obtain ⟨new, h1, h2⟩ := ih h
          { o := recursiveHit.P, d := reflectDir env reflectedRay.d recursiveHit.N,
            refractiveIndex := reflectedRay.refractiveIndex }
          (n + 1)
          (st.traced
            { o := recursiveHit.P, d := reflectDir env reflectedRay.d recursiveHit.N,
              refractiveIndex := reflectedRay.refractiveIndex })
          (by have := hc.2; omega)
        refine ⟨new ++ [Event.trace
          { o := recursiveHit.P, d := reflectDir env reflectedRay.d recursiveHit.N,
            refractiveIndex := reflectedRay.refractiveIndex }], ?_, ?_⟩
        · rw [h1]; simp [State.traced]
        · intro e he
          rcases List.mem_append.mp he with he | he
          · exact h2 e he
          · exact ⟨_, List.mem_singleton.mp he⟩
      · exact ⟨[Event.trace _], rfl, by simp⟩
    · exact ⟨[Event.trace _], rfl, by simp⟩

/-- The loop of `Specular::shade` keeps both counters. -/
theorem Specular.loop_counters (env : Env K) (scene : Scene K) (hit : HitInfo K) (ray : Ray K)
    (n : Int) (st : State K) :
    (Specular.loop env scene hit ray n st).st.reflectorCalls = st.reflectorCalls ∧
    (Specular.loop env scene hit ray n st).st.refractorCalls = st.refractorCalls := by
  obtain ⟨new, h1, _⟩ := Specular.loop_state env scene (Specular.RECURSION_DEPTH - n).toNat
    hit ray n st (le_refl _)
  rw [h1]
  exact ⟨rfl, rfl⟩

/-- `Specular::shade` restores the counters if the nested `shade` does. -/
theorem chain_shade_countersKept (env : Env K) (scene : Scene K) (f : ShadeFn K)
    (hf : CountersKept f) : CountersKept (Specular.shade env scene f) := by
  intro self ray hit st c st2 h
  have hl := Specular.loop_counters env scene hit ray 0 st
  unfold Specular.shade at h
  simp only at h
  split at h
  · simp only [Option.some.injEq, Prod.mk.injEq] at h
    rw [← h.2]; exact hl
  · split at h
    · simp only [Option.some.injEq, Prod.mk.injEq] at h
      rw [← h.2]; exact hl
    · split at h
      · simp at h
      · rename_i c1 st3 hn
        simp only [Option.some.injEq, Prod.mk.injEq] at h
        have := hf _ _ _ _ _ _ hn
        rw [← h.2, this.1, this.2]; exact hl

/-- The traced part of `SpecularReflector::shade` keeps the counters if the
nested `shade` does. -/
theorem reflector_traceRay_counters (env : Env K) (scene : Scene K) (f : ShadeFn K)
    (hf : CountersKept f) (self : Material K) (r : Ray K) (st : State K) (L : Vector3 K)
    (st2 : State K) (h : SpecularReflector.traceRay env scene f self r st = some (L, st2)) :
    st2.reflectorCalls = st.reflectorCalls ∧ st2.refractorCalls = st.refractorCalls := by
  unfold SpecularReflector.traceRay at h
  split at h
  · split at h
    · simp at h
    · rename_i c1 st3 hn
      simp only [Option.some.injEq, Prod.mk.injEq] at h
      have := hf _ _ _ _ _ _ hn
      rw [← h.2, this.1, this.2]; exact ⟨rfl, rfl⟩
  · simp only [Option.some.injEq, Prod.mk.injEq] at h
    rw [← h.2]; exact ⟨rfl, rfl⟩

/-- The traced part of `SpecularRefractor::shade` keeps the counters if the
nested `shade` does. -/
theorem refractor_traceRay_counters (env : Env K) (scene : Scene K) (f : ShadeFn K)
    (hf : CountersKept f) (self : Material K) (r : Ray K) (st : State K) (L : Vector3 K)
    (st2 : State K) (h : SpecularRefractor.traceRay env scene f self r st = some (L, st2)) :
    st2.reflectorCalls = st.reflectorCalls ∧ st2.refractorCalls = st.refractorCalls := by
  unfold SpecularRefractor.traceRay at h
  split at h
  · split at h
    · simp at h
    · rename_i c1 st3 hn
      simp only [Option.some.injEq, Prod.mk.injEq] at h
      have := hf _ _ _ _ _ _ hn
      rw [← h.2, this.1, this.2]; exact ⟨rfl, rfl⟩
  · simp only [Option.some.injEq, Prod.mk.injEq] at h
    rw [← h.2]; exact ⟨rfl, rfl⟩

/-- `SpecularReflector::shade` restores the counters if the nested `shade`
does. -/
theorem reflector_shade_countersKept (env : Env K) (scene : Scene K) (f : ShadeFn K)
    (hf : CountersKept f) : CountersKept (SpecularReflector.shade env scene f) := by
  intro self ray hit st c st2 h
  by_cases hcap : st.reflectorCalls = env.SPECULAR_RECURSION_DEPTH
  · simp only [SpecularReflector.shade, hcap, if_true, Option.some.injEq, Prod.mk.injEq] at h
    rw [← h.2]; exact ⟨hcap.symm ▸ rfl, rfl⟩
  · rw [reflector_shade_below_cap env scene f self ray hit st hcap] at h
    split at h
    · simp at h
    · rename_i L st3 ht
      simp only [Option.some.injEq, Prod.mk.injEq] at h
      have := reflector_traceRay_counters env scene f hf self _ _ L st3 ht
      rw [← h.2]
      simp only [State.decReflector, State.incReflector] at this ⊢
      constructor
      · omega
      · exact this.2

/-- `SpecularRefractor::shade` restores the counters if the nested `shade`
does. -/
theorem refractor_shade_countersKept (env : Env K) (scene : Scene K) (f : ShadeFn K)
    (hf : CountersKept f) : CountersKept (SpecularRefractor.shade env scene f) := by
  intro self ray hit st c st2 h
  by_cases hcap : st.refractorCalls = env.SPECULAR_RECURSION_DEPTH
  · simp only [SpecularRefractor.shade, hcap, if_true, Option.some.injEq, Prod.mk.injEq] at h
    rw [← h.2]; exact ⟨rfl, hcap.symm ▸ rfl⟩
  · by_cases hpath : (SpecularRefractor.snell ray hit).radicand < 0 ∧
        (SpecularRefractor.snell ray hit).flipped = true
    · simp only [SpecularRefractor.shade, if_neg hcap, if_pos hpath.1, if_pos hpath.2,
        Option.some.injEq, Prod.mk.injEq] at h
      rw [← h.2]
      exact ⟨rfl, by simp [State.decRefractor, State.incRefractor]⟩
    · rw [refractor_shade_below_cap env scene f self ray hit st hcap hpath] at h
      split at h
      · simp at h
      · rename_i L st3 ht
        simp only [Option.some.injEq, Prod.mk.injEq] at h
        have := refractor_traceRay_counters env scene f hf self _ _ L st3 ht
        rw [← h.2]
        simp only [State.decRefractor, State.incRefractor] at this ⊢
        constructor
        · exact this.1
        · omega

/-- Every `shade`, with any fuel, restores both counters when it returns. -/
theorem material_shade_countersKept (env : Env K) (scene : Scene K) (fuel : Nat) :
    CountersKept (Material.shade env scene fuel) := by
  induction fuel with
  | zero => intro self ray hit st c st2 h; simp [Material.shade] at h
  | succ fuel ih =>
    intro self ray hit st c st2 h
    rw [Material.shade_succ] at h
    split at h
    · exact chain_shade_countersKept env scene _ ih _ _ _ _ _ _ h
    · exact reflector_shade_countersKept env scene _ ih _ _ _ _ _ _ h
    · exact refractor_shade_countersKept env scene _ ih _ _ _ _ _ _ h
    · simp only [Option.some.injEq, Prod.mk.injEq] at h
      rw [← h.2]; exact ⟨rfl, rfl⟩

/-- C4: after `SpecularReflector::shade` or `SpecularRefractor::shade` has
returned (on any path: depth-cap return, flipped total-internal-reflection
return, hit with nested `shade`, miss), both recursion counters have exactly
the values they had on entry.  The nested `shade` is the real one, with any
fuel. -/
theorem C4_counters_restored (env : Env K) (scene : Scene K) (fuel : Nat)
    (self : Material K) (ray : Ray K) (hit : HitInfo K) (st : State K)
    (c : Vector3 K) (st2 : State K)
    (h : SpecularReflector.shade env scene (Material.shade env scene fuel) self ray hit st
          = some (c, st2) ∨
        SpecularRefractor.shade env scene (Material.shade env scene fuel) self ray hit st
          = some (c, st2)) :
    st2.reflectorCalls = st.reflectorCalls ∧ st2.refractorCalls = st.refractorCalls := by
  rcases h with h | h
  · exact reflector_shade_countersKept env scene _
      (material_shade_countersKept env scene fuel) _ _ _ _ _ _ h
  · exact refractor_shade_countersKept env scene _
      (material_shade_countersKept env scene fuel) _ _ _ _ _ _ h

omit [LinearOrderedField K] in
/-- Passing the depth guard of the reflector keeps the counters in range and
uses up one unit of slack. -/
theorem State.incReflector_inRange (env : Env K) (st : State K) (hin : st.InRange env)
    (hcap : st.reflectorCalls ≠ env.SPECULAR_RECURSION_DEPTH) (r : Ray K) :
    ((st.incReflector).traced r).InRange env ∧
    ((st.incReflector).traced r).slack env + 1 = st.slack env := by
  obtain ⟨⟨h1, h2⟩, h3, h4⟩ := hin
  simp only [State.InRange, State.slack, State.incReflector, State.traced]
  omega

omit [LinearOrderedField K] in
/-- Passing the depth guard of the refractor keeps the counters in range and
uses up one unit of slack. -/
theorem State.incRefractor_inRange (env : Env K) (st : State K) (hin : st.InRange env)
    (hcap : st.refractorCalls ≠ env.SPECULAR_RECURSION_DEPTH) (r : Ray K) :
    ((st.incRefractor).traced r).InRange env ∧
    ((st.incRefractor).traced r).slack env + 1 = st.slack env := by
  obtain ⟨⟨h1, h2⟩, h3, h4⟩ := hin
  simp only [State.InRange, State.slack, State.incRefractor, State.traced]
  omega

/-- `SpecularReflector::shade` returns if the nested `shade` returns on every
in-range state with less slack. -/
theorem reflector_shade_returns (env : Env K) (scene : Scene K) (f : ShadeFn K)
    (self : Material K) (ray : Ray K) (hit : HitInfo K) (st : State K)
    (hin : st.InRange env)
    (hf : ∀ m r h (st1 : State K), st1.InRange env → st1.slack env + 1 = st.slack env →
      ∃ c st2, f m r h st1 = some (c, st2)) :
    ∃ c st2, SpecularReflector.shade env scene f self ray hit st = some (c, st2) := by
  by_cases hcap : st.reflectorCalls = env.SPECULAR_RECURSION_DEPTH
  · exact ⟨⟨0, 0, 0⟩, st, by simp [SpecularReflector.shade, hcap]⟩
  · rw [reflector_shade_below_cap env scene f self ray hit st hcap]
    unfold SpecularReflector.traceRay
    cases htr : scene.trace (reflectedRayOf env ray hit) env.epsilon env.MIRO_TMAX with
    | none => exact ⟨_, _, rfl⟩
    | some h =>
      have hst := State.incReflector_inRange env st hin hcap (reflectedRayOf env ray hit)
      obtain ⟨c, st2, hn⟩ := hf h.material (reflectedRayOf env ray hit) h _ hst.1 hst.2
      simp only [hn]
      exact ⟨_, _, rfl⟩

/-- `SpecularRefractor::shade` returns if the nested `shade` returns on every
in-range state with less slack. -/
theorem refractor_shade_returns (env : Env K) (scene : Scene K) (f : ShadeFn K)
    (self : Material K) (ray : Ray K) (hit : HitInfo K) (st : State K)
    (hin : st.InRange env)
    (hf : ∀ m r h (st1 : State K), st1.InRange env → st1.slack env + 1 = st.slack env →
      ∃ c st2, f m r h st1 = some (c, st2)) :
    ∃ c st2, SpecularRefractor.shade env scene f self ray hit st = some (c, st2) := by
  by_cases hcap : st.refractorCalls = env.SPECULAR_RECURSION_DEPTH
  · exact ⟨⟨0, 0, 0⟩, st, by simp [SpecularRefractor.shade, hcap]⟩
  · by_cases hpath : (SpecularRefractor.snell ray hit).radicand < 0 ∧
        (SpecularRefractor.snell ray hit).flipped = true
    · exact ⟨⟨0, 0, 0⟩, st.incRefractor.decRefractor,
        by simp [SpecularRefractor.shade, hcap, hpath.1, hpath.2]⟩
    · rw [refractor_shade_below_cap env scene f self ray hit st hcap hpath]
      unfold SpecularRefractor.traceRay
      cases htr : scene.trace (SpecularRefractor.tracedRay env ray hit) env.epsilon
          env.MIRO_TMAX with
      | none => exact ⟨_, _, rfl⟩
      | some h =>
        have hst := State.incRefractor_inRange env st hin hcap
          (SpecularRefractor.tracedRay env ray hit)
        obtain ⟨c, st2, hn⟩ := hf h.material (SpecularRefractor.tracedRay env ray hit) h _
          hst.1 hst.2
        simp only [hn]
        exact ⟨_, _, rfl⟩

/-- `Specular::shade` returns if the nested `shade` returns for every material
that is not `SPECULAR`, on every in-range state with the same slack. -/
theorem chain_shade_returns (env : Env K) (scene : Scene K) (f : ShadeFn K)
    (self : Material K) (ray : Ray K) (hit : HitInfo K) (st : State K)
    (hin : st.InRange env)
    (hf : ∀ (m : Material K) r h (st1 : State K), m.m_type ≠ MaterialType.SPECULAR →
      st1.InRange env → st1.slack env = st.slack env → ∃ c st2, f m r h st1 = some (c, st2)) :
    ∃ c st2, Specular.shade env scene f self ray hit st = some (c, st2) := by
  have hl := Specular.loop_counters env scene hit ray 0 st
  unfold Specular.shade
  simp only
  cases hb : (Specular.loop env scene hit ray 0 st).hit with
  | none => exact ⟨_, _, rfl⟩
  | some h =>
    by_cases hty : h.material.getType = MaterialType.SPECULAR
    · simp only [hty, if_true]
      exact ⟨_, _, rfl⟩
    · simp only [hty, if_false]
      obtain ⟨c, st2, hn⟩ := hf h.material (Specular.loop env scene hit ray 0 st).reflectedRay h
        (Specular.loop env scene hit ray 0 st).st hty
        (by simp only [State.InRange, hl.1, hl.2]; exact hin)
        (by simp only [State.slack, hl.1, hl.2])
      simp only [hn]
      exact ⟨_, _, rfl⟩

/-- With both counters in range every `shade` returns: `2 * slack + 2` units
of fuel suffice, and `2 * slack + 1` for a material that is not `SPECULAR`. -/
theorem material_shade_returns (env : Env K) (scene : Scene K) :
    ∀ (fuel : Nat) (self : Material K) (ray : Ray K) (hit : HitInfo K) (st : State K),
    st.InRange env →
    (2 * st.slack env + 2 ≤ fuel ∨
      (self.m_type ≠ MaterialType.SPECULAR ∧ 2 * st.slack env + 1 ≤ fuel)) →
    ∃ c st2, Material.shade env scene fuel self ray hit st = some (c, st2) := by
  intro fuel
  induction fuel with
  | zero => intro self ray hit st _ h; omega
  | succ fuel ih =>
    intro self ray hit st hin hfuel
    rw [Material.shade_succ]
    split
    · rename_i hty
      refine chain_shade_returns env scene _ self ray hit st hin ?_
      intro m r h st1 hm hin1 hs
      refine ih m r h st1 hin1 (Or.inr ⟨hm, ?_⟩)
      rcases hfuel with h1 | h1
      · omega
      · exact absurd hty h1.1
    · refine reflector_shade_returns env scene _ self ray hit st hin ?_
      intro m r h st1 hin1 hs
      exact ih m r h st1 hin1 (Or.inl (by omega))
    · refine refractor_shade_returns env scene _ self ray hit st hin ?_
      intro m r h st1 hin1 hs
      exact ih m r h st1 hin1 (Or.inl (by omega))
    · exact ⟨_, _, rfl⟩

omit [LinearOrderedField K] in
/-- With both counters in range the slack is at most twice the cap. -/
theorem State.slack_le (env : Env K) (st : State K) (hin : st.InRange env) :
    2 * st.slack env + 2 ≤ fuelBound env := by
  obtain ⟨⟨h1, h2⟩, h3, h4⟩ := hin
  simp only [State.slack, fuelBound]
  omega

/-- C2: recursion terminates.  For every scene (trace oracle, lights,
materials; out-of-scope materials shade by a total function that does not call
back), with both counters initially in `[0, SPECULAR_RECURSION_DEPTH]` (so the
cap is not negative), every call of `SpecularReflector::shade`,
`SpecularRefractor::shade` and `Specular::shade` returns a colour, and at most
`4 * SPECULAR_RECURSION_DEPTH + 2` nested `shade` frames below it are ever
needed, whatever the geometry does. -/
theorem C2_shade_terminates (env : Env K) (scene : Scene K) (self : Material K)
    (ray : Ray K) (hit : HitInfo K) (st : State K) (fuel : Nat)
    (hin : st.InRange env) (hfuel : fuelBound env ≤ fuel) :
    (∃ c st2, SpecularReflector.shade env scene (Material.shade env scene fuel) self ray hit st
      = some (c, st2)) ∧
    (∃ c st2, SpecularRefractor.shade env scene (Material.shade env scene fuel) self ray hit st
      = some (c, st2)) ∧
    (∃ c st2, Specular.shade env scene (Material.shade env scene fuel) self ray hit st
      = some (c, st2)) := by
  have hs := State.slack_le env st hin
  refine ⟨?_, ?_, ?_⟩
  · refine reflector_shade_returns env scene _ self ray hit st hin ?_
    intro m r h st1 hin1 hs1
    exact material_shade_returns env scene fuel m r h st1 hin1 (Or.inl (by omega))
  · refine refractor_shade_returns env scene _ self ray hit st hin ?_
    intro m r h st1 hin1 hs1
    exact material_shade_returns env scene fuel m r h st1 hin1 (Or.inl (by omega))
  · refine chain_shade_returns env scene _ self ray hit st hin ?_
    intro m r h st1 hm hin1 hs1
    exact material_shade_returns env scene fuel m r h st1 hin1 (Or.inr ⟨hm, by omega⟩)

/-- C2 in the hall of mirrors `exHallScene`, where every reflected ray hits a
mirror again: with the cap `2` of `exEnv` and `10` units of fuel the three
`shade` functions return. -/
theorem C2_shade_terminates_witness :
    (∃ c st2, SpecularReflector.shade exEnv exHallScene (Material.shade exEnv exHallScene 10)
      exMirror exRay (exHit exMirror) exState0 = some (c, st2)) ∧
    (∃ c st2, SpecularRefractor.shade exEnv exHallScene (Material.shade exEnv exHallScene 10)
      exGlass exRay (exHit exGlass) exState0 = some (c, st2)) ∧
    (∃ c st2, Specular.shade exEnv exHallScene (Material.shade exEnv exHallScene 10)
      exChain exRay (exHit exChain) exState0 = some (c, st2)) :=
  ⟨(C2_shade_terminates exEnv exHallScene exMirror exRay (exHit exMirror) exState0 10
      (by decide) (by decide)).1,
   (C2_shade_terminates exEnv exHallScene exGlass exRay (exHit exGlass) exState0 10
      (by decide) (by decide)).2.1,
   (C2_shade_terminates exEnv exHallScene exChain exRay (exHit exChain) exState0 10
      (by decide) (by decide)).2.2⟩

/-- C4 in the hall of mirrors: the call of `SpecularReflector::shade` on
`exMirror`, which nests further reflector frames until the cap, returns with
both counters back at `0`. -/
theorem C4_counters_restored_witness :
    ∃ c st2, SpecularReflector.shade exEnv exHallScene (Material.shade exEnv exHallScene 10)
        exMirror exRay (exHit exMirror) exState0 = some (c, st2) ∧
      st2.reflectorCalls = exState0.reflectorCalls ∧
      st2.refractorCalls = exState0.refractorCalls := by
  obtain ⟨c, st2, h⟩ := reflector_shade_returns exEnv exHallScene
    (Material.shade exEnv exHallScene 10) exMirror exRay (exHit exMirror) exState0 (by decide)
    (fun m r h st1 hin1 _ =>
      material_shade_returns exEnv exHallScene 10 m r h st1 hin1
        (Or.inl (by
          have := State.slack_le exEnv st1 hin1
          have hb : fuelBound exEnv = 10 := by decide
          omega)))
  exact ⟨c, st2, h, C4_counters_restored exEnv exHallScene 10 exMirror exRay (exHit exMirror)
    exState0 c st2 (Or.inl h)⟩

omit [LinearOrderedField K] in
/-- Active frames of a concatenation. -/
theorem activeFrames_append (t : MaterialType) (a b : List (Event K)) :
    activeFrames t (a ++ b) = activeFrames t a + activeFrames t b := by
  induction a with
  | nil => simp [activeFrames]
  | cons e s ih =>
    show Event.delta t e + activeFrames t (s ++ b)
      = (Event.delta t e + activeFrames t s) + activeFrames t b
    rw [ih]; omega

omit [LinearOrderedField K] in
/-- A list of `trace` events has no active frame. -/
theorem activeFrames_traces (t : MaterialType) (l : List (Event K))
    (hl : ∀ e ∈ l, ∃ r, e = Event.trace r) : activeFrames t l = 0 := by
  induction l with
  | nil => rfl
  | cons e s ih =>
    obtain ⟨r, hr⟩ := hl e (List.mem_cons_self _ _)
    have := ih (fun e he => hl e (List.mem_cons_of_mem _ he))
    simp only [activeFrames, hr, Event.delta, this]
    rfl

omit [LinearOrderedField K] in
/-- What `LogOK` says about the whole list. -/
theorem LogOK.total (cap r0 f0 : Int) (l : List (Event K)) (h : LogOK cap r0 f0 l) :
    0 ≤ activeFrames MaterialType.SPECULAR_REFLECTOR l ∧
    0 ≤ activeFrames MaterialType.SPECULAR_REFRACTOR l ∧
    ∀ t, t ≠ MaterialType.SPECULAR_REFLECTOR → t ≠ MaterialType.SPECULAR_REFRACTOR →
      activeFrames t l = 0 := by
  cases l with
  | nil => exact ⟨le_refl _, le_refl _, fun _ _ _ => rfl⟩
  | cons e s => exact ⟨h.2.1, h.2.2.2.1, h.2.2.2.2.2.2⟩

omit [LinearOrderedField K] in
/-- Events that follow a prefix `b` satisfy `LogOK` when they do so relative to
the counter values reached after `b`. -/
theorem LogOK.append (cap r0 f0 : Int) (b : List (Event K)) (hb : LogOK cap r0 f0 b) :
    ∀ a : List (Event K),
    LogOK cap (r0 + activeFrames MaterialType.SPECULAR_REFLECTOR b)
      (f0 + activeFrames MaterialType.SPECULAR_REFRACTOR b) a →
    LogOK cap r0 f0 (a ++ b) := by
  have hbt := LogOK.total cap r0 f0 b hb
  intro a
  induction a with
  | nil => intro _; exact hb
  | cons e s ih =>
    intro ha
    obtain ⟨h1, h2, h3, h4, h5, h6, h7⟩ := ha
    have e1 := activeFrames_append MaterialType.SPECULAR_REFLECTOR (e :: s) b
    have e2 := activeFrames_append MaterialType.SPECULAR_REFRACTOR (e :: s) b
    refine ⟨ih h1, ?_, ?_, ?_, ?_, ?_, ?_⟩
    · show 0 ≤ activeFrames MaterialType.SPECULAR_REFLECTOR ((e :: s) ++ b)
      omega
    · show r0 + activeFrames MaterialType.SPECULAR_REFLECTOR ((e :: s) ++ b) ≤ cap
      omega
    · show 0 ≤ activeFrames MaterialType.SPECULAR_REFRACTOR ((e :: s) ++ b)
      omega
    · show f0 + activeFrames MaterialType.SPECULAR_REFRACTOR ((e :: s) ++ b) ≤ cap
      omega
    · show Event.records (r0 + activeFrames MaterialType.SPECULAR_REFLECTOR ((e :: s) ++ b))
        (f0 + activeFrames MaterialType.SPECULAR_REFRACTOR ((e :: s) ++ b)) e
      rw [e1, e2, ← add_assoc, ← add_assoc, add_right_comm r0, add_right_comm f0]
      exact h6
    · intro t ht1 ht2
      show activeFrames t ((e :: s) ++ b) = 0
      rw [activeFrames_append, h7 t ht1 ht2, hbt.2.2 t ht1 ht2]
      rfl

omit [LinearOrderedField K] in
/-- A list of `trace` events satisfies `LogOK` from any in-range counters. -/
theorem LogOK.traces (cap r0 f0 : Int) (hr : r0 ≤ cap) (hf : f0 ≤ cap) (l : List (Event K))
    (hl : ∀ e ∈ l, ∃ r, e = Event.trace r) : LogOK cap r0 f0 l := by
  induction l with
  | nil => trivial
  | cons e s ih =>
    have hs := ih (fun e he => hl e (List.mem_cons_of_mem _ he))
    have h0 : ∀ t, activeFrames t (e :: s) = 0 := fun t => activeFrames_traces t (e :: s) hl
    obtain ⟨r, hr1⟩ := hl e (List.mem_cons_self _ _)
    refine ⟨hs, ?_, ?_, ?_, ?_, ?_, fun t _ _ => h0 t⟩
    · rw [h0]
    · rw [h0]; omega
    · rw [h0]
    · rw [h0]; omega
    · rw [hr1]; trivial

omit [LinearOrderedField K] in
/-- A reflector frame around events `mid`: `numRecursiveCalls++`, then `mid`,
then `numRecursiveCalls--`. -/
theorem LogOK.wrapReflector (cap r0 f0 : Int) (hr0 : r0 < cap) (hf0 : f0 ≤ cap)
    (mid : List (Event K)) (hmid : LogOK cap (r0 + 1) f0 mid)
    (hb1 : activeFrames MaterialType.SPECULAR_REFLECTOR mid = 0)
    (hb2 : activeFrames MaterialType.SPECULAR_REFRACTOR mid = 0) :
    LogOK cap r0 f0
      (Event.pop MaterialType.SPECULAR_REFLECTOR r0 f0 ::
        (mid ++ [Event.push MaterialType.SPECULAR_REFLECTOR (r0 + 1) f0])) ∧
    activeFrames MaterialType.SPECULAR_REFLECTOR
      (Event.pop MaterialType.SPECULAR_REFLECTOR r0 f0 ::
        (mid ++ [Event.push MaterialType.SPECULAR_REFLECTOR (r0 + 1) f0])) = 0 ∧
    activeFrames MaterialType.SPECULAR_REFRACTOR
      (Event.pop MaterialType.SPECULAR_REFLECTOR r0 f0 ::
        (mid ++ [Event.push MaterialType.SPECULAR_REFLECTOR (r0 + 1) f0])) = 0 := by
  have hpush : LogOK cap r0 f0
      [(Event.push MaterialType.SPECULAR_REFLECTOR (r0 + 1) f0 : Event K)] := by
    refine ⟨trivial, ?_, ?_, ?_, ?_, ?_, ?_⟩
    · simp [activeFrames, Event.delta]
    · simp [activeFrames, Event.delta]; omega
    · simp [activeFrames, Event.delta]
    · simp [activeFrames, Event.delta]; omega
    · simp [activeFrames, Event.delta, Event.records]
    · intro t ht1 ht2
      simp [activeFrames, Event.delta, Ne.symm ht1]
  have hmid2 : LogOK cap r0 f0
      (mid ++ [Event.push MaterialType.SPECULAR_REFLECTOR (r0 + 1) f0]) := by
    apply LogOK.append cap r0 f0 _ hpush
    simpa [activeFrames, Event.delta] using hmid
  have a1 : activeFrames MaterialType.SPECULAR_REFLECTOR
      (mid ++ [Event.push MaterialType.SPECULAR_REFLECTOR (r0 + 1) f0]) = 1 := by
    rw [activeFrames_append, hb1]; simp [activeFrames, Event.delta]
  have a2 : activeFrames MaterialType.SPECULAR_REFRACTOR
      (mid ++ [Event.push MaterialType.SPECULAR_REFLECTOR (r0 + 1) f0]) = 0 := by
    rw [activeFrames_append, hb2]; simp [activeFrames, Event.delta]
  have a3 := (LogOK.total cap r0 f0 _ hmid2).2.2
  refine ⟨⟨hmid2, ?_, ?_, ?_, ?_, ?_, ?_⟩, ?_, ?_⟩
  · simp [activeFrames, Event.delta, a1]
  · simp [activeFrames, Event.delta, a1]; omega
  · simp [activeFrames, Event.delta, a2]
  · simp [activeFrames, Event.delta, a2]; omega
  · simp [activeFrames, Event.delta, a1, a2, Event.records]
  · intro t ht1 ht2
    simp [activeFrames, Event.delta, Ne.symm ht1, a3 t ht1 ht2]
  · simp [activeFrames, Event.delta, a1]
  · simp [activeFrames, Event.delta, a2]

omit [LinearOrderedField K] in
/-- A refractor frame around events `mid`: `numRecursiveCalls++`, then `mid`,
then `numRecursiveCalls--`. -/
theorem LogOK.wrapRefractor (cap r0 f0 : Int) (hr0 : r0 ≤ cap) (hf0 : f0 < cap)
    (mid : List (Event K)) (hmid : LogOK cap r0 (f0 + 1) mid)
    (hb1 : activeFrames MaterialType.SPECULAR_REFLECTOR mid = 0)
    (hb2 : activeFrames MaterialType.SPECULAR_REFRACTOR mid = 0) :
    LogOK cap r0 f0
      (Event.pop MaterialType.SPECULAR_REFRACTOR r0 f0 ::
        (mid ++ [Event.push MaterialType.SPECULAR_REFRACTOR r0 (f0 + 1)])) ∧
    activeFrames MaterialType.SPECULAR_REFLECTOR
      (Event.pop MaterialType.SPECULAR_REFRACTOR r0 f0 ::
        (mid ++ [Event.push MaterialType.SPECULAR_REFRACTOR r0 (f0 + 1)])) = 0 ∧
    activeFrames MaterialType.SPECULAR_REFRACTOR
      (Event.pop MaterialType.SPECULAR_REFRACTOR r0 f0 ::
        (mid ++ [Event.push MaterialType.SPECULAR_REFRACTOR r0 (f0 + 1)])) = 0 := by
  have hpush : LogOK cap r0 f0
      [(Event.push MaterialType.SPECULAR_REFRACTOR r0 (f0 + 1) : Event K)] := by
    refine ⟨trivial, ?_, ?_, ?_, ?_, ?_, ?_⟩
    · simp [activeFrames, Event.delta]
    · simp [activeFrames, Event.delta]; omega
    · simp [activeFrames, Event.delta]
    · simp [activeFrames, Event.delta]; omega
    · simp [activeFrames, Event.delta, Event.records]
    · intro t ht1 ht2
      simp [activeFrames, Event.delta, Ne.symm ht2]
  have hmid2 : LogOK cap r0 f0
      (mid ++ [Event.push MaterialType.SPECULAR_REFRACTOR r0 (f0 + 1)]) := by
    apply LogOK.append cap r0 f0 _ hpush
    simpa [activeFrames, Event.delta] using hmid
  have a1 : activeFrames MaterialType.SPECULAR_REFLECTOR
      (mid ++ [Event.push MaterialType.SPECULAR_REFRACTOR r0 (f0 + 1)]) = 0 := by
    rw [activeFrames_append, hb1]; simp [activeFrames, Event.delta]
  have a2 : activeFrames MaterialType.SPECULAR_REFRACTOR
      (mid ++ [Event.push MaterialType.SPECULAR_REFRACTOR r0 (f0 + 1)]) = 1 := by
    rw [activeFrames_append, hb2]; simp [activeFrames, Event.delta]
  have a3 := (LogOK.total cap r0 f0 _ hmid2).2.2
  refine ⟨⟨hmid2, ?_, ?_, ?_, ?_, ?_, ?_⟩, ?_, ?_⟩
  · simp [activeFrames, Event.delta, a1]
  · simp [activeFrames, Event.delta, a1]; omega
  · simp [activeFrames, Event.delta, a2]
  · simp [activeFrames, Event.delta, a2]; omega
  · simp [activeFrames, Event.delta, a1, a2, Event.records]
  · intro t ht1 ht2
    simp [activeFrames, Event.delta, Ne.symm ht2, a3 t ht1 ht2]
  · simp [activeFrames, Event.delta, a1]
  · simp [activeFrames, Event.delta, a2]

omit [LinearOrderedField K] in
/-- The events of tracing a ray and of the nested `shade`: shared by the
`traceRay` of both classes. -/
theorem nested_log (env : Env K) (f : ShadeFn K) (hb : LogBounded env f)
    (m : Material K) (r : Ray K) (h : HitInfo K) (st : State K) (c : Vector3 K)
    (st2 : State K) (hin : st.InRange env) (hn : f m r h (st.traced r) = some (c, st2)) :
    ∃ mid, st2.log = mid ++ st.log ∧
      LogOK env.SPECULAR_RECURSION_DEPTH st.reflectorCalls st.refractorCalls mid ∧
      activeFrames MaterialType.SPECULAR_REFLECTOR mid = 0 ∧
      activeFrames MaterialType.SPECULAR_REFRACTOR mid = 0 := by
  obtain ⟨new, h1, h2, h3, h4⟩ := hb m r h (st.traced r) c st2 hin hn
  have htr : LogOK env.SPECULAR_RECURSION_DEPTH st.reflectorCalls st.refractorCalls
      [(Event.trace r : Event K)] :=
    LogOK.traces _ _ _ hin.1.2 hin.2.2 _ (by simp)
  refine ⟨new ++ [Event.trace r], ?_, ?_, ?_, ?_⟩
  · rw [h1]; simp [State.traced]
  · apply LogOK.append _ _ _ _ htr
    simpa [activeFrames, Event.delta, State.traced] using h2
  · rw [activeFrames_append, h3]; simp [activeFrames, Event.delta]
  · rw [activeFrames_append, h4]; simp [activeFrames, Event.delta]

/-- The events of the traced part of `SpecularReflector::shade`. -/
theorem reflector_traceRay_log (env : Env K) (scene : Scene K) (f : ShadeFn K)
    (hb : LogBounded env f) (self : Material K) (r : Ray K) (st : State K) (L : Vector3 K)
    (st2 : State K) (hin : st.InRange env)
    (h : SpecularReflector.traceRay env scene f self r st = some (L, st2)) :
    ∃ mid, st2.log = mid ++ st.log ∧
      LogOK env.SPECULAR_RECURSION_DEPTH st.reflectorCalls st.refractorCalls mid ∧
      activeFrames MaterialType.SPECULAR_REFLECTOR mid = 0 ∧
      activeFrames MaterialType.SPECULAR_REFRACTOR mid = 0 := by
  unfold SpecularReflector.traceRay at h
  split at h
  · split at h
    · simp at h
    · rename_i c1 st3 hn
      simp only [Option.some.injEq, Prod.mk.injEq] at h
      rw [← h.2]
      exact nested_log env f hb _ _ _ st c1 st3 hin hn
  · simp only [Option.some.injEq, Prod.mk.injEq] at h
    rw [← h.2]
    exact ⟨[Event.trace r], rfl, LogOK.traces _ _ _ hin.1.2 hin.2.2 _ (by simp),
      by simp [activeFrames, Event.delta], by simp [activeFrames, Event.delta]⟩

/-- The events of the traced part of `SpecularRefractor::shade`. -/
theorem refractor_traceRay_log (env : Env K) (scene : Scene K) (f : ShadeFn K)
    (hb : LogBounded env f) (self : Material K) (r : Ray K) (st : State K) (L : Vector3 K)
    (st2 : State K) (hin : st.InRange env)
    (h : SpecularRefractor.traceRay env scene f self r st = some (L, st2)) :
    ∃ mid, st2.log = mid ++ st.log ∧
      LogOK env.SPECULAR_RECURSION_DEPTH st.reflectorCalls st.refractorCalls mid ∧
      activeFrames MaterialType.SPECULAR_REFLECTOR mid = 0 ∧
      activeFrames MaterialType.SPECULAR_REFRACTOR mid = 0 := by
  unfold SpecularRefractor.traceRay at h
  split at h
  · split at h
    · simp at h
    · rename_i c1 st3 hn
      simp only [Option.some.injEq, Prod.mk.injEq] at h
      rw [← h.2]
      exact nested_log env f hb _ _ _ st c1 st3 hin hn
  · simp only [Option.some.injEq, Prod.mk.injEq] at h
    rw [← h.2]
    exact ⟨[Event.trace r], rfl, LogOK.traces _ _ _ hin.1.2 hin.2.2 _ (by simp),
      by simp [activeFrames, Event.delta], by simp [activeFrames, Event.delta]⟩

omit [LinearOrderedField K] in
/-- The state after `numRecursiveCalls++` of the reflector is in range when the
guard was passed. -/
theorem State.incReflector_inRange0 (env : Env K) (st : State K) (hin : st.InRange env)
    (hcap : st.reflectorCalls ≠ env.SPECULAR_RECURSION_DEPTH) :
    (st.incReflector).InRange env := by
  obtain ⟨⟨h1, h2⟩, h3, h4⟩ := hin
  simp only [State.InRange, State.incReflector]
  omega

omit [LinearOrderedField K] in
/-- The state after `numRecursiveCalls++` of the refractor is in range when the
guard was passed. -/
theorem State.incRefractor_inRange0 (env : Env K) (st : State K) (hin : st.InRange env)
    (hcap : st.refractorCalls ≠ env.SPECULAR_RECURSION_DEPTH) :
    (st.incRefractor).InRange env := by
  obtain ⟨⟨h1, h2⟩, h3, h4⟩ := hin
  simp only [State.InRange, State.incRefractor]
  omega

/-- The events of `SpecularReflector::shade`. -/
theorem reflector_shade_logBounded (env : Env K) (scene : Scene K) (f : ShadeFn K)
    (hk : CountersKept f) (hb : LogBounded env f) :
    LogBounded env (SpecularReflector.shade env scene f) := by
  intro self ray hit st c st2 hin h
  by_cases hcap : st.reflectorCalls = env.SPECULAR_RECURSION_DEPTH
  · simp only [SpecularReflector.shade, hcap, if_true, Option.some.injEq, Prod.mk.injEq] at h
    rw [← h.2]
    exact ⟨[], rfl, trivial, rfl, rfl⟩
  · rw [reflector_shade_below_cap env scene f self ray hit st hcap] at h
    split at h
    · simp at h
    · rename_i L st3 ht
      simp only [Option.some.injEq, Prod.mk.injEq] at h
      have hin0 := State.incReflector_inRange0 env st hin hcap
      obtain ⟨mid, m1, m2, m3, m4⟩ :=
        reflector_traceRay_log env scene f hb self _ _ L st3 hin0 ht
      have hc := reflector_traceRay_counters env scene f hk self _ _ L st3 ht
      have hlt : st.reflectorCalls < env.SPECULAR_RECURSION_DEPTH :=
        lt_of_le_of_ne hin.1.2 hcap
      obtain ⟨w1, w2, w3⟩ := LogOK.wrapReflector env.SPECULAR_RECURSION_DEPTH
        st.reflectorCalls st.refractorCalls hlt hin.2.2 mid m2 m3 m4
      refine ⟨_, ?_, w1, w2, w3⟩
      rw [← h.2]
      have e1 : st3.reflectorCalls - 1 = st.reflectorCalls := by
        rw [hc.1]; simp [State.incReflector]
      have e2 : st3.refractorCalls = st.refractorCalls := by
        rw [hc.2]; rfl
      simp only [State.decReflector, e1, e2, m1, State.incReflector, List.cons_append,
        List.append_assoc, List.singleton_append, List.nil_append]

/-- The events of `SpecularRefractor::shade`. -/
theorem refractor_shade_logBounded (env : Env K) (scene : Scene K) (f : ShadeFn K)
    (hk : CountersKept f) (hb : LogBounded env f) :
    LogBounded env (SpecularRefractor.shade env scene f) := by
  intro self ray hit st c st2 hin h
  by_cases hcap : st.refractorCalls = env.SPECULAR_RECURSION_DEPTH
  · simp only [SpecularRefractor.shade, hcap, if_true, Option.some.injEq, Prod.mk.injEq] at h
    rw [← h.2]
    exact ⟨[], rfl, trivial, rfl, rfl⟩
  · have hlt : st.refractorCalls < env.SPECULAR_RECURSION_DEPTH :=
      lt_of_le_of_ne hin.2.2 hcap
    by_cases hpath : (SpecularRefractor.snell ray hit).radicand < 0 ∧
        (SpecularRefractor.snell ray hit).flipped = true
    · simp only [SpecularRefractor.shade, if_neg hcap, if_pos hpath.1, if_pos hpath.2,
        Option.some.injEq, Prod.mk.injEq] at h
      obtain ⟨w1, w2, w3⟩ := LogOK.wrapRefractor env.SPECULAR_RECURSION_DEPTH
        st.reflectorCalls st.refractorCalls hin.1.2 hlt ([] : List (Event K)) trivial rfl rfl
      refine ⟨_, ?_, w1, w2, w3⟩
      rw [← h.2]
      simp [State.decRefractor, State.incRefractor]
    · rw [refractor_shade_below_cap env scene f self ray hit st hcap hpath] at h
      split at h
      · simp at h
      · rename_i L st3 ht
        simp only [Option.some.injEq, Prod.mk.injEq] at h
        have hin0 := State.incRefractor_inRange0 env st hin hcap
        obtain ⟨mid, m1, m2, m3, m4⟩ :=
          refractor_traceRay_log env scene f hb self _ _ L st3 hin0 ht
        have hc := refractor_traceRay_counters env scene f hk self _ _ L st3 ht
        obtain ⟨w1, w2, w3⟩ := LogOK.wrapRefractor env.SPECULAR_RECURSION_DEPTH
          st.reflectorCalls st.refractorCalls hin.1.2 hlt mid m2 m3 m4
        refine ⟨_, ?_, w1, w2, w3⟩
        rw [← h.2]
        have e1 : st3.refractorCalls - 1 = st.refractorCalls := by
          rw [hc.2]; simp [State.incRefractor]
        have e2 : st3.reflectorCalls = st.reflectorCalls := by
          rw [hc.1]; rfl
        simp only [State.decRefractor, e1, e2, m1, State.incRefractor, List.cons_append,
          List.append_assoc, List.singleton_append, List.nil_append]

/-- The events of `Specular::shade`. -/
theorem chain_shade_logBounded (env : Env K) (scene : Scene K) (f : ShadeFn K)
    (hb : LogBounded env f) : LogBounded env (Specular.shade env scene f) := by
  intro self ray hit st c st2 hin h
  obtain ⟨tr, t1, t2⟩ := Specular.loop_state env scene (Specular.RECURSION_DEPTH - 0).toNat
    hit ray 0 st (le_refl _)
  have htr : LogOK env.SPECULAR_RECURSION_DEPTH st.reflectorCalls st.refractorCalls tr :=
    LogOK.traces _ _ _ hin.1.2 hin.2.2 tr t2
  have ha1 := activeFrames_traces MaterialType.SPECULAR_REFLECTOR tr t2
  have ha2 := activeFrames_traces MaterialType.SPECULAR_REFRACTOR tr t2
  unfold Specular.shade at h
  simp only at h
  split at h
  · simp only [Option.some.injEq, Prod.mk.injEq] at h
    rw [← h.2, t1]
    exact ⟨tr, rfl, htr, ha1, ha2⟩
  · split at h
    · simp only [Option.some.injEq, Prod.mk.injEq] at h
      rw [← h.2, t1]
      exact ⟨tr, rfl, htr, ha1, ha2⟩
    · split at h
      · simp at h
      · rename_i c1 st3 hn
        simp only [Option.some.injEq, Prod.mk.injEq] at h
        rw [t1] at hn
        obtain ⟨new, h1, h2, h3, h4⟩ := hb _ _ _
          ⟨st.reflectorCalls, st.refractorCalls, tr ++ st.log⟩ c1 st3 hin hn
        refine ⟨new ++ tr, ?_, ?_, ?_, ?_⟩
        · rw [← h.2, h1]; simp
        · apply LogOK.append _ _ _ _ htr
          rw [ha1, ha2, add_zero, add_zero]
          exact h2
        · rw [activeFrames_append, h3, ha1]; rfl
        · rw [activeFrames_append, h4, ha2]; rfl

/-- The events of every `shade`, with any fuel. -/
theorem material_shade_logBounded (env : Env K) (scene : Scene K) (fuel : Nat) :
    LogBounded env (Material.shade env scene fuel) := by
  induction fuel with
  | zero => intro self ray hit st c st2 _ h; simp [Material.shade] at h
  | succ fuel ih =>
    intro self ray hit st c st2 hin h
    rw [Material.shade_succ] at h
    split at h
    · exact chain_shade_logBounded env scene _ ih _ _ _ _ _ _ hin h
    · exact reflector_shade_logBounded env scene _
        (material_shade_countersKept env scene fuel) ih _ _ _ _ _ _ hin h
    · exact refractor_shade_logBounded env scene _
        (material_shade_countersKept env scene fuel) ih _ _ _ _ _ _ hin h
    · simp only [Option.some.injEq, Prod.mk.injEq] at h
      rw [← h.2]
      exact ⟨[], rfl, trivial, rfl, rfl⟩

omit [LinearOrderedField K] in
/-- The invariant `LogOK` holds at every earlier point of the log. -/
theorem LogOK.suffix (cap r0 f0 : Int) (l : List (Event K)) (h : LogOK cap r0 f0 l) :
    ∀ s, s <:+ l → LogOK cap r0 f0 s := by
  induction l with
  | nil =>
    intro s hs
    rw [List.suffix_nil.mp hs]
    trivial
  | cons e t ih =>
    intro s hs
    rcases List.suffix_cons_iff.mp hs with h1 | h1
    · rw [h1]; exact h
    · exact ih h.1 s h1

omit [LinearOrderedField K] in
/-- Under `LogOK` from non-negative counters every recorded counter value is
between `0` and the cap. -/
theorem LogOK.countersInRange (cap r0 f0 : Int) (hr : 0 ≤ r0) (hf : 0 ≤ f0)
    (l : List (Event K)) (h : LogOK cap r0 f0 l) :
    ∀ e ∈ l, Event.countersInRange cap e := by
  induction l with
  | nil => intro e he; simp at he
  | cons a t ih =>
    intro e he
    rcases List.mem_cons.mp he with h1 | h1
    · obtain ⟨_, h2, h3, h4, h5, h6, _⟩ := h
      rw [h1]
      cases a with
      | trace r => trivial
      | push u r1 f1 =>
        obtain ⟨e1, e2⟩ := h6
        simp only [Event.countersInRange]
        omega
      | pop u r1 f1 =>
        obtain ⟨e1, e2⟩ := h6
        simp only [Event.countersInRange]
        omega
    · exact ih h.1 e h1

/-- C3: depth-bound invariant.  Start any `shade` (of any material kind) with
both counters in `[0, SPECULAR_RECURSION_DEPTH]`.  The call returns; and
whenever it returns, at every point of the call and of all its nested calls
(that is, after every `numRecursiveCalls++` and `numRecursiveCalls--`, whose
counter values the ghost log records) both counters are in
`[0, SPECULAR_RECURSION_DEPTH]`, and at every point `s` of the log the number
of active frames of each kind (frames that passed their depth guard and have
not returned) is between `0` and the cap.  The counters are in range at the
end as well. -/
theorem C3_depth_bound (env : Env K) (scene : Scene K) (self : Material K) (ray : Ray K)
    (hit : HitInfo K) (st : State K) (hin : st.InRange env) :
    (∃ c st2, Material.shade env scene (fuelBound env) self ray hit st = some (c, st2)) ∧
    ∀ fuel c st2, Material.shade env scene fuel self ray hit st = some (c, st2) →
      st2.InRange env ∧
      ∃ new, st2.log = new ++ st.log ∧
        (∀ e ∈ new, Event.countersInRange env.SPECULAR_RECURSION_DEPTH e) ∧
        (∀ s, s <:+ new → ∀ t,
          0 ≤ activeFrames t s ∧ activeFrames t s ≤ env.SPECULAR_RECURSION_DEPTH) := by
  constructor
  · exact material_shade_returns env scene (fuelBound env) self ray hit st hin
      (Or.inl (State.slack_le env st hin))
  · intro fuel c st2 h
    have hk := material_shade_countersKept env scene fuel _ _ _ _ _ _ h
    obtain ⟨new, h1, h2, _, _⟩ := material_shade_logBounded env scene fuel _ _ _ _ _ _ hin h
    obtain ⟨⟨r1, r2⟩, f1, f2⟩ := hin
    refine ⟨?_, new, h1, LogOK.countersInRange _ _ _ r1 f1 new h2, ?_⟩
    · simp only [State.InRange, hk.1, hk.2]
      exact ⟨⟨r1, r2⟩, f1, f2⟩
    · intro s hs t
      have hs2 := LogOK.suffix _ _ _ new h2 s hs
      have ht := LogOK.total _ _ _ s hs2
      cases s with
      | nil => exact ⟨le_refl _, le_trans r1 r2⟩
      | cons e s1 =>
        obtain ⟨_, a1, a2, a3, a4, _, a6⟩ := hs2
        by_cases ht1 : t = MaterialType.SPECULAR_REFLECTOR
        · rw [ht1]; exact ⟨a1, by omega⟩
        · by_cases ht2 : t = MaterialType.SPECULAR_REFRACTOR
          · rw [ht2]; exact ⟨a3, by omega⟩
          · rw [a6 t ht1 ht2]; exact ⟨le_refl _, le_trans r1 r2⟩

/-- C3 in the hall of mirrors, where the reflector frames nest until the
cap `2`. -/
theorem C3_depth_bound_witness :
    (∃ c st2, Material.shade exEnv exHallScene (fuelBound exEnv) exMirror exRay
      (exHit exMirror) exState0 = some (c, st2)) ∧
    ∀ fuel c st2, Material.shade exEnv exHallScene fuel exMirror exRay (exHit exMirror)
        exState0 = some (c, st2) →
      st2.InRange exEnv ∧
      ∃ new, st2.log = new ++ exState0.log ∧
        (∀ e ∈ new, Event.countersInRange exEnv.SPECULAR_RECURSION_DEPTH e) ∧
        (∀ s, s <:+ new → ∀ t,
          0 ≤ activeFrames t s ∧ activeFrames t s ≤ exEnv.SPECULAR_RECURSION_DEPTH) :=
  C3_depth_bound exEnv exHallScene exMirror exRay (exHit exMirror) exState0 (by decide)

/-- The loop of `Specular::shade` leaves the counters alone and adds to the
log exactly one `trace` event for each increment of `numRecursiveCalls`. -/
theorem Specular.loop_events (env : Env K) (scene : Scene K) (k : Nat) :
    ∀ (recursiveHit : HitInfo K) (reflectedRay : Ray K) (n : Int) (st : State K),
    (Specular.RECURSION_DEPTH - n).toNat ≤ k →
    ∃ new, (Specular.loop env scene recursiveHit reflectedRay n st).st
        = ⟨st.reflectorCalls, st.refractorCalls, new ++ st.log⟩ ∧
      (∀ e ∈ new, ∃ r, e = Event.trace r) ∧
      (new.length : Int)
        = (Specular.loop env scene recursiveHit reflectedRay n st).numRecursiveCalls - n := by
  induction k with
  | zero =>
    intro recursiveHit reflectedRay n st hk
    rw [Specular.loop]
    split
    · split
      · rename_i hc
        have := hc.2
        omega
      · exact ⟨[Event.trace _], rfl, by simp, by simp⟩
    · exact ⟨[Event.trace _], rfl, by simp, by simp⟩
  | succ k ih =>
    intro recursiveHit reflectedRay n st hk
    rw [Specular.loop]
    split
    · rename_i h htr
      split
      · rename_i hc
        obtain ⟨new, h1, h2, h3⟩ := ih h
          { o := recursiveHit.P, d := reflectDir env reflectedRay.d recursiveHit.N,
            refractiveIndex := reflectedRay.refractiveIndex }
          (n + 1)
          (st.traced
            { o := recursiveHit.P, d := reflectDir env reflectedRay.d recursiveHit.N,
              refractiveIndex := reflectedRay.refractiveIndex })
          (by have := hc.2; omega)
        refine ⟨new ++ [Event.trace
          { o := recursiveHit.P, d := reflectDir env reflectedRay.d recursiveHit.N,
            refractiveIndex := reflectedRay.refractiveIndex }], ?_, ?_, ?_⟩
        · rw [h1]; simp [State.traced]
        · intro e he
          rcases List.mem_append.mp he with he | he
          · exact h2 e he
          · exact ⟨_, List.mem_singleton.mp he⟩
        · rw [List.length_append, List.length_singleton]
          push_cast
          omega
      · exact ⟨[Event.trace _], rfl, by simp, by simp⟩
    · exact ⟨[Event.trace _], rfl, by simp, by simp⟩

/-- The two ways `Specular::shade` can end: it returns its own `kd`, or the
loop was left on a material that is not `SPECULAR` and it returns `kd` times
what the `shade` of that material returns. -/
theorem chain_shade_cases (env : Env K) (scene : Scene K) (f : ShadeFn K)
    (self : Material K) (ray : Ray K) (hit : HitInfo K) (st : State K) :
    Specular.shade env scene f self ray hit st
        = some (self.m_kd, (Specular.loop env scene hit ray 0 st).st) ∨
    ∃ h, (Specular.loop env scene hit ray 0 st).hit = some h ∧
      h.material.getType ≠ MaterialType.SPECULAR ∧
      Specular.shade env scene f self ray hit st
        = (f h.material (Specular.loop env scene hit ray 0 st).reflectedRay h
            (Specular.loop env scene hit ray 0 st).st).map
            (fun p => (self.m_kd * p.1, p.2)) := by
  unfold Specular.shade
  simp only
  cases hb : (Specular.loop env scene hit ray 0 st).hit with
  | none => exact Or.inl rfl
  | some h =>
    by_cases hty : h.material.getType = MaterialType.SPECULAR
    · simp only [hty, if_true]
      exact Or.inl trivial
    · simp only [hty, if_false]
      refine Or.inr ⟨h, rfl, hty, ?_⟩
      cases f h.material (Specular.loop env scene hit ray 0 st).reflectedRay h
        (Specular.loop env scene hit ray 0 st).st <;> rfl

/-- C11: one call of `Specular::shade` performs at least 1 and at most
`RECURSION_DEPTH = 20` calls of `scene.trace`.  For every nested `shade`, ray,
hit, scene and state there is a list `new` of between 1 and 20 events, all of
them `trace` events and as many as the final value of the bounce counter
`numRecursiveCalls`, such that the call itself does one of two things: it
returns its `kd` in the entry state with exactly `new` added to the log; or it
hands the entry state with exactly `new` added to the log to the `shade` of a
material that is not `SPECULAR`, and returns what that returns (scaled by
`kd`).  So the traces of the call itself, made before it returns or
delegates, number between 1 and 20.  When every traced ray hits another
`SPECULAR` mirror the call returns `kd` after exactly 20 traces. -/
theorem C11_chain_trace_calls (env : Env K) (scene : Scene K) (f : ShadeFn K)
    (self : Material K) (ray : Ray K) (hit : HitInfo K) (st : State K) :
    ∃ new : List (Event K),
      (∀ e ∈ new, ∃ r, e = Event.trace r) ∧
      1 ≤ new.length ∧ new.length ≤ 20 ∧
      (new.length : Int) = (Specular.loop env scene hit ray 0 st).numRecursiveCalls ∧
      (Specular.shade env scene f self ray hit st
          = some (self.m_kd, ⟨st.reflectorCalls, st.refractorCalls, new ++ st.log⟩) ∨
        ∃ h r2, h.material.getType ≠ MaterialType.SPECULAR ∧
          Specular.shade env scene f self ray hit st
            = (f h.material r2 h ⟨st.reflectorCalls, st.refractorCalls, new ++ st.log⟩).map
                (fun p => (self.m_kd * p.1, p.2))) ∧
      ((∀ r, ∃ h, scene.trace r env.epsilon env.MIRO_TMAX = some h ∧
          h.material.getType = MaterialType.SPECULAR) →
        new.length = 20 ∧
        Specular.shade env scene f self ray hit st
          = some (self.m_kd, ⟨st.reflectorCalls, st.refractorCalls, new ++ st.log⟩)) := by
  obtain ⟨new, h1, h2, h3⟩ := Specular.loop_events env scene 20 hit ray 0 st (by decide)
  have hc := Specular.loop_count env scene 20 hit ray 0 st (by decide) (by decide)
  have hlen : (new.length : Int)
      = (Specular.loop env scene hit ray 0 st).numRecursiveCalls := by
    rw [h3]; omega
  have h20 : Specular.RECURSION_DEPTH = 20 := rfl
  refine ⟨new, h2, by omega, by omega, hlen, ?_, ?_⟩
  · rcases chain_shade_cases env scene f self ray hit st with hs | ⟨h, _, hty, hs⟩
    · rw [h1] at hs
      exact Or.inl hs
    · rw [h1] at hs
      exact Or.inr ⟨h, _, hty, hs⟩
  · intro hall
    obtain ⟨h, hh, hty⟩ := Specular.loop_all_mirrors env scene hall 20 hit ray 0 st
      (by decide)
    have := hc.2.2 h hh hty
    refine ⟨by omega, ?_⟩
    rcases chain_shade_cases env scene f self ray hit st with hs | ⟨h2, hh2, hty2, _⟩
    · rw [h1] at hs
      exact hs
    · rw [hh] at hh2
      simp only [Option.some.injEq] at hh2
      rw [hh2] at hty
      exact absurd hty hty2

/-- C11 in the hall of `Specular` mirrors `exChainHall`, where every traced
ray hits a mirror again: the call on the red mirror `exChain` returns its `kd`
in a state whose log has gained exactly 20 events, all of them traces. -/
theorem C11_chain_trace_calls_witness :
    ∃ new : List (Event ℚ),
      (∀ e ∈ new, ∃ r, e = Event.trace r) ∧ new.length = 20 ∧
      Specular.shade exEnv exChainHall (Material.shade exEnv exChainHall 5) exChain exRay
          (exHit exChain) exState0
        = some (exChain.m_kd, ⟨0, 0, new ++ []⟩) := by
  obtain ⟨new, h1, _, _, _, _, h6⟩ := C11_chain_trace_calls exEnv exChainHall
    (Material.shade exEnv exChainHall 5) exChain exRay (exHit exChain) exState0
  have h := h6 (fun r => ⟨_, rfl, rfl⟩)
  exact ⟨new, h1, h.1, h.2⟩

/-- The loop of `Specular::shade` in the scene `exTwoBounce`, started at the
origin: the first trace hits the blue mirror, the second hits the yellow
material, after which the loop is left with bounce counter `2`. -/
theorem exTwoBounce_loop :
    (Specular.loop exEnv exTwoBounce (exHit exChain) exRay 0 exState0).hit = some exHitDiffuse ∧
    (Specular.loop exEnv exTwoBounce (exHit exChain) exRay 0 exState0).numRecursiveCalls = 2 := by
  have t1 : ∀ d i, exTwoBounce.trace ⟨⟨0, 0, 0⟩, d, i⟩ exEnv.epsilon exEnv.MIRO_TMAX
      = some exHitBlue := by
    intro d i; simp [exTwoBounce]
  have t2 : ∀ d i, exTwoBounce.trace ⟨⟨0, 0, 5⟩, d, i⟩ exEnv.epsilon exEnv.MIRO_TMAX
      = some exHitDiffuse := by
    intro d i; simp [exTwoBounce]
  rw [Specular.loop]
  simp only [exHit, t1]
  rw [if_pos (by decide)]
  rw [Specular.loop]
  simp only [exHitBlue, t2]
  rw [if_neg (by simp [exHitDiffuse, exDiffuse, Material.getType])]
  exact ⟨rfl, rfl⟩

/-- C12: when the bounce loop of `Specular::shade` is left on a hit of a
material that is not `SPECULAR`, after any number `k` of bounces
(`1 <= k <= 20`), the call returns `kd * c`, where `c` is the colour that the
`shade` of that material returns for the final reflected ray and the final
hit, and it does not return when that `shade` does not.  This material's `kd`
is applied once: the factor is the same for every `k`, and no `kd` of a mirror
met on the way enters. -/
theorem C12_chain_delegates_once (env : Env K) (scene : Scene K) (f : ShadeFn K)
    (self : Material K) (ray : Ray K) (hit : HitInfo K) (st : State K) (h : HitInfo K)
    (hend : (Specular.loop env scene hit ray 0 st).hit = some h)
    (hty : h.material.getType ≠ MaterialType.SPECULAR) :
    Specular.shade env scene f self ray hit st
      = (f h.material (Specular.loop env scene hit ray 0 st).reflectedRay h
          (Specular.loop env scene hit ray 0 st).st).map
          (fun p => (self.m_kd * p.1, p.2)) ∧
    1 ≤ (Specular.loop env scene hit ray 0 st).numRecursiveCalls ∧
    (Specular.loop env scene hit ray 0 st).numRecursiveCalls ≤ Specular.RECURSION_DEPTH := by
  have hc := Specular.loop_count env scene 20 hit ray 0 st (by decide) (by decide)
  refine ⟨?_, by omega, hc.1⟩
  unfold Specular.shade
  simp only [hend, if_neg hty]
  cases f h.material (Specular.loop env scene hit ray 0 st).reflectedRay h
    (Specular.loop env scene hit ray 0 st).st with
  | none => rfl
  | some p => rfl

/-- C12 after two bounces: the red mirror `exChain` reflects into the blue
mirror `exChainBlue`, which reflects onto the yellow material `exDiffuse`
(whose `shade` returns `(1, 1, 0)` in the one-light scene).  The call returns
`(1, 0, 0) * (1, 1, 0) = (1, 0, 0)`: the blue `kd = (0, 0, 1)` of the mirror in
between is not a factor. -/
theorem C12_chain_delegates_once_witness :
    (Specular.shade exEnv exTwoBounce (Material.shade exEnv exTwoBounce 5) exChain exRay
        (exHit exChain) exState0).map Prod.fst
      = some ⟨1, 0, 0⟩ ∧
    (Specular.loop exEnv exTwoBounce (exHit exChain) exRay 0 exState0).numRecursiveCalls = 2 := by
  have hl := exTwoBounce_loop
  have h := (C12_chain_delegates_once exEnv exTwoBounce (Material.shade exEnv exTwoBounce 5)
    exChain exRay (exHit exChain) exState0 exHitDiffuse hl.1
    (by simp [exHitDiffuse, exDiffuse, Material.getType])).1
  refine ⟨?_, hl.2⟩
  rw [h]
  rw [show (5 : Nat) = 4 + 1 from rfl, Material.shade_succ]
  simp only [exHitDiffuse, exDiffuse, Option.map_some', Option.some.injEq]
  rw [Vector3.ext_iff3]
  simp [exEnv, exTwoBounce, exChain]

omit [LinearOrderedField K] in
/-- Recolouring keeps the kind of a material. -/
theorem Material.recolor_getType (g : Material K → Vector3 K) (m : Material K) :
    (m.recolor g).getType = m.getType := by
  unfold Material.recolor Material.getType
  split <;> rfl

omit [LinearOrderedField K] in
/-- Recolouring does not change a material that is not `SPECULAR`. -/
theorem Material.recolor_other (g : Material K → Vector3 K) (m : Material K)
    (hm : m.getType ≠ MaterialType.SPECULAR) : m.recolor g = m := by
  unfold Material.recolor
  exact if_neg hm

omit [LinearOrderedField K] in
/-- Recolouring keeps the kind of the material of a hit. -/
theorem hit_recolor_getType (g : Material K → Vector3 K) (h : HitInfo K) :
    (h.recolor g).material.getType = h.material.getType :=
  Material.recolor_getType g h.material

/-- The loop of `Specular::shade` in a recoloured scene does what it does in
the original scene, up to the colour of the final hit. -/
theorem Specular.loop_recolor (env : Env K) (scene : Scene K) (g : Material K → Vector3 K)
    (k : Nat) :
    ∀ (recursiveHit : HitInfo K) (reflectedRay : Ray K) (n : Int) (st : State K),
    (Specular.RECURSION_DEPTH - n).toNat ≤ k →
    Specular.loop env (scene.recolor g) (recursiveHit.recolor g) reflectedRay n st
      = { hit := (Specular.loop env scene recursiveHit reflectedRay n st).hit.map
            (HitInfo.recolor g),
          reflectedRay := (Specular.loop env scene recursiveHit reflectedRay n st).reflectedRay,
          numRecursiveCalls :=
            (Specular.loop env scene recursiveHit reflectedRay n st).numRecursiveCalls,
          st := (Specular.loop env scene recursiveHit reflectedRay n st).st } := by
  have etr : ∀ r a b, (scene.recolor g).trace r a b
      = (scene.trace r a b).map (HitInfo.recolor g) := fun _ _ _ => rfl
  have eP : ∀ h : HitInfo K, (h.recolor g).P = h.P := fun _ => rfl
  have eN : ∀ h : HitInfo K, (h.recolor g).N = h.N := fun _ => rfl
  induction k with
  | zero =>
    intro recursiveHit reflectedRay n st hk
    have hn : ¬ (n + 1 < Specular.RECURSION_DEPTH) := by omega
    rw [Specular.loop, Specular.loop]
    simp only [etr, eP, eN]
    cases scene.trace
      { o := recursiveHit.P, d := reflectDir env reflectedRay.d recursiveHit.N,
        refractiveIndex := reflectedRay.refractiveIndex } env.epsilon env.MIRO_TMAX with
    | none => rfl
    | some h =>
      simp only [Option.map_some', hit_recolor_getType, hn, and_false, if_false]
  | succ k ih =>
    intro recursiveHit reflectedRay n st hk
    rw [Specular.loop, Specular.loop]
    simp only [etr, eP, eN]
    cases scene.trace
      { o := recursiveHit.P, d := reflectDir env reflectedRay.d recursiveHit.N,
        refractiveIndex := reflectedRay.refractiveIndex } env.epsilon env.MIRO_TMAX with
    | none => rfl
    | some h =>
      simp only [Option.map_some', hit_recolor_getType]
      by_cases hc : h.material.getType = MaterialType.SPECULAR ∧
          n + 1 < Specular.RECURSION_DEPTH
      · simp only [if_pos hc]
        exact ih h
          { o := recursiveHit.P, d := reflectDir env reflectedRay.d recursiveHit.N,
            refractiveIndex := reflectedRay.refractiveIndex }
          (n + 1)
          (st.traced
            { o := recursiveHit.P, d := reflectDir env reflectedRay.d recursiveHit.N,
              refractiveIndex := reflectedRay.refractiveIndex })
          (by have := hc.2; omega)
      · simp only [if_neg hc, Option.map_some']

/-- When the loop of `Specular::shade` is left on a hit of a material that is
not `SPECULAR`, the call returns `kd` times what the `shade` of that material
returns. -/
theorem chain_shade_delegate (env : Env K) (scene : Scene K) (f : ShadeFn K)
    (self : Material K) (ray : Ray K) (hit : HitInfo K) (st : State K) (h : HitInfo K)
    (hend : (Specular.loop env scene hit ray 0 st).hit = some h)
    (hty : h.material.getType ≠ MaterialType.SPECULAR) :
    Specular.shade env scene f self ray hit st
      = (f h.material (Specular.loop env scene hit ray 0 st).reflectedRay h
          (Specular.loop env scene hit ray 0 st).st).map
          (fun p => (self.m_kd * p.1, p.2)) := by
  unfold Specular.shade
  simp only [hend, if_neg hty]
  cases f h.material (Specular.loop env scene hit ray 0 st).reflectedRay h
    (Specular.loop env scene hit ray 0 st).st <;> rfl

/-- In the scene `exLoopBack kd` the call of `Specular::shade` on the white
mirror `exChainWhite` at the origin, with the real nested `shade`, returns the
tint `kd` of the mirror `M`: the loop goes over `M` to the reflector
`exPlain`, whose `shade` reflects into `M` again, and the `Specular::shade` of
`M` returns `kd` on a miss. -/
theorem exLoopBack_shade (kd : Vector3 ℚ) :
    (Specular.shade exEnv (exLoopBack kd) (Material.shade exEnv (exLoopBack kd) 5)
      exChainWhite exRay (exHit exChainWhite) exState0).map Prod.fst = some kd := by
  have t0 : ∀ d i, (exLoopBack kd).trace ⟨⟨0, 0, 0⟩, d, i⟩ exEnv.epsilon exEnv.MIRO_TMAX
      = some ⟨⟨0, 0, 5⟩, ⟨0, 0, -1⟩, exMirrorM kd⟩ := by
    intro d i; simp [exLoopBack]
  have t1 : ∀ d i, (exLoopBack kd).trace ⟨⟨0, 0, 5⟩, d, i⟩ exEnv.epsilon exEnv.MIRO_TMAX
      = some exHitPlain := by
    intro d i; simp [exLoopBack]
  have t2 : ∀ d i, (exLoopBack kd).trace ⟨⟨1, 0, 0⟩, d, i⟩ exEnv.epsilon exEnv.MIRO_TMAX
      = some ⟨⟨0, 0, 7⟩, ⟨0, 0, -1⟩, exMirrorM kd⟩ := by
    intro d i; simp [exLoopBack]
  have t3 : ∀ d i, (exLoopBack kd).trace ⟨⟨0, 0, 7⟩, d, i⟩ exEnv.epsilon exEnv.MIRO_TMAX
      = none := by
    intro d i; simp [exLoopBack]
  -- the loop of the outer call: over `M` to the reflector
  have hl : (Specular.loop exEnv (exLoopBack kd) (exHit exChainWhite) exRay 0 exState0).hit
      = some exHitPlain := by
    rw [Specular.loop]
    simp only [exHit, t0]
    rw [if_pos ⟨rfl, by decide⟩]
    rw [Specular.loop]
    simp only [t1]
    rw [if_neg (by simp [exHitPlain, exPlain, Material.getType])]
  have hc := Specular.loop_counters exEnv (exLoopBack kd) (exHit exChainWhite) exRay 0 exState0
  -- the `shade` of `M`, reached from the reflector: a miss
  have hM : ∀ (r : Ray ℚ) (st : State ℚ),
      (Material.shade exEnv (exLoopBack kd) 4 (exMirrorM kd) r
        ⟨⟨0, 0, 7⟩, ⟨0, 0, -1⟩, exMirrorM kd⟩ st).map Prod.fst = some kd := by
    intro r st
    have hmiss : (Specular.loop exEnv (exLoopBack kd) ⟨⟨0, 0, 7⟩, ⟨0, 0, -1⟩, exMirrorM kd⟩
        r 0 st).hit = none := by
      rw [Specular.loop]
      simp only [t3]
    rw [show (4 : Nat) = 3 + 1 from rfl, Material.shade_succ]
    show (Specular.shade exEnv (exLoopBack kd) _ (exMirrorM kd) r
      ⟨⟨0, 0, 7⟩, ⟨0, 0, -1⟩, exMirrorM kd⟩ st).map Prod.fst = _
    unfold Specular.shade
    simp only [hmiss]
    rfl
  -- the `shade` of the reflector
  have hR : ∀ (r : Ray ℚ) (st : State ℚ), st.reflectorCalls = 0 →
      (Material.shade exEnv (exLoopBack kd) 5 exPlain r exHitPlain st).map Prod.fst
        = some (exPlain.m_kd * kd + exPlain.m_ka) := by
    intro r st hst
    rw [show (5 : Nat) = 4 + 1 from rfl, Material.shade_succ]
    show (SpecularReflector.shade exEnv (exLoopBack kd) _ exPlain r exHitPlain st).map
      Prod.fst = _
    rw [reflector_shade_below_cap _ _ _ _ _ _ _ (by rw [hst]; decide)]
    have hr : reflectedRayOf exEnv r exHitPlain
        = ⟨⟨1, 0, 0⟩, reflectDir exEnv r.d exHitPlain.N, r.refractiveIndex⟩ := rfl
    rw [hr]
    simp only [SpecularReflector.traceRay, t2]
    have hn := hM ⟨⟨1, 0, 0⟩, reflectDir exEnv r.d exHitPlain.N, r.refractiveIndex⟩
      ((st.incReflector).traced
        ⟨⟨1, 0, 0⟩, reflectDir exEnv r.d exHitPlain.N, r.refractiveIndex⟩)
    revert hn
    generalize Material.shade exEnv (exLoopBack kd) 4 (exMirrorM kd)
        ⟨⟨1, 0, 0⟩, reflectDir exEnv r.d exHitPlain.N, r.refractiveIndex⟩
        ⟨⟨0, 0, 7⟩, ⟨0, 0, -1⟩, exMirrorM kd⟩
        ((st.incReflector).traced
          ⟨⟨1, 0, 0⟩, reflectDir exEnv r.d exHitPlain.N, r.refractiveIndex⟩) = x
    intro hn
    cases x with
    | none => simp at hn
    | some p =>
      simp only [Option.map_some', Option.some.injEq] at hn
      simp only [Option.map_some', Option.some.injEq]
      rw [phongHighlights_exp_zero _ _ _ _ _ _ rfl, hn]
  rw [chain_shade_delegate _ _ _ _ _ _ _ exHitPlain hl
    (by simp [exHitPlain, exPlain, Material.getType])]
  have hd : (Material.shade exEnv (exLoopBack kd) 5 exHitPlain.material
      (Specular.loop exEnv (exLoopBack kd) (exHit exChainWhite) exRay 0 exState0).reflectedRay
      exHitPlain
      (Specular.loop exEnv (exLoopBack kd) (exHit exChainWhite) exRay 0 exState0).st).map
      Prod.fst = some (exPlain.m_kd * kd + exPlain.m_ka) :=
    hR _ _ hc.1
  revert hd
  generalize Material.shade exEnv (exLoopBack kd) 5 exHitPlain.material
      (Specular.loop exEnv (exLoopBack kd) (exHit exChainWhite) exRay 0 exState0).reflectedRay
      exHitPlain
      (Specular.loop exEnv (exLoopBack kd) (exHit exChainWhite) exRay 0 exState0).st = x
  intro hd
  cases x with
  | none => simp at hd
  | some p =>
    simp only [Option.map_some', Option.some.injEq] at hd
    simp only [Option.map_some', Option.some.injEq]
    rw [hd, Vector3.ext_iff3]
    simp [exChainWhite, exPlain]

/-- Painting the mirrors of `exLoopBack kd` white gives `exLoopBack` with a
white `M`, and leaves the hit on the white mirror `exChainWhite` as it is. -/
theorem exLoopBack_recolor (kd : Vector3 ℚ) :
    (exLoopBack kd).recolor (fun _ => ⟨1, 1, 1⟩) = exLoopBack ⟨1, 1, 1⟩ ∧
    (exHit exChainWhite).recolor (fun _ => ⟨1, 1, 1⟩) = exHit exChainWhite := by
  constructor
  · have ht : ((exLoopBack kd).recolor (fun _ => ⟨1, 1, 1⟩)).trace
        = (exLoopBack ⟨1, 1, 1⟩).trace := by
      funext r a b
      simp only [Scene.recolor, exLoopBack]
      split
      · rfl
      · split
        · rfl
        · split <;> rfl
    have he : (exLoopBack kd).recolor (fun _ => ⟨1, 1, 1⟩)
        = ⟨((exLoopBack kd).recolor (fun _ => ⟨1, 1, 1⟩)).trace, [], none, 0, 0⟩ := rfl
    rw [he, ht]
    rfl
  · rfl

/-- C20 as stated fails in its consequence.  In the scene `exLoopBack kd` the
loop of the call on the white mirror `exChainWhite` goes over the `SPECULAR`
mirror `M` (an intermediate mirror of the chain) to the reflector `exPlain`.
With `M` blue the call returns `(0, 0, 1)`; with `M` painted white and nothing
else changed it returns `(1, 1, 1)`: the result depends on the `kd` of an
intermediate mirror, because the `shade` of the reflector finally reached
reflects into `M` again. -/
theorem C20_chain_kd_counterexample :
    (Specular.loop exEnv (exLoopBack ⟨0, 0, 1⟩) (exHit exChainWhite) exRay 0 exState0).hit
      = some exHitPlain ∧
    (Specular.loop exEnv (exLoopBack ⟨0, 0, 1⟩) (exHit exChainWhite) exRay 0
      exState0).numRecursiveCalls = 2 ∧
    (exLoopBack ⟨0, 0, 1⟩).trace ⟨⟨0, 0, 0⟩, ⟨0, 0, 1⟩, 1⟩ exEnv.epsilon exEnv.MIRO_TMAX
      = some ⟨⟨0, 0, 5⟩, ⟨0, 0, -1⟩, exMirrorM ⟨0, 0, 1⟩⟩ ∧
    (Specular.shade exEnv (exLoopBack ⟨0, 0, 1⟩)
      (Material.shade exEnv (exLoopBack ⟨0, 0, 1⟩) 5)
      exChainWhite exRay (exHit exChainWhite) exState0).map Prod.fst = some ⟨0, 0, 1⟩ ∧
    (Specular.shade exEnv ((exLoopBack ⟨0, 0, 1⟩).recolor (fun _ => ⟨1, 1, 1⟩))
      (Material.shade exEnv ((exLoopBack ⟨0, 0, 1⟩).recolor (fun _ => ⟨1, 1, 1⟩)) 5)
      exChainWhite exRay ((exHit exChainWhite).recolor (fun _ => ⟨1, 1, 1⟩)) exState0).map
        Prod.fst = some ⟨1, 1, 1⟩ := by
  have t0 : ∀ d i, (exLoopBack ⟨0, 0, 1⟩).trace ⟨⟨0, 0, 0⟩, d, i⟩ exEnv.epsilon
      exEnv.MIRO_TMAX = some ⟨⟨0, 0, 5⟩, ⟨0, 0, -1⟩, exMirrorM ⟨0, 0, 1⟩⟩ := by
    intro d i; simp [exLoopBack]
  have t1 : ∀ d i, (exLoopBack ⟨0, 0, 1⟩).trace ⟨⟨0, 0, 5⟩, d, i⟩ exEnv.epsilon
      exEnv.MIRO_TMAX = some exHitPlain := by
    intro d i; simp [exLoopBack]
  refine ⟨?_, ?_, t0 _ _, exLoopBack_shade _, ?_⟩
  · rw [Specular.loop]
    simp only [exHit, t0]
    rw [if_pos ⟨rfl, by decide⟩]
    rw [Specular.loop]
    simp only [t1]
    rw [if_neg (by simp [exHitPlain, exPlain, Material.getType])]
  · rw [Specular.loop]
    simp only [exHit, t0]
    rw [if_pos ⟨rfl, by decide⟩]
    rw [Specular.loop]
    simp only [t1]
    rw [if_neg (by simp [exHitPlain, exPlain, Material.getType])]
    rfl
  · rw [(exLoopBack_recolor ⟨0, 0, 1⟩).1, (exLoopBack_recolor ⟨0, 0, 1⟩).2]
    exact exLoopBack_shade _

/-- C20 (amended): `Specular::shade` never delegates to another mirror.  The
call either returns its own `kd`, or it calls `shade` on the material of the
final hit, whose type is then not `SPECULAR`, and returns `kd` times that
colour; one `Specular::shade` frame never directly nests another (the result
is the same when the nested `shade` is made unable to run on a `SPECULAR`
material).  Hence the `kd` of the `SPECULAR` mirrors of the chain (the first
hit, the mirrors met on the way, the last one) is not read by the call itself:
when it is replaced by any other colour, the result is the same provided the
nested `shade` returns the same on the materials that are not `SPECULAR`, and
it is the same for every nested `shade` when the loop ends on a miss or on a
`SPECULAR` hit at the cap.  The result depends on this material's `kd` and on
the colour returned by the `shade` of the non-mirror material finally reached;
the `kd` of a mirror can enter only through that colour. -/
theorem C20_chain_never_delegates_to_mirror (env : Env K) (scene : Scene K) (f : ShadeFn K)
    (self : Material K) (ray : Ray K) (hit : HitInfo K) (st : State K) :
    (Specular.shade env scene f self ray hit st
        = some (self.m_kd, (Specular.loop env scene hit ray 0 st).st) ∨
      ∃ h, (Specular.loop env scene hit ray 0 st).hit = some h ∧
        h.material.getType ≠ MaterialType.SPECULAR ∧
        Specular.shade env scene f self ray hit st
          = (f h.material (Specular.loop env scene hit ray 0 st).reflectedRay h
              (Specular.loop env scene hit ray 0 st).st).map
              (fun p => (self.m_kd * p.1, p.2))) ∧
    (∀ f2 : ShadeFn K,
      (∀ m r h s, m.getType ≠ MaterialType.SPECULAR → f2 m r h s = f m r h s) →
      Specular.shade env scene f2 self ray hit st = Specular.shade env scene f self ray hit st) ∧
    (∀ fuel, Specular.shade env scene (ShadeFn.withoutMirrors (Material.shade env scene fuel))
        self ray hit st
      = Specular.shade env scene (Material.shade env scene fuel) self ray hit st) ∧
    (∀ g : Material K → Vector3 K,
      Specular.shade env (scene.recolor g) f self ray (hit.recolor g) st
        = Specular.shade env scene f self ray hit st) ∧
    (∀ (g : Material K → Vector3 K) (f2 : ShadeFn K),
      (∀ m r h s, m.getType ≠ MaterialType.SPECULAR → f2 m r h s = f m r h s) →
      Specular.shade env (scene.recolor g) f2 self ray (hit.recolor g) st
        = Specular.shade env scene f self ray hit st) ∧
    (∀ (g : Material K → Vector3 K) (f2 : ShadeFn K),
      ((Specular.loop env scene hit ray 0 st).hit = none ∨
        ∃ h, (Specular.loop env scene hit ray 0 st).hit = some h ∧
          h.material.getType = MaterialType.SPECULAR) →
      Specular.shade env (scene.recolor g) f2 self ray (hit.recolor g) st
        = Specular.shade env scene f self ray hit st) := by
  have hcongr : ∀ f1 f2 : ShadeFn K,
      (∀ m r h s, m.getType ≠ MaterialType.SPECULAR → f2 m r h s = f1 m r h s) →
      Specular.shade env scene f2 self ray hit st
        = Specular.shade env scene f1 self ray hit st := by
    intro f1 f2 hf
    unfold Specular.shade
    simp only
    cases (Specular.loop env scene hit ray 0 st).hit with
    | none => rfl
    | some h =>
      by_cases hty : h.material.getType = MaterialType.SPECULAR
      · simp only [hty, if_true]
      · simp only [hty, if_false, hf _ _ _ _ hty]
  have hrec : ∀ (g : Material K → Vector3 K) (f1 : ShadeFn K),
      Specular.shade env (scene.recolor g) f1 self ray (hit.recolor g) st
        = Specular.shade env scene f1 self ray hit st := by
    intro g f1
    have hl := Specular.loop_recolor env scene g 20 hit ray 0 st (by decide)
    unfold Specular.shade
    simp only [hl]
    cases (Specular.loop env scene hit ray 0 st).hit with
    | none => rfl
    | some h =>
      simp only [Option.map_some']
      by_cases hty : h.material.getType = MaterialType.SPECULAR
      · simp only [hit_recolor_getType, hty, if_true]
      · have h3 : HitInfo.recolor g h = h := by
          simp only [HitInfo.recolor, Material.recolor_other g h.material hty]
        simp only [h3, hty, if_false]
  refine ⟨chain_shade_cases env scene f self ray hit st, hcongr f, ?_, fun g => hrec g f,
    ?_, ?_⟩
  · intro fuel
    apply hcongr
    intro m r h s hm
    simp [ShadeFn.withoutMirrors, hm]
  · intro g f2 hf
    rw [hrec g f2]
    exact hcongr f f2 hf
  · intro g f2 hend
    rw [hrec g f2]
    unfold Specular.shade
    simp only
    rcases hend with h0 | ⟨h, hh, hty⟩
    · simp only [h0]
    · simp only [hh, hty, if_true]

/-- C20 (amended) on two scenes.  In `exTwoBounce`, painting every `Specular`
mirror white (among them the blue mirror met on the way) does not change what
the call on the red mirror `exChain` returns, for the given nested `shade`.
In the hall `exChainHall`, where the loop ends on a mirror at the cap, the
result is the same with the real nested `shade` of the repainted scene. -/
theorem C20_chain_never_delegates_to_mirror_witness :
    Specular.shade exEnv (exTwoBounce.recolor (fun _ => ⟨1, 1, 1⟩))
        (Material.shade exEnv exTwoBounce 5) exChain exRay
        ((exHit exChain).recolor (fun _ => ⟨1, 1, 1⟩)) exState0
      = Specular.shade exEnv exTwoBounce (Material.shade exEnv exTwoBounce 5) exChain exRay
        (exHit exChain) exState0 ∧
    Specular.shade exEnv (exChainHall.recolor (fun _ => ⟨1, 1, 1⟩))
        (Material.shade exEnv (exChainHall.recolor (fun _ => ⟨1, 1, 1⟩)) 5) exChain exRay
        ((exHit exChain).recolor (fun _ => ⟨1, 1, 1⟩)) exState0
      = Specular.shade exEnv exChainHall (Material.shade exEnv exChainHall 5) exChain exRay
        (exHit exChain) exState0 :=
  ⟨(C20_chain_never_delegates_to_mirror exEnv exTwoBounce (Material.shade exEnv exTwoBounce 5)
      exChain exRay (exHit exChain) exState0).2.2.2.1 (fun _ => ⟨1, 1, 1⟩),
   (C20_chain_never_delegates_to_mirror exEnv exChainHall (Material.shade exEnv exChainHall 5)
      exChain exRay (exHit exChain) exState0).2.2.2.2.2 (fun _ => ⟨1, 1, 1⟩) _
      (Or.inr (Specular.loop_all_mirrors exEnv exChainHall (fun r => ⟨_, rfl, rfl⟩) 20
        (exHit exChain) exRay 0 exState0 (by decide)))⟩

/-- The mirror direction as the code writes it, `-2 (D.N) N + D`, is
`D - 2 (D.N) N`. -/
theorem reflectedRayOf_eq (env : Env K) (ray : Ray K) (hit : HitInfo K) :
    reflectedRayOf env ray hit
      = ⟨hit.P,
         Vector3.normalize env.sqrt (ray.d - (2 * Vector3.dot ray.d hit.N) * hit.N),
         ray.refractiveIndex⟩ := by
  have h : (-2 * Vector3.dot ray.d hit.N) * hit.N + ray.d
      = ray.d - (2 * Vector3.dot ray.d hit.N) * hit.N := by
    rw [Vector3.ext_iff3]
    simp only [Vector3.add_x, Vector3.add_y, Vector3.add_z, Vector3.sub_x, Vector3.sub_y,
      Vector3.sub_z, Vector3.smul_x, Vector3.smul_y, Vector3.smul_z]
    refine ⟨by ring, by ring, by ring⟩
  simp only [reflectedRayOf, reflectDir, h]

/-- The reflector's traced ray misses and an environment map is in use: the
term `L` is the sample of the map along the direction of the ray. -/
theorem reflector_traceRay_miss_map (env : Env K) (scene : Scene K) (shade : ShadeFn K)
    (self : Material K) (r : Ray K) (st : State K) (map : Nat)
    (hmiss : scene.trace r env.epsilon env.MIRO_TMAX = none)
    (hsw : env.USE_ENVIRONMENT_MAP = true) (hmap : scene.environmentMap = some map) :
    SpecularReflector.traceRay env scene shade self r st
      = some (env.lookUp r.d map scene.mapWidth scene.mapHeight, st.traced r) := by
  simp [SpecularReflector.traceRay, hmiss, SpecularReflector.missColor, hsw, hmap]

/-- C16 as stated fails when the build switch `USE_ENVIRONMENT_MAP` is off.
In the configuration `exEnvNoMap` the scene `exSkyScene` has an environment
map configured, the mirror `exMirror` is shaded below the cap and its reflected
ray misses; the recursive term is `kd = (1, 1, 1)`, not the sample `(0, 0, 1)`
that `EnvironmentMap::lookUp` gives along the reflected direction. -/
theorem C16_miss_term_counterexample :
    exState0.reflectorCalls < exEnvNoMap.SPECULAR_RECURSION_DEPTH ∧
    exSkyScene.trace (reflectedRayOf exEnvNoMap exRay (exHit exMirror)) exEnvNoMap.epsilon
      exEnvNoMap.MIRO_TMAX = none ∧
    exSkyScene.environmentMap = some 0 ∧
    SpecularReflector.traceRay exEnvNoMap exSkyScene (Material.shade exEnvNoMap exSkyScene 5)
        exMirror (reflectedRayOf exEnvNoMap exRay (exHit exMirror)) exState0.incReflector
      = some (⟨1, 1, 1⟩,
          (exState0.incReflector).traced (reflectedRayOf exEnvNoMap exRay (exHit exMirror))) ∧
    exEnvNoMap.lookUp (reflectedRayOf exEnvNoMap exRay (exHit exMirror)).d 0
        exSkyScene.mapWidth exSkyScene.mapHeight = ⟨0, 0, 1⟩ := by
  refine ⟨by decide, rfl, rfl, ?_, rfl⟩
  rw [SpecularReflector.traceRay_miss _ _ _ _ _ _ rfl (Or.inl rfl)]
  rfl

/-- C16 (amended): in a call of `SpecularReflector::shade` whose counter is not
at the cap (in particular: below it) and whose reflected ray (origin `hit.P`,
direction `D - 2 (D.N) N` normalised, refractive index inherited from the
incoming ray) misses the scene: if the switch `USE_ENVIRONMENT_MAP` is on and
an environment map is configured on the scene, the recursive term is
`EnvironmentMap::lookUp` along the reflected direction, not multiplied by `kd`;
otherwise (switch off, or no map) the recursive term is `kd`.  In both cases
the call returns that term plus the highlights plus `ka`. -/
theorem C16_reflector_miss_term (env : Env K) (scene : Scene K) (f : ShadeFn K)
    (self : Material K) (ray : Ray K) (hit : HitInfo K) (st : State K)
    (hcap : st.reflectorCalls ≠ env.SPECULAR_RECURSION_DEPTH)
    (hmiss : scene.trace (reflectedRayOf env ray hit) env.epsilon env.MIRO_TMAX = none) :
    reflectedRayOf env ray hit
      = ⟨hit.P,
         Vector3.normalize env.sqrt (ray.d - (2 * Vector3.dot ray.d hit.N) * hit.N),
         ray.refractiveIndex⟩ ∧
    (∀ map, env.USE_ENVIRONMENT_MAP = true → scene.environmentMap = some map →
      SpecularReflector.traceRay env scene f self (reflectedRayOf env ray hit) st.incReflector
        = some (env.lookUp (reflectedRayOf env ray hit).d map scene.mapWidth scene.mapHeight,
            (st.incReflector).traced (reflectedRayOf env ray hit)) ∧
      SpecularReflector.shade env scene f self ray hit st
        = some (phongHighlights env scene self ray hit
              (env.lookUp (reflectedRayOf env ray hit).d map scene.mapWidth scene.mapHeight)
              + self.m_ka,
            ((st.incReflector).traced (reflectedRayOf env ray hit)).decReflector)) ∧
    (env.USE_ENVIRONMENT_MAP = false ∨ scene.environmentMap = none →
      SpecularReflector.traceRay env scene f self (reflectedRayOf env ray hit) st.incReflector
        = some (self.m_kd, (st.incReflector).traced (reflectedRayOf env ray hit)) ∧
      SpecularReflector.shade env scene f self ray hit st
        = some (phongHighlights env scene self ray hit self.m_kd + self.m_ka,
            ((st.incReflector).traced (reflectedRayOf env ray hit)).decReflector)) := by
  refine ⟨reflectedRayOf_eq env ray hit, ?_, ?_⟩
  · intro map hsw hmap
    have ht := reflector_traceRay_miss_map env scene f self (reflectedRayOf env ray hit)
      st.incReflector map hmiss hsw hmap
    refine ⟨ht, ?_⟩
    rw [reflector_shade_below_cap env scene f self ray hit st hcap, ht]
  · intro hno
    have ht := SpecularReflector.traceRay_miss env scene f self (reflectedRayOf env ray hit)
      st.incReflector hmiss hno
    refine ⟨ht, ?_⟩
    rw [reflector_shade_below_cap env scene f self ray hit st hcap, ht]

/-- C16 (amended) with the switch on: in `exSkyScene` the recursive term of
the mirror `exMirror` is the sample `(0, 0, 1)` of the environment map, and
the call returns `(0, 0, 1) + ka = (1, 1, 2)`. -/
theorem C16_reflector_miss_term_witness :
    SpecularReflector.traceRay exEnv exSkyScene (Material.shade exEnv exSkyScene 5) exMirror
        (reflectedRayOf exEnv exRay (exHit exMirror)) exState0.incReflector
      = some (⟨0, 0, 1⟩,
          (exState0.incReflector).traced (reflectedRayOf exEnv exRay (exHit exMirror))) ∧
    (SpecularReflector.shade exEnv exSkyScene (Material.shade exEnv exSkyScene 5) exMirror
        exRay (exHit exMirror) exState0).map Prod.fst = some ⟨1, 1, 2⟩ := by
  have h := (C16_reflector_miss_term exEnv exSkyScene (Material.shade exEnv exSkyScene 5)
    exMirror exRay (exHit exMirror) exState0 (by decide) rfl).2.1 0 rfl rfl
  refine ⟨h.1, ?_⟩
  rw [h.2, phongHighlights_exp_zero _ _ _ _ _ _ rfl]
  simp only [Option.map_some', Option.some.injEq]
  rw [Vector3.ext_iff3]
  norm_num [exEnv, exMirror]

/-- C17: entry / exit selection in `SpecularRefractor::shade`.  With
`c = dot (-ray.d, hit.N)`: if `c > 0` then `n1` is the incoming ray's
refractive index, `n2` the index of the material hit, the effective normal is
`N`, the flag `flipped` is off and the refracted ray carries `n2`; if `c <= 0`
(the grazing case `c = 0` included) then `n1` is the index of the material
hit, `n2 = 1`, the effective normal is `-N`, the cosine used is `-c`, the flag
`flipped` is on and the refracted ray carries index `1`, whatever index the
incoming ray carried.  When the radicand is not negative the refracted ray is
the ray the call traces. -/
theorem C17_entry_exit_selection (env : Env K) (ray : Ray K) (hit : HitInfo K) :
    (0 < Vector3.dot (-ray.d) hit.N →
      SpecularRefractor.snell ray hit
        = { n1 := ray.refractiveIndex
            n2 := hit.material.getRefractiveIndex
            normal := hit.N
            refractedRayIndex := hit.material.getRefractiveIndex
            nDotViewDir := Vector3.dot (-ray.d) hit.N
            flipped := false } ∧
      (refractedRayOf env ray hit).refractiveIndex = hit.material.getRefractiveIndex) ∧
    (Vector3.dot (-ray.d) hit.N ≤ 0 →
      SpecularRefractor.snell ray hit
        = { n1 := hit.material.getRefractiveIndex
            n2 := 1
            normal := -hit.N
            refractedRayIndex := 1
            nDotViewDir := -Vector3.dot (-ray.d) hit.N
            flipped := true } ∧
      (refractedRayOf env ray hit).refractiveIndex = 1) ∧
    (¬ (SpecularRefractor.snell ray hit).radicand < 0 →
      SpecularRefractor.tracedRay env ray hit = refractedRayOf env ray hit) := by
  refine ⟨?_, ?_, ?_⟩
  · intro hc
    have hs : SpecularRefractor.snell ray hit
        = { n1 := ray.refractiveIndex
            n2 := hit.material.getRefractiveIndex
            normal := hit.N
            refractedRayIndex := hit.material.getRefractiveIndex
            nDotViewDir := Vector3.dot (-ray.d) hit.N
            flipped := false } := by
      simp only [SpecularRefractor.snell, gt_iff_lt, hc, if_true]
    exact ⟨hs, by simp only [refractedRayOf, hs]⟩
  · intro hc
    have hs : SpecularRefractor.snell ray hit
        = { n1 := hit.material.getRefractiveIndex
            n2 := 1
            normal := -hit.N
            refractedRayIndex := 1
            nDotViewDir := -Vector3.dot (-ray.d) hit.N
            flipped := true } := by
      simp only [SpecularRefractor.snell, gt_iff_lt, not_lt.mpr hc, if_false, mul_neg, mul_one]
    exact ⟨hs, by simp only [refractedRayOf, hs]⟩
  · intro hr
    simp only [SpecularRefractor.tracedRay, if_neg hr]

/-- C17 on a ray entering the glass `exGlass` head-on (`c = 1`) and on the ray
`exRayInside` leaving it (`c = -3/5`, carried index `3/2`): the first refracted
ray carries the index `3/2` of the glass, the second carries `1`. -/
theorem C17_entry_exit_selection_witness :
    (SpecularRefractor.snell exRay (exHit exGlass)).flipped = false ∧
    (refractedRayOf exEnv exRay (exHit exGlass)).refractiveIndex = 3 / 2 ∧
    (SpecularRefractor.snell exRayInside (exHit exGlass)).flipped = true ∧
    (SpecularRefractor.snell exRayInside (exHit exGlass)).nDotViewDir = 3 / 5 ∧
    (refractedRayOf exEnv exRayInside (exHit exGlass)).refractiveIndex = 1 := by
  have h1 := (C17_entry_exit_selection exEnv exRay (exHit exGlass)).1
    (by norm_num [Vector3.dot, exRay, exHit])
  have h2 := (C17_entry_exit_selection exEnv exRayInside (exHit exGlass)).2.1
    (by norm_num [Vector3.dot, exRayInside, exHit])
  refine ⟨by rw [h1.1], h1.2, by rw [h2.1], ?_, h2.2⟩
  rw [h2.1]
  norm_num [Vector3.dot, exRayInside, exHit]

theorem Vector3.NonNeg.add {a b : Vector3 K} (ha : a.NonNeg) (hb : b.NonNeg) :
    (a + b).NonNeg :=
  ⟨add_nonneg ha.1 hb.1, add_nonneg ha.2.1 hb.2.1, add_nonneg ha.2.2 hb.2.2⟩

theorem Vector3.NonNeg.mul {a b : Vector3 K} (ha : a.NonNeg) (hb : b.NonNeg) :
    (a * b).NonNeg :=
  ⟨mul_nonneg ha.1 hb.1, mul_nonneg ha.2.1 hb.2.1, mul_nonneg ha.2.2 hb.2.2⟩

theorem Vector3.NonNeg.smul {s : K} {b : Vector3 K} (hs : 0 ≤ s) (hb : b.NonNeg) :
    (s * b).NonNeg :=
  ⟨mul_nonneg hs hb.1, mul_nonneg hs hb.2.1, mul_nonneg hs hb.2.2⟩

theorem Vector3.NonNeg.zero3 : (⟨0, 0, 0⟩ : Vector3 K).NonNeg :=
  ⟨le_refl _, le_refl _, le_refl _⟩

/-- The highlight block keeps a colour non-negative when the light colours
are. -/
theorem phongHighlights_nonneg (env : Env K) (scene : Scene K) (self : Material K)
    (ray : Ray K) (hit : HitInfo K) (hl : ∀ l ∈ scene.lights, l.color.NonNeg)
    (L : Vector3 K) (hL : L.NonNeg) : (phongHighlights env scene self ray hit L).NonNeg := by
  have hfold : ∀ (ls : List (PointLight K)), (∀ l ∈ ls, l.color.NonNeg) →
      ∀ L : Vector3 K, L.NonNeg → (ls.foldl (phongStep env self ray hit) L).NonNeg := by
    intro ls
    induction ls with
    | nil => intro _ L hL; exact hL
    | cons a t ih =>
      intro hls L hL
      rw [List.foldl_cons]
      apply ih (fun l hl => hls l (List.mem_cons_of_mem _ hl))
      unfold phongStep
      simp only
      split
      · exact hL.add (Vector3.NonNeg.smul (le_max_left _ _) (hls a (List.mem_cons_self _ _)))
      · exact hL
  unfold phongHighlights
  split
  · exact hfold scene.lights hl L hL
  · exact hL

/-- The recursive or miss term of the reflector is non-negative. -/
theorem reflector_traceRay_nonneg (env : Env K) (scene : Scene K) (f : ShadeFn K)
    (hs : scene.NonNegative env) (hf : NonNegShade f) (self : Material K)
    (hkd : self.m_kd.NonNeg) (r : Ray K) (st : State K) (L : Vector3 K) (st2 : State K)
    (h : SpecularReflector.traceRay env scene f self r st = some (L, st2)) : L.NonNeg := by
  unfold SpecularReflector.traceRay at h
  split at h
  · rename_i rh htr
    split at h
    · simp at h
    · rename_i c1 st3 hn
      simp only [Option.some.injEq, Prod.mk.injEq] at h
      rw [← h.1]
      have hm := hs.1 _ _ _ _ htr
      exact hkd.mul (hf _ _ _ _ _ _ hm.1 hm.2 hn)
  · simp only [Option.some.injEq, Prod.mk.injEq] at h
    rw [← h.1]
    unfold SpecularReflector.missColor
    split
    · exact hs.2.2.1 _ _ _ _
    · exact hkd

/-- The recursive or miss term of the refractor is non-negative. -/
theorem refractor_traceRay_nonneg (env : Env K) (scene : Scene K) (f : ShadeFn K)
    (hs : scene.NonNegative env) (hf : NonNegShade f) (self : Material K)
    (hkd : self.m_kd.NonNeg) (r : Ray K) (st : State K) (L : Vector3 K) (st2 : State K)
    (h : SpecularRefractor.traceRay env scene f self r st = some (L, st2)) : L.NonNeg := by
  unfold SpecularRefractor.traceRay at h
  split at h
  · rename_i rh htr
    split at h
    · simp at h
    · rename_i c1 st3 hn
      simp only [Option.some.injEq, Prod.mk.injEq] at h
      rw [← h.1]
      have hm := hs.1 _ _ _ _ htr
      exact hkd.mul (hf _ _ _ _ _ _ hm.1 hm.2 hn)
  · simp only [Option.some.injEq, Prod.mk.injEq] at h
    rw [← h.1]
    unfold SpecularRefractor.missColor
    split
    · exact hs.2.2.1 _ _ _ _
    · refine hkd.mul ⟨?_, ?_, ?_⟩ <;> simp [Vector3.splat]

/-- `SpecularReflector::shade` returns a non-negative colour if the nested
`shade` does. -/
theorem reflector_shade_nonneg (env : Env K) (scene : Scene K) (f : ShadeFn K)
    (hs : scene.NonNegative env) (hf : NonNegShade f) :
    NonNegShade (SpecularReflector.shade env scene f) := by
  intro self ray hit st c st2 hkd hka h
  by_cases hcap : st.reflectorCalls = env.SPECULAR_RECURSION_DEPTH
  · simp only [SpecularReflector.shade, hcap, if_true, Option.some.injEq, Prod.mk.injEq] at h
    rw [← h.1]; exact Vector3.NonNeg.zero3
  · rw [reflector_shade_below_cap env scene f self ray hit st hcap] at h
    split at h
    · simp at h
    · rename_i L st3 ht
      simp only [Option.some.injEq, Prod.mk.injEq] at h
      rw [← h.1]
      exact (phongHighlights_nonneg env scene self ray hit hs.2.1 L
        (reflector_traceRay_nonneg env scene f hs hf self hkd _ _ L st3 ht)).add hka

/-- `SpecularRefractor::shade` returns a non-negative colour if the nested
`shade` does. -/
theorem refractor_shade_nonneg (env : Env K) (scene : Scene K) (f : ShadeFn K)
    (hs : scene.NonNegative env) (hf : NonNegShade f) :
    NonNegShade (SpecularRefractor.shade env scene f) := by
  intro self ray hit st c st2 hkd hka h
  by_cases hcap : st.refractorCalls = env.SPECULAR_RECURSION_DEPTH
  · simp only [SpecularRefractor.shade, hcap, if_true, Option.some.injEq, Prod.mk.injEq] at h
    rw [← h.1]; exact Vector3.NonNeg.zero3
  · by_cases hpath : (SpecularRefractor.snell ray hit).radicand < 0 ∧
        (SpecularRefractor.snell ray hit).flipped = true
    · simp only [SpecularRefractor.shade, if_neg hcap, if_pos hpath.1, if_pos hpath.2,
        Option.some.injEq, Prod.mk.injEq] at h
      rw [← h.1]; exact Vector3.NonNeg.zero3
    · rw [refractor_shade_below_cap env scene f self ray hit st hcap hpath] at h
      split at h
      · simp at h
      · rename_i L st3 ht
        simp only [Option.some.injEq, Prod.mk.injEq] at h
        rw [← h.1]
        exact (phongHighlights_nonneg env scene self ray hit hs.2.1 L
          (refractor_traceRay_nonneg env scene f hs hf self hkd _ _ L st3 ht)).add hka

/-- In a scene with non-negative data the hit on which the loop of
`Specular::shade` is left has a material with non-negative `kd` and `ka`. -/
theorem Specular.loop_hit_nonneg (env : Env K) (scene : Scene K)
    (hs : scene.NonNegative env) (k : Nat) :
    ∀ (recursiveHit : HitInfo K) (reflectedRay : Ray K) (n : Int) (st : State K),
    (Specular.RECURSION_DEPTH - n).toNat ≤ k →
    ∀ h, (Specular.loop env scene recursiveHit reflectedRay n st).hit = some h →
      h.material.m_kd.NonNeg ∧ h.material.m_ka.NonNeg := by
  induction k with
  | zero =>
    intro recursiveHit reflectedRay n st hk h
    rw [Specular.loop]
    split
    · rename_i h1 htr
      split
      · rename_i hc
        have := hc.2
        omega
      · intro heq
        simp only [Option.some.injEq] at heq
        rw [← heq]; exact hs.1 _ _ _ _ htr
    · intro heq; simp at heq
  | succ k ih =>
    intro recursiveHit reflectedRay n st hk h
    rw [Specular.loop]
    split
    · rename_i h1 htr
      split
      · rename_i hc
        exact ih h1 _ (n + 1) _ (by have := hc.2; omega) h
      · intro heq
        simp only [Option.some.injEq] at heq
        rw [← heq]; exact hs.1 _ _ _ _ htr
    · intro heq; simp at heq

/-- `Specular::shade` returns a non-negative colour if the nested `shade`
does. -/
theorem chain_shade_nonneg (env : Env K) (scene : Scene K) (f : ShadeFn K)
    (hs : scene.NonNegative env) (hf : NonNegShade f) :
    NonNegShade (Specular.shade env scene f) := by
  intro self ray hit st c st2 hkd hka h
  rcases chain_shade_cases env scene f self ray hit st with h1 | ⟨hh, hb, hty, h1⟩
  · rw [h1] at h
    simp only [Option.some.injEq, Prod.mk.injEq] at h
    rw [← h.1]; exact hkd
  · rw [h1] at h
    have hm := Specular.loop_hit_nonneg env scene hs 20 hit ray 0 st (by decide) hh hb
    cases hn : f hh.material (Specular.loop env scene hit ray 0 st).reflectedRay hh
        (Specular.loop env scene hit ray 0 st).st with
    | none => rw [hn] at h; simp at h
    | some p =>
      obtain ⟨c1, st3⟩ := p
      rw [hn] at h
      simp only [Option.map_some', Option.some.injEq, Prod.mk.injEq] at h
      rw [← h.1]
      exact hkd.mul (hf _ _ _ _ _ _ hm.1 hm.2 hn)

/-- Every `shade`, with any fuel, returns a non-negative colour in a scene
with non-negative data. -/
theorem material_shade_nonneg (env : Env K) (scene : Scene K) (hs : scene.NonNegative env)
    (fuel : Nat) : NonNegShade (Material.shade env scene fuel) := by
  induction fuel with
  | zero => intro self ray hit st c st2 _ _ h; simp [Material.shade] at h
  | succ fuel ih =>
    intro self ray hit st c st2 hkd hka h
    rw [Material.shade_succ] at h
    split at h
    · exact chain_shade_nonneg env scene _ hs ih _ _ _ _ _ _ hkd hka h
    · exact reflector_shade_nonneg env scene _ hs ih _ _ _ _ _ _ hkd hka h
    · exact refractor_shade_nonneg env scene _ hs ih _ _ _ _ _ _ hkd hka h
    · simp only [Option.some.injEq, Prod.mk.injEq] at h
      rw [← h.1]; exact hs.2.2.2 _ _ _ hkd hka

/-- C13: non-negative radiance.  In a scene in which `kd` and `ka` of this
material and of every material the trace oracle can return, all light
colours, all environment-map samples and the colours returned by out-of-scope
materials have non-negative components, every colour returned by
`SpecularReflector::shade`, `SpecularRefractor::shade` and `Specular::shade`
(with the real nested `shade` and any fuel, on every path) has non-negative
components; and with both counters in range the three functions do return. -/
theorem C13_radiance_nonneg (env : Env K) (scene : Scene K) (self : Material K)
    (ray : Ray K) (hit : HitInfo K) (st : State K)
    (hs : scene.NonNegative env) (hkd : self.m_kd.NonNeg) (hka : self.m_ka.NonNeg) :
    (∀ fuel c st2,
      SpecularReflector.shade env scene (Material.shade env scene fuel) self ray hit st
          = some (c, st2) ∨
        SpecularRefractor.shade env scene (Material.shade env scene fuel) self ray hit st
          = some (c, st2) ∨
        Specular.shade env scene (Material.shade env scene fuel) self ray hit st
          = some (c, st2) →
      c.NonNeg) ∧
    (st.InRange env →
      (∃ c st2, SpecularReflector.shade env scene (Material.shade env scene (fuelBound env))
        self ray hit st = some (c, st2)) ∧
      (∃ c st2, SpecularRefractor.shade env scene (Material.shade env scene (fuelBound env))
        self ray hit st = some (c, st2)) ∧
      (∃ c st2, Specular.shade env scene (Material.shade env scene (fuelBound env))
        self ray hit st = some (c, st2))) := by
  constructor
  · intro fuel c st2 h
    have hf := material_shade_nonneg env scene hs fuel
    rcases h with h | h | h
    · exact reflector_shade_nonneg env scene _ hs hf _ _ _ _ _ _ hkd hka h
    · exact refractor_shade_nonneg env scene _ hs hf _ _ _ _ _ _ hkd hka h
    · exact chain_shade_nonneg env scene _ hs hf _ _ _ _ _ _ hkd hka h
  · intro hin
    have hsl := State.slack_le env st hin
    refine ⟨?_, ?_, ?_⟩
    · refine reflector_shade_returns env scene _ self ray hit st hin ?_
      intro m r h st1 hin1 hs1
      exact material_shade_returns env scene _ m r h st1 hin1 (Or.inl (by omega))
    · refine refractor_shade_returns env scene _ self ray hit st hin ?_
      intro m r h st1 hin1 hs1
      exact material_shade_returns env scene _ m r h st1 hin1 (Or.inl (by omega))
    · refine chain_shade_returns env scene _ self ray hit st hin ?_
      intro m r h st1 hm hin1 hs1
      exact material_shade_returns env scene _ m r h st1 hin1 (Or.inr ⟨hm, by omega⟩)

/-- The hall of mirrors `exHallScene` has non-negative data for `exEnv`. -/
theorem exHallScene_nonNegative : exHallScene.NonNegative exEnv := by
  refine ⟨?_, ?_, ?_, ?_⟩
  · intro r a b h htr
    simp only [exHallScene] at htr
    split at htr <;>
    · simp only [Option.some.injEq] at htr
      rw [← htr]
      simp [Vector3.NonNeg, exMirror]
  · intro l hl
    simp only [exHallScene, List.mem_singleton] at hl
    rw [hl]
    simp [Vector3.NonNeg]
  · intro d map w h
    simp [Vector3.NonNeg, exEnv]
  · intro m r h hkd hka
    exact Vector3.NonNeg.smul (by simp [exHallScene]) hkd

/-- C13 in the hall of mirrors: the nested call of `SpecularReflector::shade`
on `exMirror` returns, and what it returns is non-negative. -/
theorem C13_radiance_nonneg_witness :
    ∃ c st2, SpecularReflector.shade exEnv exHallScene
        (Material.shade exEnv exHallScene (fuelBound exEnv)) exMirror exRay (exHit exMirror)
        exState0 = some (c, st2) ∧ c.NonNeg := by
  have h := C13_radiance_nonneg exEnv exHallScene exMirror exRay (exHit exMirror) exState0
    exHallScene_nonNegative (by simp [Vector3.NonNeg, exMirror])
    (by simp [Vector3.NonNeg, exMirror])
  obtain ⟨c, st2, hc⟩ := (h.2 (by decide)).1
  exact ⟨c, st2, hc, h.1 _ c st2 (Or.inl hc)⟩

/-- The refracted direction is the normalised vector of line 140. -/
theorem refractDir_eq_normalize (env : Env K) (ray : Ray K) (s : Snell K) :
    SpecularRefractor.refractDir env ray s
      = Vector3.normalize env.sqrt (SpecularRefractor.refractVec env ray s) := rfl

theorem Vector3.dot_neg_left (a b : Vector3 K) : Vector3.dot (-a) b = -Vector3.dot a b := by
  simp only [Vector3.dot, Vector3.neg_x, Vector3.neg_y, Vector3.neg_z]; ring

theorem Vector3.dot_neg_right (a b : Vector3 K) : Vector3.dot a (-b) = -Vector3.dot a b := by
  simp only [Vector3.dot, Vector3.neg_x, Vector3.neg_y, Vector3.neg_z]; ring

theorem Vector3.neg_neg3 (a : Vector3 K) : -(-a) = a := by
  rw [Vector3.ext_iff3]
  simp only [Vector3.neg_x, Vector3.neg_y, Vector3.neg_z, neg_neg, and_self]

/-- A vector of length `1` is left unchanged by `normalize` when `sqrt 1 = 1`. -/
theorem Vector3.normalize_unit (sqrt : K → K) (h1 : sqrt 1 = 1) (v : Vector3 K)
    (hv : Vector3.dot v v = 1) : Vector3.normalize sqrt v = v := by
  rw [Vector3.ext_iff3]
  simp only [Vector3.normalize, hv, h1, div_one, and_self]

/-- Cauchy-Schwarz for unit vectors. -/
theorem Vector3.dot_sq_le_one (a b : Vector3 K) (ha : Vector3.dot a a = 1)
    (hb : Vector3.dot b b = 1) : Vector3.dot a b * Vector3.dot a b ≤ 1 := by
  simp only [Vector3.dot] at ha hb ⊢
  nlinarith [sq_nonneg (a.x * b.y - a.y * b.x), sq_nonneg (a.x * b.z - a.z * b.x),
    sq_nonneg (a.y * b.z - a.z * b.y)]

/-- The values selected for an entering ray. -/
theorem snell_entering (ray : Ray K) (hit : HitInfo K) (hc : 0 < Vector3.dot (-ray.d) hit.N) :
    SpecularRefractor.snell ray hit
      = { n1 := ray.refractiveIndex
          n2 := hit.material.getRefractiveIndex
          normal := hit.N
          refractedRayIndex := hit.material.getRefractiveIndex
          nDotViewDir := Vector3.dot (-ray.d) hit.N
          flipped := false } := by
  simp only [SpecularRefractor.snell, gt_iff_lt, hc, if_true]

/-- The values selected for an exiting ray. -/
theorem snell_exiting (ray : Ray K) (hit : HitInfo K) (hc : Vector3.dot (-ray.d) hit.N ≤ 0) :
    SpecularRefractor.snell ray hit
      = { n1 := hit.material.getRefractiveIndex
          n2 := 1
          normal := -hit.N
          refractedRayIndex := 1
          nDotViewDir := -Vector3.dot (-ray.d) hit.N
          flipped := true } := by
  simp only [SpecularRefractor.snell, gt_iff_lt, not_lt.mpr hc, if_false, mul_neg, mul_one]

/-- In both branches the cosine used is the cosine between the view direction
and the effective normal, it is not negative, and the effective normal has the
length of `hit.N`. -/
theorem snell_cosine (ray : Ray K) (hit : HitInfo K) :
    (SpecularRefractor.snell ray hit).nDotViewDir
      = Vector3.dot (-ray.d) (SpecularRefractor.snell ray hit).normal ∧
    0 ≤ (SpecularRefractor.snell ray hit).nDotViewDir ∧
    Vector3.dot (SpecularRefractor.snell ray hit).normal
        (SpecularRefractor.snell ray hit).normal = Vector3.dot hit.N hit.N := by
  by_cases hc : 0 < Vector3.dot (-ray.d) hit.N
  · rw [snell_entering ray hit hc]
    exact ⟨rfl, le_of_lt hc, rfl⟩
  · have hc2 := not_lt.mp hc
    rw [snell_exiting ray hit hc2]
    refine ⟨?_, by simp only; linarith, ?_⟩
    · simp only [Vector3.dot_neg_right]
    · simp only [Vector3.dot_neg_right, Vector3.dot_neg_left, neg_neg]

/-- The algebra of the refraction formula: for a unit direction `d`, a unit
normal `n`, `c = dot (-d, n)` and `s * s = 1 - r * r * (1 - c * c)`, the vector
`t = -r (-d - c n) - s n` is a unit vector, `dot (t, n) = -s`, and
`t - dot (t, n) n = r (d - dot (d, n) n)`. -/
theorem refract_algebra (d n : Vector3 K) (r s c : K)
    (hd : Vector3.dot d d = 1) (hn : Vector3.dot n n = 1)
    (hc : c = Vector3.dot (-d) n) (hs : s * s = 1 - r * r * (1 - c * c)) :
    Vector3.dot ((-r) * (-d - c * n) - s * n) ((-r) * (-d - c * n) - s * n) = 1 ∧
    Vector3.dot ((-r) * (-d - c * n) - s * n) n = -s ∧
    ((-r) * (-d - c * n) - s * n) - Vector3.dot ((-r) * (-d - c * n) - s * n) n * n
      = r * (d - Vector3.dot d n * n) := by
  have hdot : Vector3.dot ((-r) * (-d - c * n) - s * n) n = -s := by
    simp only [Vector3.dot, Vector3.neg_x, Vector3.neg_y, Vector3.neg_z, Vector3.sub_x,
      Vector3.sub_y, Vector3.sub_z, Vector3.smul_x, Vector3.smul_y, Vector3.smul_z]
      at hd hn hc ⊢
    subst hc
    linear_combination (r * (-d.x * n.x + -d.y * n.y + -d.z * n.z) - s) * hn
  refine ⟨?_, hdot, ?_⟩
  · simp only [Vector3.dot, Vector3.neg_x, Vector3.neg_y, Vector3.neg_z, Vector3.sub_x,
      Vector3.sub_y, Vector3.sub_z, Vector3.smul_x, Vector3.smul_y, Vector3.smul_z]
      at hd hn hc ⊢
    subst hc
    linear_combination r * r * hd
      + (r * r * (d.x * n.x + d.y * n.y + d.z * n.z) ^ 2
          + 2 * r * s * (d.x * n.x + d.y * n.y + d.z * n.z) + s * s) * hn
      + hs
  · rw [hdot, Vector3.ext_iff3]
    simp only [Vector3.dot, Vector3.neg_x, Vector3.neg_y, Vector3.neg_z, Vector3.sub_x,
      Vector3.sub_y, Vector3.sub_z, Vector3.smul_x, Vector3.smul_y, Vector3.smul_z]
      at hc ⊢
    subst hc
    refine ⟨by ring, by ring, by ring⟩

/-- The rational square root is exact at squares. -/
theorem Rat.sqrt_exact_sq (q : ℚ) : ExactSqrtAt Rat.sqrt (q * q) := by
  unfold ExactSqrtAt
  rw [Rat.sqrt_eq]
  exact ⟨abs_nonneg q, abs_mul_abs_self q⟩

/-- C18: Snell correctness of the refraction formula.  For a unit ray
direction and a unit normal, with `V = -ray.d`, the effective normal `n`, the
cosine `c = dot (V, n) >= 0`, the ratio `r = n1 / n2` and a radicand
`1 - r^2 (1 - c^2)` at which `sqrt` is exact (so the radicand is not
negative), the vector `T = -r (V - c n) - sqrt (radicand) n` of line 140 has
length exactly `1`, so that `normalize` leaves it unchanged (`sqrt 1 = 1`); its
component along `n` is `-sqrt (radicand)`; and its tangential component is `r`
times the tangential component of the incoming direction. -/
theorem C18_snell_refraction (env : Env K) (ray : Ray K) (hit : HitInfo K)
    (hd : Vector3.dot ray.d ray.d = 1) (hN : Vector3.dot hit.N hit.N = 1)
    (hsq : ExactSqrtAt env.sqrt (SpecularRefractor.snell ray hit).radicand)
    (h1 : env.sqrt 1 = 1) :
    0 ≤ (SpecularRefractor.snell ray hit).radicand ∧
    0 ≤ (SpecularRefractor.snell ray hit).nDotViewDir ∧
    (SpecularRefractor.snell ray hit).nDotViewDir
      = Vector3.dot (-ray.d) (SpecularRefractor.snell ray hit).normal ∧
    Vector3.dot (SpecularRefractor.refractVec env ray (SpecularRefractor.snell ray hit))
      (SpecularRefractor.refractVec env ray (SpecularRefractor.snell ray hit)) = 1 ∧
    SpecularRefractor.refractDir env ray (SpecularRefractor.snell ray hit)
      = SpecularRefractor.refractVec env ray (SpecularRefractor.snell ray hit) ∧
    Vector3.dot (SpecularRefractor.refractVec env ray (SpecularRefractor.snell ray hit))
        (SpecularRefractor.snell ray hit).normal
      = -env.sqrt (SpecularRefractor.snell ray hit).radicand ∧
    SpecularRefractor.refractVec env ray (SpecularRefractor.snell ray hit)
        - Vector3.dot (SpecularRefractor.refractVec env ray (SpecularRefractor.snell ray hit))
            (SpecularRefractor.snell ray hit).normal * (SpecularRefractor.snell ray hit).normal
      = (SpecularRefractor.snell ray hit).indexRatio
          * (ray.d - Vector3.dot ray.d (SpecularRefractor.snell ray hit).normal
              * (SpecularRefractor.snell ray hit).normal) := by
  obtain ⟨c1, c2, c3⟩ := snell_cosine ray hit
  have hn : Vector3.dot (SpecularRefractor.snell ray hit).normal
      (SpecularRefractor.snell ray hit).normal = 1 := by rw [c3, hN]
  obtain ⟨a1, a2, a3⟩ := refract_algebra ray.d (SpecularRefractor.snell ray hit).normal
    (SpecularRefractor.snell ray hit).indexRatio
    (env.sqrt (SpecularRefractor.snell ray hit).radicand)
    (SpecularRefractor.snell ray hit).nDotViewDir hd hn c1 hsq.2
  refine ⟨?_, c2, c1, a1, ?_, a2, a3⟩
  · rw [← hsq.2]; exact mul_self_nonneg _
  · rw [refractDir_eq_normalize]
    exact Vector3.normalize_unit env.sqrt h1 _ a1

/-- The radicand of `exRaySlant` entering `exCrystal` is `(12 / 13) ^ 2`. -/
theorem exSlant_radicand :
    (SpecularRefractor.snell exRaySlant (exHit exCrystal)).radicand
      = (12 / 13 : ℚ) * (12 / 13) := by
  rw [snell_entering exRaySlant (exHit exCrystal) (by norm_num [Vector3.dot, exRaySlant, exHit])]
  norm_num [Snell.radicand, Snell.indexRatio, Vector3.dot, exRaySlant, exHit, exCrystal,
    Material.getRefractiveIndex]

/-- C18 for the ray `exRaySlant` (cosine `4 / 5`) entering `exCrystal`
(index `39 / 25`): the radicand is `(12 / 13) ^ 2`, the refracted direction is
the unit vector of line 140 and its component along the normal is
`-12 / 13`. -/
theorem C18_snell_refraction_witness :
    Vector3.dot (SpecularRefractor.refractVec exEnv exRaySlant
        (SpecularRefractor.snell exRaySlant (exHit exCrystal)))
      (SpecularRefractor.refractVec exEnv exRaySlant
        (SpecularRefractor.snell exRaySlant (exHit exCrystal))) = 1 ∧
    SpecularRefractor.refractDir exEnv exRaySlant
        (SpecularRefractor.snell exRaySlant (exHit exCrystal))
      = SpecularRefractor.refractVec exEnv exRaySlant
        (SpecularRefractor.snell exRaySlant (exHit exCrystal)) ∧
    Vector3.dot (SpecularRefractor.refractVec exEnv exRaySlant
        (SpecularRefractor.snell exRaySlant (exHit exCrystal)))
        (SpecularRefractor.snell exRaySlant (exHit exCrystal)).normal = -(12 / 13) := by
  have hsq : ExactSqrtAt exEnv.sqrt
      (SpecularRefractor.snell exRaySlant (exHit exCrystal)).radicand := by
    rw [exSlant_radicand]; exact Rat.sqrt_exact_sq _
  have h := C18_snell_refraction exEnv exRaySlant (exHit exCrystal)
    (by norm_num [Vector3.dot, exRaySlant]) (by norm_num [Vector3.dot, exHit]) hsq
    Rat.sqrt_one_eq
  refine ⟨h.2.2.2.1, h.2.2.2.2.1, ?_⟩
  rw [h.2.2.2.2.2.1, exSlant_radicand]
  show -Rat.sqrt (12 / 13 * (12 / 13)) = -(12 / 13)
  rw [Rat.sqrt_eq]
  norm_num [abs_of_pos]

/-- For unit vectors the square of the cosine used by
`SpecularRefractor::shade` is at most `1`. -/
theorem snell_cosine_sq_le_one (ray : Ray K) (hit : HitInfo K)
    (hd : Vector3.dot ray.d ray.d = 1) (hN : Vector3.dot hit.N hit.N = 1) :
    (SpecularRefractor.snell ray hit).nDotViewDir
      * (SpecularRefractor.snell ray hit).nDotViewDir ≤ 1 := by
  obtain ⟨c1, _, c3⟩ := snell_cosine ray hit
  have h := Vector3.dot_sq_le_one ray.d (SpecularRefractor.snell ray hit).normal hd
    (by rw [c3, hN])
  rw [c1, Vector3.dot_neg_left]
  linarith

/-- With unit vectors and `0 < n1 <= n2` the radicand is not negative. -/
theorem snell_radicand_nonneg (ray : Ray K) (hit : HitInfo K)
    (hd : Vector3.dot ray.d ray.d = 1) (hN : Vector3.dot hit.N hit.N = 1)
    (h1 : 0 < (SpecularRefractor.snell ray hit).n1)
    (h2 : 0 < (SpecularRefractor.snell ray hit).n2)
    (h12 : (SpecularRefractor.snell ray hit).n1 ≤ (SpecularRefractor.snell ray hit).n2) :
    0 ≤ (SpecularRefractor.snell ray hit).radicand := by
  have hc := snell_cosine_sq_le_one ray hit hd hN
  have hr0 : 0 ≤ (SpecularRefractor.snell ray hit).indexRatio :=
    div_nonneg (le_of_lt h1) (le_of_lt h2)
  have hr1 : (SpecularRefractor.snell ray hit).indexRatio ≤ 1 :=
    (div_le_one h2).mpr h12
  have hrr : (SpecularRefractor.snell ray hit).indexRatio
      * (SpecularRefractor.snell ray hit).indexRatio ≤ 1 := by nlinarith
  have hcc := mul_self_nonneg (SpecularRefractor.snell ray hit).nDotViewDir
  unfold Snell.radicand
  nlinarith [mul_nonneg (mul_self_nonneg (SpecularRefractor.snell ray hit).indexRatio) hcc]

/-- C19: total internal reflection needs a denser source medium.  For a unit
ray direction and a unit normal, if `0 < n1 <= n2` for the indices selected by
`SpecularRefractor::shade`, then the radicand is not negative and the
refraction branch is taken: below the cap the call traces the refracted ray.
Consequently a ray carrying index `1` that enters a material of index `>= 1`
is never totally reflected, and for an exiting ray the radicand is negative
(the black flipped return) only if the index of the material is `> 1`. -/
theorem C19_tir_needs_denser_source (env : Env K) (ray : Ray K) (hit : HitInfo K)
    (hd : Vector3.dot ray.d ray.d = 1) (hN : Vector3.dot hit.N hit.N = 1) :
    (0 < (SpecularRefractor.snell ray hit).n1 → 0 < (SpecularRefractor.snell ray hit).n2 →
      (SpecularRefractor.snell ray hit).n1 ≤ (SpecularRefractor.snell ray hit).n2 →
      0 ≤ (SpecularRefractor.snell ray hit).radicand ∧
      ∀ (scene : Scene K) (f : ShadeFn K) (self : Material K) (st : State K),
        st.refractorCalls ≠ env.SPECULAR_RECURSION_DEPTH →
        SpecularRefractor.shade env scene f self ray hit st
          = match SpecularRefractor.traceRay env scene f self (refractedRayOf env ray hit)
                st.incRefractor with
            | none => none
            | some (L, st2) =>
              some (phongHighlights env scene self ray hit L + self.m_ka,
                st2.decRefractor)) ∧
    (0 < Vector3.dot (-ray.d) hit.N → ray.refractiveIndex = 1 →
      1 ≤ hit.material.getRefractiveIndex →
      0 ≤ (SpecularRefractor.snell ray hit).radicand) ∧
    (Vector3.dot (-ray.d) hit.N ≤ 0 → 0 < hit.material.getRefractiveIndex →
      (SpecularRefractor.snell ray hit).radicand < 0 →
      1 < hit.material.getRefractiveIndex) := by
  refine ⟨?_, ?_, ?_⟩
  · intro h1 h2 h12
    have hr := snell_radicand_nonneg ray hit hd hN h1 h2 h12
    refine ⟨hr, ?_⟩
    intro scene f self st hcap
    have hnot : ¬ (SpecularRefractor.snell ray hit).radicand < 0 := not_lt.mpr hr
    rw [refractor_shade_below_cap env scene f self ray hit st hcap (fun h => hnot h.1)]
    simp only [SpecularRefractor.tracedRay, if_neg hnot]
  · intro hc hidx hm
    have hs := snell_entering ray hit hc
    apply snell_radicand_nonneg ray hit hd hN
    · rw [hs]; simp only [hidx]; exact one_pos
    · rw [hs]; simp only; linarith
    · rw [hs]; simp only [hidx]; exact hm
  · intro hc hm hrad
    by_contra hle
    have hle2 := not_lt.mp hle
    have hs := snell_exiting ray hit hc
    have := snell_radicand_nonneg ray hit hd hN
      (by rw [hs]; exact hm) (by rw [hs]; exact one_pos) (by rw [hs]; exact hle2)
    linarith

/-- C19 for the ray `exRaySlant` (index `1`) entering `exCrystal` (index
`39 / 25`): the radicand is not negative. -/
theorem C19_tir_needs_denser_source_witness :
    0 ≤ (SpecularRefractor.snell exRaySlant (exHit exCrystal)).radicand :=
  (C19_tir_needs_denser_source exEnv exRaySlant (exHit exCrystal)
    (by norm_num [Vector3.dot, exRaySlant]) (by norm_num [Vector3.dot, exHit])).2.1
    (by norm_num [Vector3.dot, exRaySlant, exHit]) rfl
    (by norm_num [exHit, exCrystal, Material.getRefractiveIndex])

/-- Normal incidence, entering: for `ray.d = -N` with a unit `N` the radicand
is `1` and the vector of line 140 is `ray.d`. -/
theorem normal_incidence_entering (env : Env K) (ray : Ray K) (hit : HitInfo K)
    (hN : Vector3.dot hit.N hit.N = 1) (h1 : env.sqrt 1 = 1) (hpar : ray.d = -hit.N) :
    (SpecularRefractor.snell ray hit).flipped = false ∧
    (SpecularRefractor.snell ray hit).radicand = 1 ∧
    SpecularRefractor.refractVec env ray (SpecularRefractor.snell ray hit) = ray.d := by
  have hc : Vector3.dot (-ray.d) hit.N = 1 := by
    rw [hpar, Vector3.neg_neg3, hN]
  have hs := snell_entering ray hit (by rw [hc]; exact one_pos)
  have hrad : (SpecularRefractor.snell ray hit).radicand = 1 := by
    rw [hs]
    simp only [Snell.radicand, hc]
    ring
  refine ⟨by rw [hs], hrad, ?_⟩
  unfold SpecularRefractor.refractVec
  rw [hrad, h1]
  rw [hs]
  simp only [hc]
  rw [hpar, Vector3.ext_iff3]
  simp only [Vector3.sub_x, Vector3.sub_y, Vector3.sub_z, Vector3.smul_x, Vector3.smul_y,
    Vector3.smul_z, Vector3.neg_x, Vector3.neg_y, Vector3.neg_z]
  refine ⟨by ring, by ring, by ring⟩

/-- Normal incidence, exiting: for `ray.d = N` with a unit `N` the radicand is
`1` and the vector of line 140 is `ray.d`. -/
theorem normal_incidence_exiting (env : Env K) (ray : Ray K) (hit : HitInfo K)
    (hN : Vector3.dot hit.N hit.N = 1) (h1 : env.sqrt 1 = 1) (hpar : ray.d = hit.N) :
    (SpecularRefractor.snell ray hit).flipped = true ∧
    (SpecularRefractor.snell ray hit).radicand = 1 ∧
    SpecularRefractor.refractVec env ray (SpecularRefractor.snell ray hit) = ray.d := by
  have hc : Vector3.dot (-ray.d) hit.N = -1 := by
    rw [hpar, Vector3.dot_neg_left, hN]
  have hs := snell_exiting ray hit (by rw [hc]; linarith)
  have hrad : (SpecularRefractor.snell ray hit).radicand = 1 := by
    rw [hs]
    simp only [Snell.radicand, hc]
    ring
  refine ⟨by rw [hs], hrad, ?_⟩
  unfold SpecularRefractor.refractVec
  rw [hrad, h1]
  rw [hs]
  simp only [hc]
  rw [hpar, Vector3.ext_iff3]
  simp only [Vector3.sub_x, Vector3.sub_y, Vector3.sub_z, Vector3.smul_x, Vector3.smul_y,
    Vector3.smul_z, Vector3.neg_x, Vector3.neg_y, Vector3.neg_z]
  refine ⟨by ring, by ring, by ring⟩

/-- C14: normal incidence.  For a unit normal `N`, positive indices of the ray
and of the material, and an incoming direction parallel to the normal axis
(`D = -N`, entering, or `D = N`, exiting), `SpecularRefractor::shade` computes
the radicand `1`, which is not negative, so it takes the refraction branch; the
direction of the refracted ray equals the incoming direction exactly (exact
arithmetic, `sqrt 1 = 1`), and below the cap this is the ray the call
traces. -/
theorem C14_normal_incidence (env : Env K) (ray : Ray K) (hit : HitInfo K)
    (hN : Vector3.dot hit.N hit.N = 1) (h1 : env.sqrt 1 = 1)
    (_hray : 0 < ray.refractiveIndex) (_hmat : 0 < hit.material.getRefractiveIndex)
    (hpar : ray.d = -hit.N ∨ ray.d = hit.N) :
    (SpecularRefractor.snell ray hit).radicand = 1 ∧
    ¬ (SpecularRefractor.snell ray hit).radicand < 0 ∧
    (ray.d = -hit.N → (SpecularRefractor.snell ray hit).flipped = false) ∧
    (ray.d = hit.N → (SpecularRefractor.snell ray hit).flipped = true) ∧
    refractedRayOf env ray hit
      = ⟨hit.P, ray.d, (SpecularRefractor.snell ray hit).refractedRayIndex⟩ ∧
    ∀ (scene : Scene K) (f : ShadeFn K) (self : Material K) (st : State K),
      st.refractorCalls ≠ env.SPECULAR_RECURSION_DEPTH →
      SpecularRefractor.shade env scene f self ray hit st
        = match SpecularRefractor.traceRay env scene f self
              ⟨hit.P, ray.d, (SpecularRefractor.snell ray hit).refractedRayIndex⟩
              st.incRefractor with
          | none => none
          | some (L, st2) =>
            some (phongHighlights env scene self ray hit L + self.m_ka, st2.decRefractor) := by
  have hd : Vector3.dot ray.d ray.d = 1 := by
    rcases hpar with h | h
    · rw [h, Vector3.dot_neg_left, Vector3.dot_neg_right, neg_neg, hN]
    · rw [h, hN]
  have key : (SpecularRefractor.snell ray hit).radicand = 1 ∧
      SpecularRefractor.refractVec env ray (SpecularRefractor.snell ray hit) = ray.d := by
    rcases hpar with h | h
    · exact (normal_incidence_entering env ray hit hN h1 h).2
    · exact (normal_incidence_exiting env ray hit hN h1 h).2
  have hnot : ¬ (SpecularRefractor.snell ray hit).radicand < 0 := by
    rw [key.1]; exact not_lt.mpr zero_le_one
  have href : refractedRayOf env ray hit
      = ⟨hit.P, ray.d, (SpecularRefractor.snell ray hit).refractedRayIndex⟩ := by
    unfold refractedRayOf
    rw [refractDir_eq_normalize, key.2, Vector3.normalize_unit env.sqrt h1 ray.d hd]
  refine ⟨key.1, hnot, fun h => (normal_incidence_entering env ray hit hN h1 h).1,
    fun h => (normal_incidence_exiting env ray hit hN h1 h).1, href, ?_⟩
  intro scene f self st hcap
  rw [refractor_shade_below_cap env scene f self ray hit st hcap (fun h => hnot h.1)]
  simp only [SpecularRefractor.tracedRay, if_neg hnot, href]

/-- C14 for the glass `exGlass` of index `3 / 2` hit head-on by `exRay`
(`D = -N`): the radicand is `1` and the refracted ray goes on along `D` with
the index of the glass. -/
theorem C14_normal_incidence_witness :
    (SpecularRefractor.snell exRay (exHit exGlass)).radicand = 1 ∧
    refractedRayOf exEnv exRay (exHit exGlass) = ⟨⟨0, 0, 0⟩, ⟨0, 0, -1⟩, 3 / 2⟩ := by
  have h := C14_normal_incidence exEnv exRay (exHit exGlass)
    (by norm_num [Vector3.dot, exHit]) Rat.sqrt_one_eq (by norm_num [exRay])
    (by norm_num [exHit, exGlass, Material.getRefractiveIndex])
    (Or.inl (by rw [Vector3.ext_iff3]; norm_num [exRay, exHit]))
  refine ⟨h.1, ?_⟩
  rw [h.2.2.2.2.1, snell_entering exRay (exHit exGlass)
    (by norm_num [Vector3.dot, exRay, exHit])]
  rfl

/-- The refracted ray of an entering ray, for unit vectors and a `sqrt` that
is exact at the radicand: its direction is the unit vector `T` of line 140
(already normalised), `dot (T, N) = -sqrt (radicand)`, and it carries the
index of the material. -/
theorem entering_refracted (env : Env K) (ray : Ray K) (hit : HitInfo K)
    (hD : Vector3.dot ray.d ray.d = 1) (hN : Vector3.dot hit.N hit.N = 1)
    (hc : 0 < Vector3.dot (-ray.d) hit.N) (h1 : env.sqrt 1 = 1)
    (hs : ExactSqrtAt env.sqrt (SpecularRefractor.snell ray hit).radicand) :
    refractedRayOf env ray hit
      = ⟨hit.P,
         (-(ray.refractiveIndex / hit.material.getRefractiveIndex))
            * (-ray.d - Vector3.dot (-ray.d) hit.N * hit.N)
          - env.sqrt (SpecularRefractor.snell ray hit).radicand * hit.N,
         hit.material.getRefractiveIndex⟩ ∧
    Vector3.dot
      ((-(ray.refractiveIndex / hit.material.getRefractiveIndex))
            * (-ray.d - Vector3.dot (-ray.d) hit.N * hit.N)
          - env.sqrt (SpecularRefractor.snell ray hit).radicand * hit.N) hit.N
      = -env.sqrt (SpecularRefractor.snell ray hit).radicand := by
  have e1 := snell_entering ray hit hc
  have hrad : env.sqrt (SpecularRefractor.snell ray hit).radicand
        * env.sqrt (SpecularRefractor.snell ray hit).radicand
      = 1 - (ray.refractiveIndex / hit.material.getRefractiveIndex)
            * (ray.refractiveIndex / hit.material.getRefractiveIndex)
          * (1 - Vector3.dot (-ray.d) hit.N * Vector3.dot (-ray.d) hit.N) := by
    rw [hs.2, e1]
    rfl
  obtain ⟨a1, a2, _⟩ := refract_algebra ray.d hit.N
    (ray.refractiveIndex / hit.material.getRefractiveIndex)
    (env.sqrt (SpecularRefractor.snell ray hit).radicand)
    (Vector3.dot (-ray.d) hit.N) hD hN rfl hrad
  refine ⟨?_, a2⟩
  have hv : SpecularRefractor.refractVec env ray (SpecularRefractor.snell ray hit)
      = (-(ray.refractiveIndex / hit.material.getRefractiveIndex))
            * (-ray.d - Vector3.dot (-ray.d) hit.N * hit.N)
          - env.sqrt (SpecularRefractor.snell ray hit).radicand * hit.N := by
    have f1 : (SpecularRefractor.snell ray hit).indexRatio
        = ray.refractiveIndex / hit.material.getRefractiveIndex := by rw [e1]; rfl
    have f2 : (SpecularRefractor.snell ray hit).nDotViewDir = Vector3.dot (-ray.d) hit.N := by
      rw [e1]
    have f3 : (SpecularRefractor.snell ray hit).normal = hit.N := by rw [e1]
    unfold SpecularRefractor.refractVec
    rw [f1, f2, f3]
  unfold refractedRayOf
  rw [refractDir_eq_normalize, hv, Vector3.normalize_unit env.sqrt h1 _ a1]
  rw [e1]

/-- The algebra of the way out: refracting `T = -(1/n) (-d - c N) - s N` with
ratio `n / 1`, cosine `s`, effective normal `-(-N)` and square root `c` gives
back `d`. -/
theorem roundtrip_algebra (d N : Vector3 K) (n c s : K) (hn : n ≠ 0) :
    (-(n / 1)) * (-((-(1 / n)) * (-d - c * N) - s * N) - s * (-(-N))) - c * (-(-N)) = d := by
  rw [Vector3.ext_iff3]
  simp only [Vector3.sub_x, Vector3.sub_y, Vector3.sub_z, Vector3.smul_x, Vector3.smul_y,
    Vector3.smul_z, Vector3.neg_x, Vector3.neg_y, Vector3.neg_z]
  refine ⟨?_, ?_, ?_⟩ <;> (field_simp; ring)

/-- The radicand of the way out is the square of the cosine of the way in. -/
theorem roundtrip_radicand (n c s : K) (hn : n ≠ 0)
    (hs : s * s = 1 - (1 / n) * (1 / n) * (1 - c * c)) :
    1 - (n / 1) * (n / 1) * (1 - s * s) = c * c := by
  rw [hs]
  field_simp

/-- C15: refraction round trip.  A ray of unit direction `D` carrying index
`1` enters a material of index `n > 0` at a point with unit normal `N`,
`dot (-D, N) > 0` (entering branch); the refracted ray then meets a symmetric
exit point of the same material whose outward normal is `-N` (exiting branch,
surrounding index `1`).  In exact arithmetic (`sqrt` exact at `1`, at the
first radicand, which is therefore not negative, and at the square of the
first cosine) neither step is a total internal reflection, the second
radicand is the square of the first cosine, and the ray refracted at the exit
has the direction `D` of the original ray and carries index `1`. -/
theorem C15_refraction_round_trip (env : Env K) (ray : Ray K) (hit hit2 : HitInfo K)
    (hD : Vector3.dot ray.d ray.d = 1) (hN : Vector3.dot hit.N hit.N = 1)
    (hc : 0 < Vector3.dot (-ray.d) hit.N)
    (hidx : ray.refractiveIndex = 1)
    (hn : 0 < hit.material.getRefractiveIndex)
    (hN2 : hit2.N = -hit.N)
    (hm2 : hit2.material.getRefractiveIndex = hit.material.getRefractiveIndex)
    (h1 : env.sqrt 1 = 1)
    (hs1 : ExactSqrtAt env.sqrt (SpecularRefractor.snell ray hit).radicand)
    (hs2 : ExactSqrtAt env.sqrt (Vector3.dot (-ray.d) hit.N * Vector3.dot (-ray.d) hit.N)) :
    (SpecularRefractor.snell ray hit).flipped = false ∧
    ¬ (SpecularRefractor.snell ray hit).radicand < 0 ∧
    (refractedRayOf env ray hit).refractiveIndex = hit.material.getRefractiveIndex ∧
    (SpecularRefractor.snell (refractedRayOf env ray hit) hit2).flipped = true ∧
    (SpecularRefractor.snell (refractedRayOf env ray hit) hit2).radicand
      = Vector3.dot (-ray.d) hit.N * Vector3.dot (-ray.d) hit.N ∧
    ¬ (SpecularRefractor.snell (refractedRayOf env ray hit) hit2).radicand < 0 ∧
    (refractedRayOf env (refractedRayOf env ray hit) hit2).d = ray.d ∧
    (refractedRayOf env (refractedRayOf env ray hit) hit2).refractiveIndex = 1 := by
  have hn0 : hit.material.getRefractiveIndex ≠ 0 := ne_of_gt hn
  have e1 := snell_entering ray hit hc
  obtain ⟨hray2, hTN⟩ := entering_refracted env ray hit hD hN hc h1 hs1
  -- the square of the first root, with the carried index `1`
  have hss : env.sqrt (SpecularRefractor.snell ray hit).radicand
        * env.sqrt (SpecularRefractor.snell ray hit).radicand
      = 1 - (1 / hit.material.getRefractiveIndex) * (1 / hit.material.getRefractiveIndex)
          * (1 - Vector3.dot (-ray.d) hit.N * Vector3.dot (-ray.d) hit.N) := by
    rw [hs1.2, e1]
    simp only [Snell.radicand, Snell.indexRatio, hidx]
  have hrad1 : ¬ (SpecularRefractor.snell ray hit).radicand < 0 := by
    rw [← hs1.2]; exact not_lt.mpr (mul_self_nonneg _)
  -- the second step is the exiting branch
  have hdir2 : (refractedRayOf env ray hit).d
      = (-(1 / hit.material.getRefractiveIndex))
            * (-ray.d - Vector3.dot (-ray.d) hit.N * hit.N)
          - env.sqrt (SpecularRefractor.snell ray hit).radicand * hit.N := by
    rw [hray2, hidx]
  have hcos2 : Vector3.dot (-(refractedRayOf env ray hit).d) hit2.N
      = -env.sqrt (SpecularRefractor.snell ray hit).radicand := by
    rw [hN2, Vector3.dot_neg_left, Vector3.dot_neg_right, neg_neg, hray2]
    exact hTN
  have e2 := snell_exiting (refractedRayOf env ray hit) hit2
    (by rw [hcos2]; linarith [hs1.1])
  have g1 : (SpecularRefractor.snell (refractedRayOf env ray hit) hit2).indexRatio
      = hit.material.getRefractiveIndex / 1 := by
    rw [e2]; simp only [Snell.indexRatio, hm2]
  have g2 : (SpecularRefractor.snell (refractedRayOf env ray hit) hit2).nDotViewDir
      = env.sqrt (SpecularRefractor.snell ray hit).radicand := by
    rw [e2]; simp only [hcos2, neg_neg]
  have g3 : (SpecularRefractor.snell (refractedRayOf env ray hit) hit2).normal
      = -(-hit.N) := by
    rw [e2]; simp only [hN2]
  have g4 : (SpecularRefractor.snell (refractedRayOf env ray hit) hit2).radicand
      = Vector3.dot (-ray.d) hit.N * Vector3.dot (-ray.d) hit.N := by
    unfold Snell.radicand
    rw [g1, g2]
    exact roundtrip_radicand _ _ _ hn0 hss
  have g5 : env.sqrt (Vector3.dot (-ray.d) hit.N * Vector3.dot (-ray.d) hit.N)
      = Vector3.dot (-ray.d) hit.N := by
    rcases mul_self_eq_mul_self_iff.mp hs2.2 with h | h
    · exact h
    · linarith [hs2.1]
  have g6 : (SpecularRefractor.snell (refractedRayOf env ray hit) hit2).refractedRayIndex
      = 1 := by
    rw [e2]
  have hvec : SpecularRefractor.refractVec env (refractedRayOf env ray hit)
      (SpecularRefractor.snell (refractedRayOf env ray hit) hit2) = ray.d := by
    unfold SpecularRefractor.refractVec
    rw [g4, g5, g1, g2, g3, hdir2]
    exact roundtrip_algebra ray.d hit.N _ _ _ hn0
  refine ⟨by rw [e1], hrad1, by rw [hray2], by rw [e2], g4, ?_, ?_, ?_⟩
  · rw [g4]; exact not_lt.mpr (mul_self_nonneg _)
  · show SpecularRefractor.refractDir env (refractedRayOf env ray hit)
      (SpecularRefractor.snell (refractedRayOf env ray hit) hit2) = ray.d
    rw [refractDir_eq_normalize, hvec, Vector3.normalize_unit env.sqrt h1 ray.d hD]
  · exact g6

/-- C15 for the ray `exRaySlant` (cosine `4 / 5`) through a slab of
`exCrystal` (index `39 / 25`): it enters at `exHit exCrystal`, leaves at
`exHitExit`, and comes out with its original direction `(3/5, 0, -4/5)` and
index `1`. -/
theorem C15_refraction_round_trip_witness :
    (refractedRayOf exEnv (refractedRayOf exEnv exRaySlant (exHit exCrystal)) exHitExit).d
      = ⟨3 / 5, 0, -4 / 5⟩ ∧
    (refractedRayOf exEnv (refractedRayOf exEnv exRaySlant (exHit exCrystal))
      exHitExit).refractiveIndex = 1 := by
  have hs1 : ExactSqrtAt exEnv.sqrt
      (SpecularRefractor.snell exRaySlant (exHit exCrystal)).radicand := by
    rw [exSlant_radicand]; exact Rat.sqrt_exact_sq _
  have h := C15_refraction_round_trip exEnv exRaySlant (exHit exCrystal) exHitExit
    (by norm_num [Vector3.dot, exRaySlant]) (by norm_num [Vector3.dot, exHit])
    (by norm_num [Vector3.dot, exRaySlant, exHit]) rfl
    (by norm_num [exHit, exCrystal, Material.getRefractiveIndex])
    (by rw [Vector3.ext_iff3]; norm_num [exHitExit, exHit]) rfl Rat.sqrt_one_eq hs1
    (Rat.sqrt_exact_sq _)
  exact ⟨h.2.2.2.2.2.2.1, h.2.2.2.2.2.2.2⟩

end Theorems

end Rendering
